import Mathlib

/-!
Verification of the resume-tailoring backend (resume_tailor.py, job_analysis.py,
main.py, markdown_utils.py) against its natural-language specification.

The Python code is shallowly embedded: strings are `List Char`, Python's
`str.split(sep, 1)`, `str.replace`, `str.strip`, `in` tests and f-string
concatenations become executable Lean functions, dynamic JSON values become an
inductive `Json` type, and the generative-AI model is an oracle parameter
`Chars -> Chars`.

Layout: all definitions first, then the theorems.
-/

set_option maxRecDepth 10000

namespace Resumer

/-! ## String primitives (Python string semantics) -/

/-- Characters of a Python string. -/
abbrev Chars := List Char

/-- Characters stripped by Python's `str.strip()` (the ASCII whitespace set). -/
def isPySpace (c : Char) : Bool :=
  c == ' ' || c == '\t' || c == '\n' || c == '\r' || c == '\x0b' || c == '\x0c'

/-- Python `str.strip()`: drop leading and trailing whitespace. -/
def pyStrip (l : Chars) : Chars :=
  ((l.dropWhile isPySpace).reverse.dropWhile isPySpace).reverse

/-- `startsWithL pre l` holds when `pre` is an initial segment of `l`
(models Python `str.startswith`). -/
def startsWithL : Chars → Chars → Bool
  | [], _ => true
  | _ :: _, [] => false
  | p :: ps, x :: xs => p == x && startsWithL ps xs

/-- Find the leftmost occurrence of `sep` in a string, returning the parts
before and after it.  This is the primitive under Python's `str.split(sep, 1)`
and the `in` operator. -/
def findSplit (sep : Chars) : Chars → Option (Chars × Chars)
  | [] => if sep.isEmpty then some ([], []) else none
  | x :: xs =>
    if startsWithL sep (x :: xs) then some ([], (x :: xs).drop sep.length)
    else
      match findSplit sep xs with
      | some (a, b) => some (x :: a, b)
      | none => none

/-- Python `sub in s` (substring membership). -/
def pyContains (l sub : Chars) : Bool := (findSplit sub l).isSome

/-- Python `s.split(sep, 1)`: the part before and the part after the first
occurrence of `sep`; when `sep` does not occur the whole string is the first
part (callers in the source only read the second part under an `in` guard). -/
def splitFirst (l sep : Chars) : Chars × Chars := (findSplit sep l).getD (l, [])

/-- The scan under Python `str.replace`, fuelled so that it reduces inside the
kernel; one unit of fuel per character position suffices. -/
def replaceListF : Nat → Chars → Chars → Chars → Chars
  | 0, _, _, l => l
  | _ + 1, _, _, [] => []
  | f + 1, sep, repl, x :: xs =>
    if startsWithL sep (x :: xs) then
      repl ++ replaceListF f sep repl ((x :: xs).drop sep.length)
    else x :: replaceListF f sep repl xs

/-- Python `s.replace(sep, repl)`: replace every occurrence of `sep`,
scanning left to right; the replacement text is not rescanned.  (The sources
never call `replace` with an empty pattern; that case is the identity here.) -/
def replaceList (sep repl l : Chars) : Chars :=
  if sep.isEmpty then l else replaceListF l.length sep repl l

/-- Python `"x".join(parts)` as list concatenation with separators
(`List.intercalate` restated for this development). -/
def joinWith (sep : Chars) (parts : List Chars) : Chars :=
  match parts with
  | [] => []
  | [p] => p
  | p :: rest => p ++ sep ++ joinWith sep rest

/-- Split a string at every occurrence of one character (the line structure of
the joined plain-text rendering). -/
def splitChar (c : Char) : Chars → List Chars
  | [] => [[]]
  | x :: xs =>
    match splitChar c xs with
    | [] => [[]]
    | h :: t => if x = c then [] :: h :: t else (x :: h) :: t

/-- No brace character occurs in the string: such a string can neither contain
nor complete a `\x7b\x7b...\x7d\x7d` placeholder token. -/
def braceFree (l : Chars) : Bool :=
  l.all (fun c => c != '\x7b' && c != '\x7d')

/-! ## Company and period splitting (`convert_json_to_markdown`, resume_tailor.py)

In the experience loop the company string is split into company and location
when it contains parentheses, and the period string is split on its first
hyphen. -/

/-- Location extraction from the company string, as the code does it:
```
if "(" in company and ")" in company:
    company_parts = company.split("(", 1)
    company = company_parts[0].strip()
    location = company_parts[1].replace(")", "").strip()
```
-/
def splitCompany (company : Chars) : Chars × Chars :=
  if pyContains company ['('] && pyContains company [')'] then
    let p := splitFirst company ['(']
    (pyStrip p.1, pyStrip (replaceList [')'] [] p.2))
  else (company, [])

/-- The company split as the claim words it: company is the (trimmed) part
before the first `(` and location is the part between the first `(` and the
last `)`. -/
def splitCompanyFirstLast (company : Chars) : Chars × Chars :=
  if company.contains '(' && company.contains ')' then
    let afterParen := (company.dropWhile (fun d => d != '(')).tail
    let upToLast := ((afterParen.reverse.dropWhile (fun d => d != ')')).tail).reverse
    (pyStrip (company.takeWhile (fun d => d != '(')), pyStrip upToLast)
  else (company, [])

/-- The company split as the source behaves: location is everything after the
first `(` with every `)` character deleted, trimmed. -/
def splitCompanyAmended (company : Chars) : Chars × Chars :=
  if company.contains '(' && company.contains ')' then
    (pyStrip (company.takeWhile (fun d => d != '(')),
     pyStrip (((company.dropWhile (fun d => d != '(')).tail).filter (fun d => d != ')')))
  else (company, [])

/-- Period splitting, as the code does it:
```
from_date = period
to_date = ""
if "-" in period:
    date_parts = period.split("-", 1)
    from_date = date_parts[0].strip()
    to_date = date_parts[1].strip()
```
-/
def splitPeriod (period : Chars) : Chars × Chars :=
  if pyContains period ['-'] then
    let p := splitFirst period ['-']
    (pyStrip p.1, pyStrip p.2)
  else (period, [])

/-- The period split as the claim words it: split on the first `-` with both
parts trimmed; with no `-` the whole string is the from part and the to part
is empty. -/
def splitPeriodSpec (period : Chars) : Chars × Chars :=
  if period.contains '-' then
    (pyStrip (period.takeWhile (fun d => d != '-')),
     pyStrip ((period.dropWhile (fun d => d != '-')).tail))
  else (period, [])

/-! ## JSON values

The oracle responses are dynamically-typed JSON.  `Json` models the values
Python's `json` module passes around; numbers are restricted to integers
(the resume pipeline never produces fractional literals, and floating point is
out of scope for this embedding). -/

inductive Json where
  | jnull : Json
  | jbool : Bool → Json
  | jnum : Int → Json
  | jstr : Chars → Json
  | jarr : List Json → Json
  | jobj : List (Chars × Json) → Json

/-- Fuelled digit printer; fuel exceeding the value always suffices. -/
def natCharsF : Nat → Nat → Chars
  | 0, _ => []
  | f + 1, n =>
    if n < 10 then [Nat.digitChar n]
    else natCharsF f (n / 10) ++ [Nat.digitChar (n % 10)]

/-- Decimal digits of a natural number, most significant first
(models the digits of Python's `json.dumps` integer output). -/
def natChars (n : Nat) : Chars := natCharsF (n + 1) n

/-- Integer literal text. -/
def intChars (n : Int) : Chars :=
  if n < 0 then '-' :: natChars n.natAbs else natChars n.toNat

/-- JSON string escaping as `json.dumps` performs it on the printable ASCII
fragment this pipeline produces (quote, backslash and the common control
characters; `\uXXXX` escaping of other code points is not modelled). -/
def escapeChar (c : Char) : Chars :=
  if c = '"' then ['\\', '"']
  else if c = '\\' then ['\\', '\\']
  else if c = '\n' then ['\\', 'n']
  else if c = '\t' then ['\\', 't']
  else if c = '\r' then ['\\', 'r']
  else if c = '\x08' then ['\\', 'b']
  else if c = '\x0c' then ['\\', 'f']
  else [c]

def escapeStr : Chars → Chars
  | [] => []
  | c :: cs => escapeChar c ++ escapeStr cs

/-! Serialization of a JSON value with `json.dumps`'s default separators
(`", "` between items, `": "` after keys). -/

mutual

def serialize : Json → Chars
  | .jnull => 'n' :: 'u' :: 'l' :: 'l' :: []
  | .jbool true => 't' :: 'r' :: 'u' :: 'e' :: []
  | .jbool false => 'f' :: 'a' :: 'l' :: 's' :: 'e' :: []
  | .jnum n => intChars n
  | .jstr s => '"' :: (escapeStr s ++ ['"'])
  | .jarr es => '[' :: (serializeElems es ++ [']'])
  | .jobj fs => '\x7b' :: (serializeFields fs ++ ['\x7d'])

def serializeElems : List Json → Chars
  | [] => []
  | [e] => serialize e
  | e :: rest => serialize e ++ ',' :: ' ' :: serializeElems rest

def serializeFields : List (Chars × Json) → Chars
  | [] => []
  | [(k, v)] => '"' :: (escapeStr k ++ '"' :: ':' :: ' ' :: serialize v)
  | (k, v) :: rest =>
    ('"' :: (escapeStr k ++ '"' :: ':' :: ' ' :: serialize v)) ++
      ',' :: ' ' :: serializeFields rest

end

/-! JSON parsing (models `json.loads` on the fragment above). -/

/-- JSON insignificant whitespace. -/
def isJsonWs (c : Char) : Bool := c == ' ' || c == '\t' || c == '\n' || c == '\r'

def skipWs (l : Chars) : Chars := l.dropWhile isJsonWs

def digitVal (c : Char) : Nat := c.toNat - '0'.toNat

def digitsToNat (ds : Chars) : Nat := ds.foldl (fun acc c => acc * 10 + digitVal c) 0

/-- Longest leading digit run and the remainder. -/
def parseDigits (l : Chars) : Chars × Chars :=
  (l.takeWhile Char.isDigit, l.dropWhile Char.isDigit)

def unescape (c : Char) : Option Char :=
  if c = '"' then some '"'
  else if c = '\\' then some '\\'
  else if c = '/' then some '/'
  else if c = 'n' then some '\n'
  else if c = 't' then some '\t'
  else if c = 'r' then some '\r'
  else if c = 'b' then some '\x08'
  else if c = 'f' then some '\x0c'
  else none

/-- Parse the body of a JSON string literal after its opening quote. -/
def parseStringRest : Chars → Option (Chars × Chars)
  | [] => none
  | c :: r =>
    if c = '"' then some ([], r)
    else if c = '\\' then
      match r with
      | [] => none
      | e :: r2 =>
        match unescape e with
        | some u => (parseStringRest r2).map (fun p => (u :: p.1, p.2))
        | none => none
    else (parseStringRest r).map (fun p => (c :: p.1, p.2))

/-! Recursive-descent JSON value parser, fuelled (each parser frame consumes
one unit of fuel, so any fuel at least `fuelFor` of the value suffices). -/

mutual

def parseVal : Nat → Chars → Option (Json × Chars)
  | 0, _ => none
  | fuel + 1, l =>
    let s := skipWs l
    if startsWithL ("null").data s then some (.jnull, s.drop 4)
    else if startsWithL ("true").data s then some (.jbool true, s.drop 4)
    else if startsWithL ("false").data s then some (.jbool false, s.drop 5)
    else
      match s with
      | [] => none
      | c :: r =>
        if c = '"' then (parseStringRest r).map (fun p => (.jstr p.1, p.2))
        else if c = '[' then
          let r1 := skipWs r
          if startsWithL [']'] r1 then some (.jarr [], r1.drop 1)
          else (parseElems fuel r1).map (fun p => (.jarr p.1, p.2))
        else if c = '\x7b' then
          let r1 := skipWs r
          if startsWithL ['\x7d'] r1 then some (.jobj [], r1.drop 1)
          else (parseFields fuel r1).map (fun p => (.jobj p.1, p.2))
        else if c = '-' then
          match parseDigits r with
          | ([], _) => none
          | (ds, rest) => some (.jnum (-(digitsToNat ds : Int)), rest)
        else if c.isDigit then
          match parseDigits (c :: r) with
          | (ds, rest) => some (.jnum (digitsToNat ds), rest)
        else none

def parseElems : Nat → Chars → Option (List Json × Chars)
  | 0, _ => none
  | fuel + 1, l =>
    match parseVal fuel l with
    | none => none
    | some (v, rest) =>
      let r1 := skipWs rest
      if startsWithL [','] r1 then
        (parseElems fuel (r1.drop 1)).map (fun p => (v :: p.1, p.2))
      else if startsWithL [']'] r1 then some ([v], r1.drop 1)
      else none

def parseFields : Nat → Chars → Option (List (Chars × Json) × Chars)
  | 0, _ => none
  | fuel + 1, l =>
    match skipWs l with
    | [] => none
    | c :: r =>
      if c = '"' then
        match parseStringRest r with
        | none => none
        | some (k, rest) =>
          let r1 := skipWs rest
          if startsWithL [':'] r1 then
            match parseVal fuel (r1.drop 1) with
            | none => none
            | some (v, rest2) =>
              let r2 := skipWs rest2
              if startsWithL [','] r2 then
                (parseFields fuel (r2.drop 1)).map (fun p => ((k, v) :: p.1, p.2))
              else if startsWithL ['\x7d'] r2 then some ([(k, v)], r2.drop 1)
              else none
          else none
      else none

end

/-! A size measure on JSON values for induction over the nested structure. -/

mutual

def jsize : Json → Nat
  | .jnull => 1
  | .jbool _ => 1
  | .jnum _ => 1
  | .jstr _ => 1
  | .jarr es => 1 + jsizeElems es
  | .jobj fs => 1 + jsizeFields fs

def jsizeElems : List Json → Nat
  | [] => 1
  | e :: rest => 1 + jsize e + jsizeElems rest

def jsizeFields : List (Chars × Json) → Nat
  | [] => 1
  | (_, v) :: rest => 1 + jsize v + jsizeFields rest

end

/-! Fuel that certainly suffices to parse a value (one unit per parser frame). -/

mutual

def fuelFor : Json → Nat
  | .jnull => 1
  | .jbool _ => 1
  | .jnum _ => 1
  | .jstr _ => 1
  | .jarr es => 1 + fuelForElems es
  | .jobj fs => 1 + fuelForFields fs

def fuelForElems : List Json → Nat
  | [] => 1
  | e :: rest => 1 + max (fuelFor e) (fuelForElems rest)

def fuelForFields : List (Chars × Json) → Nat
  | [] => 1
  | (_, v) :: rest => 1 + max (fuelFor v) (fuelForFields rest)

end

/-- `json.loads` on a whole document: parse one value and require only
whitespace after it. -/
def parseJsonTop (l : Chars) : Option Json :=
  match parseVal (l.length + 1) l with
  | some (v, rest) => if (skipWs rest).isEmpty then some v else none
  | none => none

/-! ## Response extraction

Both `analyze_job_description` (job_analysis.py) and `tailor_resume`
(resume_tailor.py) run the same fenced-block stripping:
```
if '```json' in text and '```' in text.split('```json', 1)[1]:
    json_str = text.split('```json', 1)[1].split('```', 1)[0].strip()
elif '```' in text and '```' in text.split('```', 1)[1]:
    json_str = text.split('```', 1)[1].split('```', 1)[0].strip()
else:
    json_str = text
```
then call `json.loads(json_str)`; they differ in how a `JSONDecodeError` is
handled. -/

def fenceJson : Chars := ("```json").data

def fence : Chars := ("```").data

def stripFences (text : Chars) : Chars :=
  if pyContains text fenceJson && pyContains (splitFirst text fenceJson).2 fence then
    pyStrip (splitFirst (splitFirst text fenceJson).2 fence).1
  else if pyContains text fence && pyContains (splitFirst text fence).2 fence then
    pyStrip (splitFirst (splitFirst text fence).2 fence).1
  else text

/-- The degraded result `analyze_job_description` returns when the oracle text
fails to parse: the raw text plus default/empty required fields. -/
def analyzeFallback (text : Chars) : Json :=
  .jobj [(("raw_analysis").data, .jstr text),
         (("job_title").data, .jstr ("Unknown").data),
         (("required_skills").data, .jarr []),
         (("keywords").data, .jarr [])]

/-- Response extraction of `analyze_job_description`: parse, or fall back. -/
def analyzeExtract (text : Chars) : Json :=
  match parseJsonTop (stripFences text) with
  | some v => v
  | none => analyzeFallback text

/-- Response extraction of `tailor_resume`: parse, or raise
`Exception(f"Failed to parse tailored resume as JSON. Raw output saved to {raw_file_path}")`
(modelled as `Except.error`); `timestamp` names the raw dump file. -/
def tailorExtract (timestamp text : Chars) : Except Chars Json :=
  match parseJsonTop (stripFences text) with
  | some v => .ok v
  | none =>
    .error (("Failed to parse tailored resume as JSON. Raw output saved to output/tailored_resume_raw_").data
      ++ timestamp ++ (".txt").data)

/-! ## Resume records

The tailored resume is a duck-typed JSON object; the variants below mirror the
`isinstance` branches the renderers take.  A `references` key that is absent
and one holding an empty list are rendered identically (`"references" in r and
r["references"]` is false either way), so both are modelled as `[]`. -/

structure RefRec where
  name : Option Chars
  text : Option Chars
  link : Option Chars

/-- An experience or skills-category value: a list of strings or a bare
string. -/
inductive SkillsField where
  | items : List Chars → SkillsField
  | text : Chars → SkillsField

structure ExpEntry where
  title : Option Chars
  company : Option Chars
  period : Option Chars
  summary : Option Chars
  highlights : Option (List Chars)
  skills : Option SkillsField

/-- Top-level `skills`: a mapping category -> list-or-string, a flat list, or a
bare string. -/
inductive SkillsVal where
  | cat : List (Chars × SkillsField) → SkillsVal
  | flat : List Chars → SkillsVal
  | other : Chars → SkillsVal

structure EduRec where
  degree : Option Chars
  university : Option Chars
  period : Option Chars
  description : Option Chars

inductive EduItem where
  | record : EduRec → EduItem
  | text : Chars → EduItem

/-- Top-level `education`: a single record, a list of records/strings, or a
bare string. -/
inductive EduVal where
  | record : EduRec → EduVal
  | list : List EduItem → EduVal
  | text : Chars → EduVal

structure ResumeRecord where
  name : Chars
  contact : List (Chars × Chars)
  summary : Chars
  references : List RefRec
  experience : List ExpEntry
  skills : SkillsVal
  education : EduVal

/-! ## Plain-text rendering (`convert_json_to_text`, resume_tailor.py) -/

/-- Reference line: `f"{ref.get('name', '')} - Link: {ref.get('link', '')}"`. -/
def refLine (r : RefRec) : Chars :=
  (r.name.getD []) ++ (" - Link: ").data ++ (r.link.getD [])

/-- Title and company on one line: `f"{exp.get('title', '')} at {exp.get('company', '')}"`. -/
def titleCompanyLine (e : ExpEntry) : Chars :=
  (e.title.getD []) ++ (" at ").data ++ (e.company.getD [])

/-- The `Skills:` line of an experience entry, or nothing when the key is
absent or falsy. -/
def expSkillsLine (s : Option SkillsField) : List Chars :=
  match s with
  | some (.items l) =>
    if l.isEmpty then [] else [("Skills: ").data ++ joinWith (", ").data l]
  | some (.text t) => if t.isEmpty then [] else [("Skills: ").data ++ t]
  | none => []

/-- The block of lines one experience entry contributes. -/
def expTextLines (e : ExpEntry) : List Chars :=
  [titleCompanyLine e]
  ++ (match e.period with | some p => [p] | none => [])
  ++ expSkillsLine e.skills
  ++ (match e.summary with | some s => [s] | none => [])
  ++ (match e.highlights with
      | some hs => if hs.isEmpty then [] else hs.map (fun h => ("• ").data ++ h)
      | none => [])
  ++ [[]]

def skillsFieldText : SkillsField → Chars
  | .items l => joinWith (", ").data l
  | .text t => t

def skillsTextLines : SkillsVal → List Chars
  | .cat cats => cats.map (fun kv => kv.1 ++ (": ").data ++ skillsFieldText kv.2)
  | .flat l => [joinWith (", ").data l]
  | .other s => [s]

def eduRecLines (e : EduRec) : List Chars :=
  [(e.degree.getD []) ++ (" - ").data ++ (e.university.getD [])]
  ++ (match e.period with | some p => [p] | none => [])
  ++ (match e.description with | some d => [d] | none => [])

def eduTextLines : EduVal → List Chars
  | .record e => eduRecLines e
  | .list items =>
    (items.map (fun it => match it with
      | .record e => eduRecLines e
      | .text t => [t])).flatten
  | .text t => [t]

/-- The `text_content` list `convert_json_to_text` builds, in source order. -/
def textContent (r : ResumeRecord) : List Chars :=
  [r.name]
  ++ r.contact.map (fun kv => kv.1 ++ (": ").data ++ kv.2)
  ++ [("----").data]
  ++ [("SUMMARY").data, r.summary, []]
  ++ (if r.references.isEmpty then [] else
        [("PROFESSIONAL REFERENCES").data] ++ r.references.map refLine ++ [[]])
  ++ [("EXPERIENCE").data]
  ++ (r.experience.map expTextLines).flatten
  ++ [("SKILLS").data]
  ++ skillsTextLines r.skills
  ++ [[]]
  ++ [("EDUCATION").data]
  ++ eduTextLines r.education

/-- `convert_json_to_text`: the full text, `"\n".join(text_content)`. -/
def convert_json_to_text (r : ResumeRecord) : Chars :=
  joinWith ['\n'] (textContent r)

/-! ## Markdown rendering (`convert_json_to_markdown`, resume_tailor.py)

The fragment templates live in `output_template/*.md`, data files that are not
part of the Python sources; they are modelled here from the spec.  Python's
`s.replace(old, new)` is `pyReplace s old new`. -/

/-- Python `s.replace(old, new)` in source argument order. -/
def pyReplace (s old new : Chars) : Chars := replaceList old new s

/-- A `\x7b\x7bname\x7d\x7d` placeholder token. -/
def ph (name : Chars) : Chars := '\x7b' :: '\x7b' :: (name ++ ['\x7d', '\x7d'])

def nl : Chars := ['\n']

/-- Modelled from the spec: the top-level `output_template.md`, one placeholder
per section, spliced in the order the code substitutes them. -/
def output_template : Chars :=
  ph ("top_section").data ++ nl ++ ph ("summary_section").data ++ nl
  ++ ph ("references_section").data ++ nl ++ ph ("experiences_section").data ++ nl
  ++ ph ("skills_section").data ++ nl ++ ph ("education_section").data ++ nl

/-- Modelled from the spec: `top_section.md` with `name`, `location_section`
and `contacts` placeholders, each occurring once. -/
def top_section_template : Chars :=
  ("# ").data ++ ph ("name").data ++ nl ++ ph ("location_section").data ++ nl
  ++ ("<div align=\"center\">").data ++ ph ("contacts").data ++ ("</div>").data ++ nl

/-- Modelled from the spec: `location_section.md` with a `location`
placeholder. -/
def location_section_template : Chars :=
  ("<em>").data ++ ph ("location").data ++ ("</em>").data

/-- Modelled from the spec: `summary_section.md` with a `summary` placeholder. -/
def summary_section_template : Chars :=
  ("## Summary").data ++ nl ++ ph ("summary").data ++ nl

/-- Modelled from the spec: `references_section.md` with a `references`
placeholder. -/
def references_section_template : Chars :=
  ("## References").data ++ nl ++ ph ("references").data ++ nl

/-- Modelled from the spec: `reference_item.md` with `name`, `text` and `link`
placeholders. -/
def reference_item_template : Chars :=
  ("- **").data ++ ph ("name").data ++ ("**: ").data ++ ph ("text").data
  ++ (" (").data ++ ph ("link").data ++ (")").data ++ nl

/-- Modelled from the spec: `experiences_section.md` with an `experiences`
placeholder. -/
def experiences_section_template : Chars :=
  ("## Experience").data ++ nl ++ ph ("experiences").data

/-- Modelled from the spec: `experience_item.md` with `position`,
`company_name`, `location`, `from`, `to`, `description`, `skills` and
`highlights` placeholders, each occurring once. -/
def experience_item_template : Chars :=
  ("### ").data ++ ph ("position").data ++ (" | ").data ++ ph ("company_name").data ++ nl
  ++ ("<em>").data ++ ph ("location").data ++ ("</em> | ").data
  ++ ph ("from").data ++ (" - ").data ++ ph ("to").data ++ nl
  ++ ph ("description").data ++ nl
  ++ ("Skills: ").data ++ ph ("skills").data ++ nl
  ++ ph ("highlights").data ++ nl

/-- Modelled from the spec: `experience_highlights.md` with a `highlights`
placeholder. -/
def experience_highlights_template : Chars :=
  ("<ul>").data ++ nl ++ ph ("highlights").data ++ ("</ul>").data

/-- Modelled from the spec: `experience_highlight_item.md` with a `highlight`
placeholder. -/
def experience_highlight_item_template : Chars :=
  ("<li>").data ++ ph ("highlight").data ++ ("</li>").data ++ nl

/-- Modelled from the spec: `skills_section.md` with a `skills` placeholder. -/
def skills_section_template : Chars :=
  ("## Skills").data ++ nl ++ ph ("skills").data

/-- Modelled from the spec: `skill_section_item.md` with `category` and
`skills` placeholders. -/
def skill_section_item_template : Chars :=
  ("- **").data ++ ph ("category").data ++ ("**: ").data ++ ph ("skills").data

/-- Modelled from the spec: `education_section.md` with `degree`, `university`,
`period` and `description` placeholders. -/
def education_section_template : Chars :=
  ("## Education").data ++ nl
  ++ ("### ").data ++ ph ("degree").data ++ (" - ").data ++ ph ("university").data ++ nl
  ++ ph ("period").data ++ nl ++ ph ("description").data ++ nl

/-- Contact links HTML, skipping the `location` key:
`f'<a href="{value}" style="...">{key}</a>'` joined with `" | "`. -/
def contactsHtml (contact : List (Chars × Chars)) : Chars :=
  joinWith (" | ").data
    ((contact.filter (fun kv => kv.1 != ("location").data)).map (fun kv =>
      ("<a href=\"").data ++ kv.2
      ++ ("\" style=\"margin: 0 0.5em; color: #0366d6; text-decoration: underline;\">").data
      ++ kv.1 ++ ("</a>").data))

/-- The location section: substituted only when `contact` holds a truthy
`location`, otherwise the empty string. -/
def renderLocationSection (contact : List (Chars × Chars)) : Chars :=
  match contact.lookup ("location").data with
  | some loc =>
    if loc.isEmpty then []
    else pyReplace location_section_template (ph ("location").data) loc
  | none => []

def renderTopSection (r : ResumeRecord) : Chars :=
  let t1 := pyReplace top_section_template (ph ("name").data) r.name
  let t2 := pyReplace t1 (ph ("location_section").data) (renderLocationSection r.contact)
  pyReplace t2 (ph ("contacts").data) (contactsHtml r.contact)

def renderSummarySection (r : ResumeRecord) : Chars :=
  pyReplace summary_section_template (ph ("summary").data) r.summary

/-- `skills_text` of an experience entry (empty when absent or falsy). -/
def expSkillsText (s : Option SkillsField) : Chars :=
  match s with
  | some (.items l) => if l.isEmpty then [] else joinWith (", ").data l
  | some (.text t) => if t.isEmpty then [] else t
  | none => []

/-- A highlight is emitted when both it and its stripped form are truthy. -/
def highlightTruthy (h : Chars) : Bool := !h.isEmpty && !(pyStrip h).isEmpty

/-- The highlights HTML of one experience entry (empty unless the list is
truthy and some member strips to a truthy string). -/
def renderHighlights (hl : Option (List Chars)) : Chars :=
  let highlights := hl.getD []
  if !highlights.isEmpty && highlights.any (fun h => !(pyStrip h).isEmpty) then
    let items := highlights.foldl (fun acc h =>
      if highlightTruthy h then
        acc ++ pyReplace experience_highlight_item_template (ph ("highlight").data) h
      else acc) []
    pyReplace experience_highlights_template (ph ("highlights").data) items
  else []

/-- One experience item: company/location and period splitting followed by the
eight placeholder substitutions, in source order. -/
def renderExpItem (e : ExpEntry) : Chars :=
  let title := e.title.getD []
  let cl := splitCompany (e.company.getD [])
  let ft := splitPeriod (e.period.getD [])
  let description := e.summary.getD []
  let skills_text := expSkillsText e.skills
  let highlights_html := renderHighlights e.highlights
  let t := experience_item_template
  let t := pyReplace t (ph ("position").data) title
  let t := pyReplace t (ph ("company_name").data) cl.1
  let t := pyReplace t (ph ("location").data) cl.2
  let t := pyReplace t (ph ("from").data) ft.1
  let t := pyReplace t (ph ("to").data) ft.2
  let t := pyReplace t (ph ("description").data) description
  let t := pyReplace t (ph ("skills").data) skills_text
  pyReplace t (ph ("highlights").data) highlights_html

def renderExperiencesSection (exps : List ExpEntry) : Chars :=
  pyReplace experiences_section_template (ph ("experiences").data)
    (exps.foldl (fun acc e => acc ++ renderExpItem e ++ nl) [])

def renderSkillsSection (sk : SkillsVal) : Chars :=
  let skills_html :=
    match sk with
    | .cat cats => cats.foldl (fun acc kv =>
        acc ++ pyReplace (pyReplace skill_section_item_template
          (ph ("category").data) kv.1) (ph ("skills").data) (skillsFieldText kv.2) ++ nl) []
    | _ => []
  pyReplace skills_section_template (ph ("skills").data) skills_html

/-- The hard-coded defaults of the education section. -/
def defaultDegree : Chars := ("Bachelor of Information Technology").data

def defaultUniversity : Chars := ("James Cook University, Singapore").data

def defaultEduPeriod : Chars := ("Jan 2009 - Dec 2011").data

def defaultEduDescription : Chars :=
  ("Major concentration in Software Development, Algorithm Design, and Database Management Systems with distinction.").data

/-- The education section: placeholders are substituted (with hard-coded
defaults for absent keys) only when `education` is a mapping; otherwise the
template is emitted untouched. -/
def renderEducationSection (e : EduVal) : Chars :=
  match e with
  | .record ed =>
    let t := education_section_template
    let t := pyReplace t (ph ("degree").data) (ed.degree.getD defaultDegree)
    let t := pyReplace t (ph ("university").data) (ed.university.getD defaultUniversity)
    let t := pyReplace t (ph ("period").data) (ed.period.getD defaultEduPeriod)
    pyReplace t (ph ("description").data) (ed.description.getD defaultEduDescription)
  | _ => education_section_template

def renderReferencesSection (refs : List RefRec) : Chars :=
  if refs.isEmpty then []
  else
    let html := refs.foldl (fun acc ref =>
      acc ++ pyReplace (pyReplace (pyReplace reference_item_template
        (ph ("name").data) (ref.name.getD []))
        (ph ("text").data) (ref.text.getD []))
        (ph ("link").data) (ref.link.getD ("#").data)) []
    pyReplace references_section_template (ph ("references").data) html

/-- `convert_json_to_markdown`: splice the six sections into the top-level
template, in source order. -/
def convert_json_to_markdown (r : ResumeRecord) : Chars :=
  let t := output_template
  let t := pyReplace t (ph ("top_section").data) (renderTopSection r)
  let t := pyReplace t (ph ("summary_section").data) (renderSummarySection r)
  let t := pyReplace t (ph ("references_section").data) (renderReferencesSection r.references)
  let t := pyReplace t (ph ("experiences_section").data) (renderExperiencesSection r.experience)
  let t := pyReplace t (ph ("skills_section").data) (renderSkillsSection r.skills)
  pyReplace t (ph ("education_section").data) (renderEducationSection r.education)

/-! ## Question answering (`generate_question_answers`, job_analysis.py) -/

/-- `json.dumps(xs, indent=2)` for a list of strings, as interpolated into the
question prompt. -/
def dumpsStrList2 (xs : List Chars) : Chars :=
  match xs with
  | [] => ('[' :: [']'])
  | _ =>
    ('[' :: nl)
    ++ joinWith (',' :: nl) (xs.map (fun s => ("  ").data ++ '"' :: (escapeStr s ++ ['"'])))
    ++ nl ++ [']']

/-- The `skills_text` serialization shared by the cover-letter and
question-answer prompts: categories as `"cat: a, b"` lines, a flat list
joined with `", "`, or the bare string. -/
def skillsPromptText : SkillsVal → Chars
  | .cat cats => joinWith nl (cats.map (fun kv => kv.1 ++ (": ").data ++ skillsFieldText kv.2))
  | .flat l => joinWith (", ").data l
  | .other s => s

/-- The `exp_info` block of one experience entry in the question prompt. -/
def expInfoText (e : ExpEntry) : Chars :=
  joinWith nl
    ([("Position: ").data ++ e.title.getD [],
      ("Company: ").data ++ e.company.getD [],
      ("Period: ").data ++ e.period.getD []]
     ++ (match e.summary with | some s => [("Summary: ").data ++ s] | none => [])
     ++ (match e.highlights with
         | some hs =>
           if hs.isEmpty then []
           else [("Highlights:").data] ++ hs.map (fun h => ("- ").data ++ h)
         | none => []))

/-- The per-question prompt f-string of `generate_question_answers`. -/
def questionPrompt (r : ResumeRecord) (jobDescription question : Chars) : Chars :=
  ("\n        I'm applying for a job and need to answer an application question. I'll provide my resume information, the job description, and the question.\n        \n        RESUME INFORMATION:\n        Name: ").data
  ++ r.name
  ++ ("\n        Professional Summary: ").data ++ r.summary
  ++ ("\n        Skills: ").data ++ skillsPromptText r.skills
  ++ ("\n        \n        Experience:\n        ").data
  ++ dumpsStrList2 (r.experience.map expInfoText)
  ++ ("\n        \n        JOB DESCRIPTION:\n        ").data ++ jobDescription
  ++ ("\n        \n        APPLICATION QUESTION:\n        ").data ++ question
  ++ ("\n        \n        Please provide a well-crafted answer to this question based on my resume and the job description. The answer should:\n        1. Be concise but comprehensive (100-200 words)\n        2. Highlight relevant experience, skills, and achievements\n        3. Demonstrate how my background makes me a good fit for this role\n        4. Use specific examples whenever possible\n        5. Be professional in tone and language\n        6. Use markdown formatting with **bold** for technical skills and important terms (like **JavaScript**, **team management**, etc.)\n        7. Use proper paragraph spacing for readability\n        \n        Return ONLY the answer to the question, with no explanations or additional text.\n        ").data

/-- `generate_question_answers`: the for-loop over questions, appending the
trimmed oracle response for each question's prompt. -/
def generate_question_answers (oracle : Chars → Chars) (questions : List Chars)
    (jobDescription : Chars) (r : ResumeRecord) : List Chars :=
  questions.foldl (fun answers q =>
    answers ++ [pyStrip (oracle (questionPrompt r jobDescription q))]) []

/-! ## Output file names (main.py `tailor_resume_endpoint`,
job_analysis.py `generate_cover_letter`, markdown_utils.py) -/

def pyStartswith (s pre : Chars) : Bool := startsWithL pre s

/-- The cover-letter file prefix; the endpoint passes the template name in the
`timestamp` argument:
```
if timestamp and not timestamp.startswith("2"):
    file_prefix = f"{template_name}_cover_letter"
else:
    file_prefix = f"cover_letter_{timestamp}" if timestamp else "cover_letter"
```
-/
def coverLetterPrefix (timestamp : Chars) : Chars :=
  if !timestamp.isEmpty && !pyStartswith timestamp ['2'] then
    timestamp ++ ("_cover_letter").data
  else if !timestamp.isEmpty then ("cover_letter_").data ++ timestamp
  else ("cover_letter").data

/-- The names (under `output/`) of every file one successful `/tailor-resume`
request writes, in write order: the timestamped JSON, text and markdown
intermediates, then the template-name-qualified resume markdown and PDF, then
the cover-letter markdown (written twice: once by `generate_cover_letter` and
once as the temporary file of `generate_pdf_from_markdown`) and PDF.  Each
write stamps its own `datetime.now()`; `ts` models a request whose clock
stays within one second. -/
def tailorRequestWrites (templateName ts : Chars) : List Chars :=
  [("tailored_resume_").data ++ ts ++ (".json").data,
   ("tailored_resume_text_").data ++ ts ++ (".txt").data,
   ("tailored_resume_markdown_").data ++ ts ++ (".md").data,
   pyReplace (templateName ++ ("_resume.pdf").data) (".pdf").data (".md").data,
   templateName ++ ("_resume.pdf").data,
   coverLetterPrefix templateName ++ (".md").data,
   pyReplace (coverLetterPrefix templateName ++ (".pdf").data) (".pdf").data (".md").data,
   coverLetterPrefix templateName ++ (".pdf").data]

/-! ## HTTP endpoints (main.py)

Routes declaring `current_user: dict = Depends(get_current_user)` run the
bearer-token check before their body: a missing `Authorization` header is
rejected by `HTTPBearer` with 403, an invalid token by `get_current_user` with
401.  `auth` abstracts token validation (`jwt.decode` plus the users.json
lookup). -/

abbrev Cred := Option Chars

abbrev FS := List (Chars × Chars)

structure TailoredResumeResponse where
  resume_url : Chars
  cover_letter_url : Option Chars
  answers : Option (List Chars)
  json_path : Option Chars
  text_path : Option Chars

inductive Response where
  | fileInline : Chars → Response
  | fileDownload : Chars → Chars → Response
  | okTemplates : List Chars → Response
  | okContent : Chars → Response
  | okTailored : TailoredResumeResponse → Response
  | err : Nat → Chars → Response

/-- Whether a response serves a file (inline or as attachment). -/
def isFileResponse : Response → Bool
  | .fileInline _ => true
  | .fileDownload _ _ => true
  | _ => false

/-- The bearer-token gate of the protected routes. -/
def protectedGate (auth : Chars → Bool) (cred : Cred) : Option (Nat × Chars) :=
  match cred with
  | none => some (403, ("Not authenticated").data)
  | some t => if auth t then none else some (401, ("Could not validate credentials").data)

/-- `GET /download/resume/{filename}`: no auth dependency is declared, so the
credential is never consulted. -/
def download_resume (fs : FS) (filename : Chars) (mode : Option Chars)
    (_cred : Cred) : Response :=
  match fs.lookup filename with
  | none => .err 404 ("Resume not found").data
  | some _ =>
    let template_name :=
      if pyContains filename ("_resume").data then (splitFirst filename ("_resume").data).1
      else ("tailored").data
    if mode == some ("download").data then
      .fileDownload filename (template_name ++ ("_resume.pdf").data)
    else .fileInline filename

/-- `GET /download/cover_letter/{filename}`: no auth dependency is declared. -/
def download_cover_letter (fs : FS) (filename : Chars) (mode : Option Chars)
    (_cred : Cred) : Response :=
  match fs.lookup filename with
  | none => .err 404 ("Cover letter not found").data
  | some _ =>
    let template_name :=
      if pyContains filename ("_cover_letter").data then
        (splitFirst filename ("_cover_letter").data).1
      else ("default").data
    if mode == some ("download").data then
      .fileDownload filename (template_name ++ ("_cover_letter.pdf").data)
    else .fileInline filename

/-- `GET /templates` (auth-gated): list the template directory. -/
def get_templates (auth : Chars → Bool) (templatesDir : List Chars)
    (cred : Cred) : Response :=
  match protectedGate auth cred with
  | some cd => .err cd.1 cd.2
  | none => .okTemplates templatesDir

/-- `GET /cover_letter/content/{filename}` (auth-gated): read the markdown
twin of the named PDF. -/
def get_cover_letter_content (auth : Chars → Bool) (fs : FS) (filename : Chars)
    (cred : Cred) : Response :=
  match protectedGate auth cred with
  | some cd => .err cd.1 cd.2
  | none =>
    let md_filename := pyReplace filename (".pdf").data (".md").data
    match fs.lookup md_filename with
    | none => .err 404 ("Cover letter markdown not found").data
    | some content => .okContent content

structure JobSubmission where
  job_description : Chars
  questions : Option (List Chars)
  template : Option Chars
  return_json : Bool

/-- Python truthiness of a JSON value. -/
def jsonTruthy : Json → Bool
  | .jnull => false
  | .jbool b => b
  | .jnum n => n != 0
  | .jstr s => !s.isEmpty
  | .jarr es => !es.isEmpty
  | .jobj fs => !fs.isEmpty

/-- `os.path.basename`. -/
def basename (p : Chars) : Chars := (p.reverse.takeWhile (fun c => c != '/')).reverse

/-- The root of `os.path.splitext`: drop the extension after the last dot. -/
def splitExtRoot (base : Chars) : Chars :=
  let root := ((base.reverse.dropWhile (fun c => c != '.')).tail).reverse
  if root.isEmpty then base else root

/-! `json.dumps(v, indent=2)` as interpolated into the tailoring prompt. -/

mutual

def dumpsInd (ind : Nat) : Json → Chars
  | .jnull => serialize .jnull
  | .jbool b => serialize (.jbool b)
  | .jnum n => serialize (.jnum n)
  | .jstr s => serialize (.jstr s)
  | .jarr [] => '[' :: [']']
  | .jarr (e :: es) =>
    ('[' :: nl) ++ dumpsIndElems (ind + 2) (e :: es) ++ nl
    ++ List.replicate ind ' ' ++ [']']
  | .jobj [] => '\x7b' :: ['\x7d']
  | .jobj (f :: fs) =>
    ('\x7b' :: nl) ++ dumpsIndFields (ind + 2) (f :: fs) ++ nl
    ++ List.replicate ind ' ' ++ ['\x7d']

def dumpsIndElems (ind : Nat) : List Json → Chars
  | [] => []
  | [e] => List.replicate ind ' ' ++ dumpsInd ind e
  | e :: rest =>
    List.replicate ind ' ' ++ dumpsInd ind e ++ ',' :: nl ++ dumpsIndElems ind rest

def dumpsIndFields (ind : Nat) : List (Chars × Json) → Chars
  | [] => []
  | [(k, v)] =>
    List.replicate ind ' ' ++ '"' :: (escapeStr k ++ '"' :: ':' :: ' ' :: dumpsInd ind v)
  | (k, v) :: rest =>
    (List.replicate ind ' ' ++ '"' :: (escapeStr k ++ '"' :: ':' :: ' ' :: dumpsInd ind v))
    ++ ',' :: nl ++ dumpsIndFields ind rest

end

/-- The tailoring prompt of `tailor_resume` (resume_tailor.py, the f-string at
the top of the function, with the job description and the `indent=2` dump of
the template resume interpolated). -/
def tailoringPrompt (jobDescription : Chars) (resumeStructure : Json) : Chars :=
  ("\n    I need to tailor my resume for a specific job. I'll provide my current resume structure in JSON format and the job description.\n    \n    JOB DESCRIPTION:\n    ").data
  ++ jobDescription
  ++ ("\n    \n    MY CURRENT RESUME (in JSON format):\n    ").data
  ++ dumpsInd 0 resumeStructure
  ++ ("\n    \n    Based on the job description, please create a tailored version of my resume by modifying the following sections:\n    \n    1. Summary: Rewrite to emphasize skills and experiences relevant to this specific job\n       - Use <strong>bold</strong> formatting for technical skills (e.g. <strong>JavaScript</strong>, <strong>Python</strong>, <strong>AWS</strong>, etc)\n       - Make the summary concise and focused on the job requirements\n    \n    2. Experience: For each experience entry:\n       - Keep the company name and period the same\n       - Adjust the job title to match the job description\n       - Tailor the summary to match the job description, to highlight relevant achievements, using markdown for technical terms\n       - The 'highlights' section is optional\n       - If you include highlights, use markdown to bold important technical terms\n       - re-write and tailor each highlight to better match the job requirements\n       - Adjust the skills to better match the job requirements (add or remove skills as needed)\n    \n    3. Skills: Reorganize and emphasize skills relevant to the job\n       - Prioritize skills mentioned in the job description\n       - Filter out unrelevant skills\n       - Keep the same structure but adjust the content\n    \n    Do NOT modify:\n    - Name and contact information\n    - Company names and dates\n    - Education section structure\n    \n    Important: Use <strong>bold</strong> syntax directly in your text for all technical terms and skills (like <strong>JavaScript</strong>, <strong>Python</strong>, <strong>AWS</strong>, etc). And convert all markdown syntax(**bold**) to <strong>bold</strong> format. And NEVER use junior for any title.\n    \n    Return ONLY a JSON object with the same structure as the input but with tailored content. \n    Do not include any explanations or additional text outside the JSON.\n    ").data

/-- `POST /tailor-resume` (auth-gated).  `store` maps template paths to their
parsed JSON, `interp` is the bridge from the untyped tailored JSON to the
typed record the renderers consume (`none` models a shape on which the
renderers' key accesses raise, which the endpoint turns into a 500), and any
exception in the body surfaces as a 500 with an `Error tailoring resume:`
detail. -/
def tailor_resume_endpoint (auth : Chars → Bool) (oracle : Chars → Chars)
    (store : List (Chars × Json)) (interp : Json → Option ResumeRecord)
    (job : JobSubmission) (ts : Chars) (cred : Cred) : Response :=
  match protectedGate auth cred with
  | some cd => .err cd.1 cd.2
  | none =>
    let templateArg := match job.template with | some t => t | none => ("None").data
    match store.lookup (("resume_templates/").data ++ templateArg) with
    | none =>
      .err 500 (("Error tailoring resume: [Errno 2] No such file or directory: 'resume_templates/").data
        ++ templateArg ++ ("'").data)
    | some resume_structure =>
      match tailorExtract ts (oracle (tailoringPrompt job.job_description resume_structure)) with
      | .error msg => .err 500 (("Error tailoring resume: ").data ++ msg)
      | .ok tailored =>
        match interp tailored with
        | none => .err 500 (("Error tailoring resume: ").data ++ ("bad resume shape").data)
        | some record =>
          let template_name :=
            match job.template with
            | some t => if t.isEmpty then ("default").data else splitExtRoot (basename t)
            | none => ("default").data
          let pdf_name := template_name ++ ("_resume.pdf").data
          .okTailored
            { resume_url := ("/download/resume/").data ++ pdf_name
              cover_letter_url :=
                if jsonTruthy tailored then
                  some (("/download/cover_letter/").data
                    ++ coverLetterPrefix template_name ++ (".pdf").data)
                else none
              answers :=
                match job.questions with
                | some qs =>
                  if qs.isEmpty then none
                  else some (generate_question_answers oracle qs job.job_description record)
                | none => none
              json_path :=
                if job.return_json then
                  some (("output/tailored_resume_").data ++ ts ++ (".json").data)
                else none
              text_path :=
                if job.return_json then
                  some (("output/tailored_resume_text_").data ++ ts ++ (".txt").data)
                else none }

/-! Brace-freedom of a resume record: none of its string values contains a
brace character, so no value can contain or complete a placeholder token. -/

def braceFreeOpt (o : Option Chars) : Bool := braceFree (o.getD [])

def braceFreeSkillsField : SkillsField → Bool
  | .items l => l.all braceFree
  | .text t => braceFree t

def braceFreeExp (e : ExpEntry) : Bool :=
  braceFreeOpt e.title && braceFreeOpt e.company && braceFreeOpt e.period
  && braceFreeOpt e.summary && (e.highlights.getD []).all braceFree
  && (match e.skills with | some sf => braceFreeSkillsField sf | none => true)

def braceFreeRef (ref : RefRec) : Bool :=
  braceFreeOpt ref.name && braceFreeOpt ref.text && braceFree (ref.link.getD ("#").data)

def braceFreeSkills : SkillsVal → Bool
  | .cat cats => cats.all (fun kv => braceFree kv.1 && braceFreeSkillsField kv.2)
  | .flat l => l.all braceFree
  | .other s => braceFree s

def braceFreeEdu (ed : EduRec) : Bool :=
  braceFree (ed.degree.getD defaultDegree)
  && braceFree (ed.university.getD defaultUniversity)
  && braceFree (ed.period.getD defaultEduPeriod)
  && braceFree (ed.description.getD defaultEduDescription)

def braceFreeResume (r : ResumeRecord) : Bool :=
  braceFree r.name
  && r.contact.all (fun kv => braceFree kv.1 && braceFree kv.2)
  && braceFree r.summary
  && r.references.all braceFreeRef
  && r.experience.all braceFreeExp
  && braceFreeSkills r.skills
  && (match r.education with | .record ed => braceFreeEdu ed | _ => true)

/-- A concrete resume record used to instantiate the universally quantified
theorems. -/
def exampleResume : ResumeRecord :=
  { name := ("Jane Roe").data
    contact := [(("email").data, ("mailto:jane@example.com").data),
                (("github").data, ("https://github.com/janeroe").data),
                (("location").data, ("Singapore").data)]
    summary := ("Engineer with <strong>Python</strong> experience.").data
    references := [{ name := some ("Sam Lee").data
                     text := some ("Former manager").data
                     link := some ("https://example.com/sam").data }]
    experience :=
      [{ title := some ("Senior Engineer").data
         company := some ("Acme Corp (Remote)").data
         period := some ("Jan 2020 - Mar 2022").data
         summary := some ("Led the backend team.").data
         highlights := some [("Shipped the billing service.").data]
         skills := some (.items [("Python").data, ("AWS").data]) },
       { title := some ("Engineer").data
         company := some ("Globex").data
         period := some ("2018 - 2019").data
         summary := none
         highlights := none
         skills := none }]
    skills := .cat [(("Languages").data, .items [("Python").data, ("Go").data]),
                    (("Cloud").data, .text ("AWS").data)]
    education := .record { degree := some ("BSc Computing").data
                           university := some ("Example University").data
                           period := some ("2014 - 2018").data
                           description := some ("First class honours.").data } }

/-- A resume whose education field is a list rather than a mapping (the
renderer then emits the education template untouched). -/
def listEducationResume : ResumeRecord :=
  { name := ("Jane Roe").data
    contact := []
    summary := ("Hi").data
    references := []
    experience := []
    skills := .flat []
    education := .list [.record { degree := some ("BSc Computing").data
                                  university := none
                                  period := none
                                  description := none }] }

/-! # Theorems

First the generic lemmas about the string primitives, then the development
for each claim. -/

theorem startsWithL_iff (pre l : Chars) :
    startsWithL pre l = true ↔ ∃ t, l = pre ++ t := by
  induction pre generalizing l with
  | nil => simp [startsWithL]
  | cons p ps ih =>
    cases l with
    | nil =>
      simp only [startsWithL, Bool.false_eq_true, false_iff]
      rintro ⟨t, ht⟩; simp at ht
    | cons x xs =>
      simp only [startsWithL, Bool.and_eq_true, beq_iff_eq, ih]
      constructor
      · rintro ⟨rfl, t, rfl⟩; exact ⟨t, rfl⟩
      · rintro ⟨t, ht⟩
        injection ht with h1 h2
        exact ⟨h1.symm, t, h2⟩

theorem findSplit_eq_append {sep l a b : Chars}
    (h : findSplit sep l = some (a, b)) : l = a ++ sep ++ b := by
  induction l generalizing a with
  | nil =>
    by_cases hs : sep.isEmpty
    · simp only [findSplit, hs, if_true, Option.some.injEq, Prod.mk.injEq] at h
      obtain ⟨rfl, rfl⟩ := h
      cases sep with
      | nil => rfl
      | cons c cs => simp [List.isEmpty] at hs
    · simp [findSplit, hs] at h
  | cons x xs ih =>
    simp only [findSplit] at h
    by_cases hp : startsWithL sep (x :: xs) = true
    · rw [if_pos hp] at h
      obtain ⟨t, ht⟩ := (startsWithL_iff sep (x :: xs)).mp hp
      simp only [Option.some.injEq, Prod.mk.injEq] at h
      obtain ⟨rfl, rfl⟩ := h
      rw [ht, List.drop_left]
      rfl
    · rw [if_neg hp] at h
      cases hfs : findSplit sep xs with
      | none => rw [hfs] at h; simp at h
      | some ab =>
        obtain ⟨a', b'⟩ := ab
        rw [hfs] at h
        simp only [Option.some.injEq, Prod.mk.injEq] at h
        obtain ⟨rfl, rfl⟩ := h
        have := ih hfs
        simp [this]

/-- If the first character of `sep` does not occur in `a`, the leftmost
occurrence of `sep` in `a ++ sep ++ b` is exactly at the junction. -/
theorem findSplit_boundary {h0 : Char} {s2 a b : Chars}
    (ha : h0 ∉ a) :
    findSplit (h0 :: s2) (a ++ (h0 :: s2) ++ b) = some (a, b) := by
  induction a with
  | nil =>
    have hp : startsWithL (h0 :: s2) ((h0 :: s2) ++ b) = true :=
      (startsWithL_iff _ _).mpr ⟨b, rfl⟩
    simp only [List.nil_append, findSplit, List.append_eq, ← List.cons_append]
    rw [if_pos hp, List.drop_left]
  | cons x xs ih =>
    have hx : h0 ≠ x := fun he => ha (he ▸ List.mem_cons_self x xs)
    have hxs : h0 ∉ xs := fun hm => ha (List.mem_cons_of_mem x hm)
    simp only [List.cons_append, findSplit, List.append_eq]
    have hp : startsWithL (h0 :: s2) (x :: (xs ++ (h0 :: s2) ++ b)) = false := by
      simp only [startsWithL, Bool.and_eq_false_iff, beq_eq_false_iff_ne, ne_eq]
      exact Or.inl hx
    simp only [List.append_assoc] at hp ⊢
    rw [hp]
    simp only [Bool.false_eq_true, if_false]
    have := ih hxs
    simp only [List.append_assoc] at this
    rw [this]

/-- If the first character of `sep` does not occur in `l` at all, `sep` does
not occur in `l`. -/
theorem findSplit_none {h0 : Char} {s2 l : Chars} (hl : h0 ∉ l) :
    findSplit (h0 :: s2) l = none := by
  induction l with
  | nil => simp [findSplit, List.isEmpty]
  | cons x xs ih =>
    have hx : h0 ≠ x := fun he => hl (he ▸ List.mem_cons_self x xs)
    have hxs : h0 ∉ xs := fun hm => hl (List.mem_cons_of_mem x hm)
    simp only [findSplit]
    have hp : startsWithL (h0 :: s2) (x :: xs) = false := by
      simp only [startsWithL, Bool.and_eq_false_iff, beq_eq_false_iff_ne, ne_eq]
      exact Or.inl hx
    rw [hp]
    simp [ih hxs]

/-- The fuelled replace scan ignores the exact fuel once it covers the string
length (for a non-empty pattern). -/
theorem replaceListF_irrel {sep : Chars} (hsep : sep ≠ []) (repl : Chars) :
    ∀ f g l, l.length ≤ f → l.length ≤ g →
      replaceListF f sep repl l = replaceListF g sep repl l := by
  intro f
  induction f with
  | zero =>
    intro g l hf _
    have : l = [] := List.length_eq_zero.mp (Nat.le_zero.mp hf)
    subst this
    cases g <;> rfl
  | succ f ih =>
    intro g l hf hg
    cases l with
    | nil => cases g <;> rfl
    | cons x xs =>
      cases g with
      | zero => simp at hg
      | succ g =>
        have hslen : 1 ≤ sep.length := by
          cases sep with
          | nil => exact absurd rfl hsep
          | cons c cs => simp
        simp only [replaceListF]
        by_cases hp : startsWithL sep (x :: xs) = true
        · rw [if_pos hp, if_pos hp]
          have hlen : ((x :: xs).drop sep.length).length ≤ f := by
            simp only [List.length_drop, List.length_cons]
            simp only [List.length_cons] at hf
            omega
          have hlen2 : ((x :: xs).drop sep.length).length ≤ g := by
            simp only [List.length_drop, List.length_cons]
            simp only [List.length_cons] at hg
            omega
          rw [ih g _ hlen hlen2]
        · rw [if_neg hp, if_neg hp]
          have hxf : xs.length ≤ f := by simp only [List.length_cons] at hf; omega
          have hxg : xs.length ≤ g := by simp only [List.length_cons] at hg; omega
          rw [ih g _ hxf hxg]

theorem replaceList_nil (sep repl : Chars) : replaceList sep repl [] = [] := by
  rw [replaceList]
  cases sep <;> rfl

/-- The one-step unfolding of `replaceList` on a non-empty string: Python's
scan either consumes a match or moves one character right. -/
theorem replaceList_cons {sep : Chars} (hsep : sep ≠ []) (repl : Chars)
    (x : Char) (xs : Chars) :
    replaceList sep repl (x :: xs) =
      if startsWithL sep (x :: xs) then
        repl ++ replaceList sep repl ((x :: xs).drop sep.length)
      else x :: replaceList sep repl xs := by
  have hie : sep.isEmpty = false := by
    cases sep with
    | nil => exact absurd rfl hsep
    | cons c cs => rfl
  have hslen : 1 ≤ sep.length := by
    cases sep with
    | nil => exact absurd rfl hsep
    | cons c cs => simp
  rw [replaceList, if_neg (by simp [hie])]
  simp only [List.length_cons, replaceListF]
  by_cases hp : startsWithL sep (x :: xs) = true
  · rw [if_pos hp, if_pos hp, replaceList, if_neg (by simp [hie])]
    have h1 : ((x :: xs).drop sep.length).length ≤ xs.length := by
      simp only [List.length_drop, List.length_cons]
      omega
    rw [replaceListF_irrel hsep repl xs.length ((x :: xs).drop sep.length).length _ h1
      (Nat.le_refl _)]
  · rw [if_neg hp, if_neg hp, replaceList, if_neg (by simp [hie])]

theorem findSplit_none_inv {sep : Chars} {x : Char} {xs : Chars}
    (h : findSplit sep (x :: xs) = none) :
    startsWithL sep (x :: xs) = false ∧ findSplit sep xs = none := by
  simp only [findSplit] at h
  by_cases hp : startsWithL sep (x :: xs) = true
  · rw [if_pos hp] at h; cases h
  · refine ⟨by simpa using hp, ?_⟩
    rw [if_neg hp] at h
    cases hfs : findSplit sep xs with
    | none => rfl
    | some ab => rcases ab with ⟨a, b⟩; rw [hfs] at h; simp at h

/-- A pattern that does not occur in the string is never substituted. -/
theorem replaceList_of_none {sep repl l : Chars} (hsep : sep ≠ [])
    (h : findSplit sep l = none) : replaceList sep repl l = l := by
  induction l with
  | nil => exact replaceList_nil _ _
  | cons x xs ih =>
    obtain ⟨h1, h2⟩ := findSplit_none_inv h
    rw [replaceList_cons hsep repl, h1]
    simp [ih h2]

/-- Substituting a pattern whose first character is absent from the prefix and
which does not occur in the suffix splices in the replacement once. -/
theorem replaceList_once {h0 : Char} {s2 repl a b : Chars}
    (ha : h0 ∉ a) (hb : findSplit (h0 :: s2) b = none) :
    replaceList (h0 :: s2) repl (a ++ (h0 :: s2) ++ b) = a ++ repl ++ b := by
  induction a with
  | nil =>
    have hp : startsWithL (h0 :: s2) ((h0 :: s2) ++ b) = true :=
      (startsWithL_iff _ _).mpr ⟨b, rfl⟩
    simp only [List.nil_append]
    rw [show (h0 :: s2) ++ b = h0 :: (s2 ++ b) from rfl,
      replaceList_cons (by simp) repl]
    rw [show (h0 :: (s2 ++ b)) = (h0 :: s2) ++ b from rfl]
    rw [if_pos hp, List.drop_left, replaceList_of_none (by simp) hb]
  | cons x xs ih =>
    have hx : h0 ≠ x := fun he => ha (he ▸ List.mem_cons_self x xs)
    have hxs : h0 ∉ xs := fun hm => ha (List.mem_cons_of_mem x hm)
    have hp : startsWithL (h0 :: s2) (x :: (xs ++ ((h0 :: s2) ++ b))) = false := by
      simp only [startsWithL, Bool.and_eq_false_iff, beq_eq_false_iff_ne, ne_eq]
      exact Or.inl hx
    rw [show (x :: xs) ++ (h0 :: s2) ++ b = x :: (xs ++ ((h0 :: s2) ++ b)) by simp,
      replaceList_cons (by simp) repl]
    rw [hp]
    simp only [Bool.false_eq_true, if_false]
    have := ih hxs
    simp only [List.append_assoc] at this ⊢
    rw [this]
    simp

/-- A pattern whose first character is absent from the string is never
substituted. -/
theorem replaceList_id {h0 : Char} {s2 repl l : Chars} (hl : h0 ∉ l) :
    replaceList (h0 :: s2) repl l = l := by
  induction l with
  | nil => exact replaceList_nil _ _
  | cons x xs ih =>
    have hx : h0 ≠ x := fun he => hl (he ▸ List.mem_cons_self x xs)
    have hxs : h0 ∉ xs := fun hm => hl (List.mem_cons_of_mem x hm)
    rw [replaceList_cons (by simp) repl]
    have hp : startsWithL (h0 :: s2) (x :: xs) = false := by
      simp only [startsWithL, Bool.and_eq_false_iff, beq_eq_false_iff_ne, ne_eq]
      exact Or.inl hx
    simp [hp, ih hxs]

/-- Substituting a pattern that occurs exactly once (first character of the
pattern absent from both sides) splices in the replacement. -/
theorem replaceList_single {h0 : Char} {s2 repl a b : Chars}
    (ha : h0 ∉ a) (hb : h0 ∉ b) :
    replaceList (h0 :: s2) repl (a ++ (h0 :: s2) ++ b) = a ++ repl ++ b := by
  induction a with
  | nil =>
    have hp : startsWithL (h0 :: s2) ((h0 :: s2) ++ b) = true :=
      (startsWithL_iff _ _).mpr ⟨b, rfl⟩
    simp only [List.nil_append]
    rw [show (h0 :: s2) ++ b = h0 :: (s2 ++ b) from rfl,
      replaceList_cons (by simp) repl]
    rw [show (h0 :: (s2 ++ b)) = (h0 :: s2) ++ b from rfl]
    rw [if_pos hp, List.drop_left, replaceList_id hb]
  | cons x xs ih =>
    have hx : h0 ≠ x := fun he => ha (he ▸ List.mem_cons_self x xs)
    have hxs : h0 ∉ xs := fun hm => ha (List.mem_cons_of_mem x hm)
    have hp : startsWithL (h0 :: s2) (x :: (xs ++ ((h0 :: s2) ++ b))) = false := by
      simp only [startsWithL, Bool.and_eq_false_iff, beq_eq_false_iff_ne, ne_eq]
      exact Or.inl hx
    rw [show (x :: xs) ++ (h0 :: s2) ++ b = x :: (xs ++ ((h0 :: s2) ++ b)) by simp,
      replaceList_cons (by simp) repl]
    rw [hp]
    simp only [Bool.false_eq_true, if_false]
    have := ih hxs
    simp only [List.append_assoc] at this ⊢
    rw [this]
    simp

theorem braceFree_append (a b : Chars) :
    braceFree (a ++ b) = (braceFree a && braceFree b) := by
  simp [braceFree, List.all_append]

theorem braceFree_lb_not_mem {a : Chars} (h : braceFree a = true) : '\x7b' ∉ a := by
  intro hm
  have := List.all_eq_true.mp h _ hm
  simp at this

theorem braceFree_rb_not_mem {a : Chars} (h : braceFree a = true) : '\x7d' ∉ a := by
  intro hm
  have := List.all_eq_true.mp h _ hm
  simp at this

/-- One placeholder substitution against a template slice whose prefix is
brace-free and whose suffix does not contain the placeholder again. -/
theorem subst_ph {pname : Chars} (repl : Chars) {a b : Chars}
    (ha : braceFree a = true) (hb : findSplit (ph pname) b = none) :
    pyReplace (a ++ ph pname ++ b) (ph pname) repl = a ++ repl ++ b := by
  rw [pyReplace, ph] at *
  exact replaceList_once (braceFree_lb_not_mem ha) hb

theorem findSplit_singleton {c : Char} {l : Chars} (hc : c ∈ l) :
    findSplit [c] l =
      some (l.takeWhile (fun d => d != c), (l.dropWhile (fun d => d != c)).tail) := by
  induction l with
  | nil => cases hc
  | cons x xs ih =>
    by_cases hx : c = x
    · subst hx
      simp only [findSplit, startsWithL, beq_self_eq_true, Bool.and_eq_true, and_true,
        if_pos rfl]
      simp [List.takeWhile_cons, List.dropWhile_cons]
    · have hcx : c ∈ xs := by
        cases hc with
        | head => exact absurd rfl hx
        | tail _ h => exact h
      simp only [findSplit, startsWithL]
      have hbx : (c == x && true) = false := by
        simp [beq_eq_false_iff_ne]; exact hx
      simp only [hbx, Bool.false_eq_true, if_false, ih hcx]
      have hne : (x != c) = true := by
        simp [bne_iff_ne]; exact fun he => hx he.symm
      simp [List.takeWhile_cons, List.dropWhile_cons, hne]

theorem pyContains_singleton (c : Char) (l : Chars) :
    pyContains l [c] = true ↔ c ∈ l := by
  constructor
  · intro h
    by_contra hc
    rw [pyContains, findSplit_none hc] at h
    simp at h
  · intro hc
    rw [pyContains, findSplit_singleton hc]
    rfl

/-- When a character occurs, a string splits into the part before the first
occurrence, the character, and the rest. -/
theorem takeWhile_char_decomp {c : Char} {l : Chars} (hc : c ∈ l) :
    l = l.takeWhile (fun d => d != c) ++ c :: (l.dropWhile (fun d => d != c)).tail := by
  have h := findSplit_eq_append (findSplit_singleton hc)
  simpa using h

theorem mem_takeWhile_ne {c : Char} {l : Chars} {d : Char}
    (hd : d ∈ l.takeWhile (fun e => e != c)) : d ≠ c := by
  have := List.mem_takeWhile_imp hd
  simpa [bne_iff_ne] using this

/-- Replacing a single character by the empty string deletes every occurrence
of it (Python `s.replace(c, "")` behaves as a character filter). -/
theorem replaceList_singleton_nil (c : Char) (l : Chars) :
    replaceList [c] [] l = l.filter (fun d => d != c) := by
  induction l with
  | nil => rw [replaceList_nil]; rfl
  | cons x xs ih =>
    rw [replaceList_cons (by simp) []]
    by_cases hx : c = x
    · subst hx
      have hs : startsWithL [c] (c :: xs) = true := by simp [startsWithL]
      simp [hs, ih, List.filter_cons]
    · have hs : startsWithL [c] (x :: xs) = false := by
        simp only [startsWithL, Bool.and_eq_false_iff, beq_eq_false_iff_ne, ne_eq]
        exact Or.inl hx
      have hne : (x != c) = true := by
        simp [bne_iff_ne]; exact fun he => hx he.symm
      simp [hs, ih, List.filter_cons, hne]

theorem contains_iff_mem (c : Char) (l : Chars) : l.contains c = true ↔ c ∈ l := by
  simp [List.contains, List.elem_eq_mem]

theorem pyContains_char_eq (l : Chars) (c : Char) :
    pyContains l [c] = l.contains c := by
  by_cases hm : c ∈ l
  · rw [(pyContains_singleton c l).mpr hm, ((contains_iff_mem c l).mpr hm)]
  · have h1 : pyContains l [c] = false := by
      rw [pyContains, findSplit_none hm]; rfl
    have h2 : l.contains c = false := by
      by_contra hb
      exact hm ((contains_iff_mem c l).mp (by simpa using hb))
    rw [h1, h2]

theorem splitFirst_char {c : Char} {l : Chars} (hc : c ∈ l) :
    splitFirst l [c] =
      (l.takeWhile (fun d => d != c), (l.dropWhile (fun d => d != c)).tail) := by
  rw [splitFirst, findSplit_singleton hc]; rfl

/-! ## Claims C4 and C5: company and period splitting -/

theorem splitPeriod_eq_spec (p : Chars) : splitPeriod p = splitPeriodSpec p := by
  rw [splitPeriod, splitPeriodSpec, pyContains_char_eq]
  split_ifs with h
  · rw [splitFirst_char ((contains_iff_mem '-' p).mp h)]
  · rfl

theorem splitCompany_eq_amended (c : Chars) : splitCompany c = splitCompanyAmended c := by
  rw [splitCompany, splitCompanyAmended, pyContains_char_eq, pyContains_char_eq]
  split_ifs with h
  · have h1 : '(' ∈ c :=
      (contains_iff_mem '(' c).mp ((Bool.and_eq_true _ _).mp h).1
    dsimp only
    rw [splitFirst_char h1, replaceList_singleton_nil]
  · rfl

/-- Claim C5: for every experience entry, the period string is split on the
first `-` into from/to parts with surrounding whitespace trimmed (so
`"Jan 2020 - Mar 2022"` yields from `"Jan 2020"` and to `"Mar 2022"`), and a
period with no `-` yields the whole string as from and the empty string as
to. -/
theorem claim_C5_period_split :
    (∀ p : Chars, splitPeriod p = splitPeriodSpec p)
    ∧ splitPeriod ("Jan 2020 - Mar 2022").data = (("Jan 2020").data, ("Mar 2022").data)
    ∧ splitPeriod ("2022").data = (("2022").data, []) :=
  ⟨splitPeriod_eq_spec, by decide, by decide⟩

/-- Claim C4, counterexample: the code does not locate the last `)`; it deletes
every `)` from everything after the first `(`, so `"Acme (Remote) Inc"` yields
location `"Remote Inc"` where the first-`(`/last-`)` rule of the claim yields
`"Remote"`. -/
theorem claim_C4_counterexample :
    splitCompany ("Acme (Remote) Inc").data ≠ splitCompanyFirstLast ("Acme (Remote) Inc").data
    ∧ splitCompany ("Acme (Remote) Inc").data = (("Acme").data, ("Remote Inc").data)
    ∧ splitCompanyFirstLast ("Acme (Remote) Inc").data = (("Acme").data, ("Remote").data) :=
  ⟨by decide, by decide, by decide⟩

/-- Claim C4, amended: when the company string contains both `(` and `)`, the
company is the trimmed part before the first `(` and the location is
everything after the first `(` with every `)` character deleted and
whitespace trimmed (so `"Acme Corp (Remote)"` yields company `"Acme Corp"`
and location `"Remote"`); otherwise the company string is kept whole and the
location is empty. -/
theorem claim_C4_company_split_amended :
    (∀ c : Chars, splitCompany c = splitCompanyAmended c)
    ∧ splitCompany ("Acme Corp (Remote)").data = (("Acme Corp").data, ("Remote").data)
    ∧ splitCompany ("Acme Corp").data = (("Acme Corp").data, []) :=
  ⟨splitCompany_eq_amended, by decide, by decide⟩

/-! ## Claim C7: plain-text rendering -/

theorem splitChar_ne_nil (c : Char) (l : Chars) : splitChar c l ≠ [] := by
  cases l with
  | nil => simp [splitChar]
  | cons x xs =>
    simp only [splitChar]
    cases splitChar c xs with
    | nil => simp
    | cons h t =>
      by_cases hx : x = c <;> simp [hx]

theorem splitChar_no {c : Char} {l : Chars} (h : c ∉ l) : splitChar c l = [l] := by
  induction l with
  | nil => rfl
  | cons x xs ih =>
    have hx : x ≠ c := fun he => h (he ▸ List.mem_cons_self x xs)
    have hxs : c ∉ xs := fun hm => h (List.mem_cons_of_mem x hm)
    simp only [splitChar, ih hxs]
    rw [if_neg hx]

theorem splitChar_append (c : Char) (a b : Chars) :
    splitChar c (a ++ c :: b) = splitChar c a ++ splitChar c b := by
  induction a with
  | nil =>
    simp only [List.nil_append, splitChar]
    cases hsb : splitChar c b with
    | nil => exact absurd hsb (splitChar_ne_nil c b)
    | cons h t => simp
  | cons x xs ih =>
    simp only [List.cons_append, splitChar, List.append_eq]
    rw [ih]
    cases hsx : splitChar c xs with
    | nil => exact absurd hsx (splitChar_ne_nil c xs)
    | cons h t =>
      by_cases hx : x = c
      · simp [hx]
      · simp [hx]

theorem lines_append (c : Char) (A B : List Chars) :
    ((A ++ B).map (splitChar c)).flatten
      = (A.map (splitChar c)).flatten ++ (B.map (splitChar c)).flatten := by
  simp

theorem splitChar_joinWith (c : Char) :
    ∀ parts : List Chars, parts ≠ [] →
      splitChar c (joinWith [c] parts) = (parts.map (splitChar c)).flatten := by
  intro parts
  induction parts with
  | nil => intro h; exact absurd rfl h
  | cons p rest ih =>
    intro _
    cases rest with
    | nil => simp [joinWith]
    | cons q rs =>
      have hj : joinWith [c] (p :: q :: rs) = p ++ c :: joinWith [c] (q :: rs) := by
        show p ++ [c] ++ joinWith [c] (q :: rs) = _
        simp
      rw [hj, splitChar_append, ih (List.cons_ne_nil q rs)]
      simp

/-- The first line of a `[c]`-joined list whose first item is `c`-free is that
first item. -/
theorem joinWith_head_line {c : Char} (p : Chars) (rest : List Chars)
    (hp : c ∉ p) :
    (splitChar c (joinWith [c] (p :: rest))).head? = some p := by
  cases rest with
  | nil =>
    simp [joinWith, splitChar_no hp]
  | cons q rs =>
    have hj : joinWith [c] (p :: q :: rs) = p ++ c :: joinWith [c] (q :: rs) := by
      show p ++ [c] ++ joinWith [c] (q :: rs) = _
      simp
    rw [hj, splitChar_append, splitChar_no hp]
    rfl

/-- The title/company lines embed, in order, into the lines of the flattened
experience blocks. -/
theorem tc_sublist_blocks (exps : List ExpEntry)
    (h : ∀ e ∈ exps, '\n' ∉ titleCompanyLine e) :
    List.Sublist (exps.map titleCompanyLine)
      (((exps.map expTextLines).flatten.map (splitChar '\n')).flatten) := by
  induction exps with
  | nil => simp
  | cons e es ih =>
    have he : '\n' ∉ titleCompanyLine e := h e (List.mem_cons_self e es)
    have hes : ∀ x ∈ es, '\n' ∉ titleCompanyLine x :=
      fun x hx => h x (List.mem_cons_of_mem e hx)
    have hshape : expTextLines e = titleCompanyLine e :: (expTextLines e).tail := rfl
    simp only [List.map_cons, List.flatten_cons]
    rw [hshape]
    simp only [List.cons_append, List.map_cons, List.flatten_cons,
      List.map_append, List.flatten_append]
    rw [splitChar_no he]
    simp only [List.cons_append, List.nil_append]
    refine List.Sublist.cons₂ _ ?_
    refine List.Sublist.trans (ih hes) ?_
    exact List.sublist_append_right _ _

/-- Claim C7, amended: provided the name and every experience entry's title and
company contain no newline character, the plain-text rendering has the name as
its first line and contains the `"{title} at {company}"` line of every
experience entry, in entry order. -/
theorem claim_C7_plaintext_amended (r : ResumeRecord)
    (hname : '\n' ∉ r.name)
    (hexp : ∀ e ∈ r.experience, '\n' ∉ e.title.getD [] ∧ '\n' ∉ e.company.getD []) :
    (splitChar '\n' (convert_json_to_text r)).head? = some r.name
    ∧ List.Sublist (r.experience.map titleCompanyLine)
        (splitChar '\n' (convert_json_to_text r)) := by
  have htc : ∀ e ∈ r.experience, '\n' ∉ titleCompanyLine e := by
    intro e hemem hm
    rcases List.mem_append.mp hm with hm1 | hm2
    · rcases List.mem_append.mp hm1 with hm3 | hm4
      · exact (hexp e hemem).1 hm3
      · simp at hm4
    · exact (hexp e hemem).2 hm2
  have hshape : textContent r = r.name :: (textContent r).tail := rfl
  constructor
  · rw [convert_json_to_text, hshape]
    exact joinWith_head_line r.name _ hname
  · rw [convert_json_to_text,
      splitChar_joinWith '\n' (textContent r) (by rw [hshape]; simp)]
    rw [show textContent r =
      ([r.name]
        ++ r.contact.map (fun kv => kv.1 ++ (": ").data ++ kv.2)
        ++ [("----").data]
        ++ [("SUMMARY").data, r.summary, []]
        ++ (if r.references.isEmpty then [] else
              [("PROFESSIONAL REFERENCES").data] ++ r.references.map refLine ++ [[]])
        ++ [("EXPERIENCE").data])
      ++ (r.experience.map expTextLines).flatten
      ++ (([("SKILLS").data]
        ++ skillsTextLines r.skills
        ++ [[]]
        ++ [("EDUCATION").data]
        ++ eduTextLines r.education)) from by
        rw [textContent]; simp]
    rw [lines_append, lines_append]
    refine List.Sublist.trans (tc_sublist_blocks r.experience htc) ?_
    exact (List.sublist_append_right _ _).trans (List.sublist_append_left _ _)

/-- Claim C7, counterexample: a resume whose name contains a newline is
rendered with only the part before the newline as its first line, so the first
line is not the name. -/
theorem claim_C7_counterexample :
    (splitChar '\n' (convert_json_to_text
      { name := ("John\nDoe").data, contact := [], summary := [],
        references := [], experience := [], skills := .flat [],
        education := .text [] })).head? ≠
      some (("John\nDoe").data) := by decide

/-- Witness for `claim_C7_plaintext_amended` at `exampleResume`. -/
theorem claim_C7_witness :
    (splitChar '\n' (convert_json_to_text exampleResume)).head? = some exampleResume.name
    ∧ List.Sublist (exampleResume.experience.map titleCompanyLine)
        (splitChar '\n' (convert_json_to_text exampleResume)) :=
  claim_C7_plaintext_amended exampleResume (by decide) (by decide)

/-! ## Claim C6: question answering -/

theorem foldl_append_map {α β : Type} (f : α → β) :
    ∀ (l : List α) (acc : List β),
      l.foldl (fun a q => a ++ [f q]) acc = acc ++ l.map f := by
  intro l
  induction l with
  | nil => intro acc; simp
  | cons x xs ih => intro acc; simp [ih]

/-- Claim C6: for every non-empty list of questions, `generate_question_answers`
returns a list of exactly the same length whose i-th element is the trimmed
oracle response to the prompt built for the i-th question, in input order
(stated as equality with the map of trim-after-oracle-after-prompt over the
questions). -/
theorem claim_C6_question_answers (oracle : Chars → Chars) (questions : List Chars)
    (jd : Chars) (r : ResumeRecord) (_hne : questions ≠ []) :
    (generate_question_answers oracle questions jd r).length = questions.length
    ∧ generate_question_answers oracle questions jd r
        = questions.map (fun q => pyStrip (oracle (questionPrompt r jd q))) := by
  have h : generate_question_answers oracle questions jd r
      = questions.map (fun q => pyStrip (oracle (questionPrompt r jd q))) := by
    rw [generate_question_answers, foldl_append_map]
    simp
  exact ⟨by rw [h]; simp, h⟩

/-! ## Claim C10: hard-coded education defaults -/

theorem braceFree_append3 {a b c : Chars} (h1 : braceFree a = true)
    (h2 : braceFree b = true) (h3 : braceFree c = true) :
    braceFree (a ++ b ++ c) = true := by
  rw [braceFree_append, braceFree_append, h1, h2, h3]; rfl

/-- Closed form of the education section when `education` is a mapping whose
present values are brace-free: every placeholder is replaced by the value or
its hard-coded default. -/
theorem renderEducation_record_eq (ed : EduRec)
    (h1 : braceFree (ed.degree.getD defaultDegree) = true)
    (h2 : braceFree (ed.university.getD defaultUniversity) = true)
    (h3 : braceFree (ed.period.getD defaultEduPeriod) = true)
    (h4 : braceFree (ed.description.getD defaultEduDescription) = true) :
    renderEducationSection (.record ed)
      = (((("## Education\n### ").data ++ (ed.degree.getD defaultDegree) ++ (" - ").data)
          ++ (ed.university.getD defaultUniversity) ++ nl)
          ++ (ed.period.getD defaultEduPeriod) ++ nl)
          ++ (ed.description.getD defaultEduDescription) ++ nl := by
  have e1 : pyReplace education_section_template (ph ("degree").data)
      (ed.degree.getD defaultDegree)
      = ("## Education\n### ").data ++ (ed.degree.getD defaultDegree)
        ++ ((" - ").data ++ ph ("university").data
          ++ (nl ++ ph ("period").data ++ (nl ++ ph ("description").data ++ nl))) := by
    rw [show education_section_template
        = ("## Education\n### ").data ++ ph ("degree").data
          ++ ((" - ").data ++ ph ("university").data
            ++ (nl ++ ph ("period").data ++ (nl ++ ph ("description").data ++ nl)))
      from by rw [education_section_template]; simp [ph, nl]]
    exact subst_ph _ (by decide) (by decide)
  have e2 : pyReplace (("## Education\n### ").data ++ (ed.degree.getD defaultDegree)
        ++ ((" - ").data ++ ph ("university").data
          ++ (nl ++ ph ("period").data ++ (nl ++ ph ("description").data ++ nl))))
      (ph ("university").data) (ed.university.getD defaultUniversity)
      = (("## Education\n### ").data ++ (ed.degree.getD defaultDegree) ++ (" - ").data)
        ++ (ed.university.getD defaultUniversity)
        ++ (nl ++ ph ("period").data ++ (nl ++ ph ("description").data ++ nl)) := by
    rw [show ("## Education\n### ").data ++ (ed.degree.getD defaultDegree)
        ++ ((" - ").data ++ ph ("university").data
          ++ (nl ++ ph ("period").data ++ (nl ++ ph ("description").data ++ nl)))
        = (("## Education\n### ").data ++ (ed.degree.getD defaultDegree) ++ (" - ").data)
          ++ ph ("university").data
          ++ (nl ++ ph ("period").data ++ (nl ++ ph ("description").data ++ nl))
      from by simp [List.append_assoc]]
    exact subst_ph _ (braceFree_append3 (by decide) h1 (by decide)) (by decide)
  have e3 : pyReplace ((("## Education\n### ").data ++ (ed.degree.getD defaultDegree)
          ++ (" - ").data)
        ++ (ed.university.getD defaultUniversity)
        ++ (nl ++ ph ("period").data ++ (nl ++ ph ("description").data ++ nl)))
      (ph ("period").data) (ed.period.getD defaultEduPeriod)
      = ((("## Education\n### ").data ++ (ed.degree.getD defaultDegree) ++ (" - ").data)
          ++ (ed.university.getD defaultUniversity) ++ nl)
        ++ (ed.period.getD defaultEduPeriod)
        ++ (nl ++ ph ("description").data ++ nl) := by
    rw [show (("## Education\n### ").data ++ (ed.degree.getD defaultDegree) ++ (" - ").data)
        ++ (ed.university.getD defaultUniversity)
        ++ (nl ++ ph ("period").data ++ (nl ++ ph ("description").data ++ nl))
        = ((("## Education\n### ").data ++ (ed.degree.getD defaultDegree) ++ (" - ").data)
            ++ (ed.university.getD defaultUniversity) ++ nl)
          ++ ph ("period").data
          ++ (nl ++ ph ("description").data ++ nl)
      from by simp [List.append_assoc]]
    exact subst_ph _
      (braceFree_append3 (braceFree_append3 (by decide) h1 (by decide)) h2 (by decide))
      (by decide)
  have e4 : pyReplace (((("## Education\n### ").data ++ (ed.degree.getD defaultDegree)
            ++ (" - ").data)
          ++ (ed.university.getD defaultUniversity) ++ nl)
        ++ (ed.period.getD defaultEduPeriod)
        ++ (nl ++ ph ("description").data ++ nl))
      (ph ("description").data) (ed.description.getD defaultEduDescription)
      = (((("## Education\n### ").data ++ (ed.degree.getD defaultDegree) ++ (" - ").data)
            ++ (ed.university.getD defaultUniversity) ++ nl)
          ++ (ed.period.getD defaultEduPeriod) ++ nl)
        ++ (ed.description.getD defaultEduDescription) ++ nl := by
    rw [show ((("## Education\n### ").data ++ (ed.degree.getD defaultDegree)
            ++ (" - ").data)
          ++ (ed.university.getD defaultUniversity) ++ nl)
        ++ (ed.period.getD defaultEduPeriod)
        ++ (nl ++ ph ("description").data ++ nl)
        = (((("## Education\n### ").data ++ (ed.degree.getD defaultDegree) ++ (" - ").data)
              ++ (ed.university.getD defaultUniversity) ++ nl)
            ++ (ed.period.getD defaultEduPeriod) ++ nl)
          ++ ph ("description").data ++ nl
      from by simp [List.append_assoc]]
    exact subst_ph _
      (braceFree_append3
        (braceFree_append3 (braceFree_append3 (by decide) h1 (by decide)) h2 (by decide))
        h3 (by decide))
      (by decide)
  show pyReplace (pyReplace (pyReplace (pyReplace education_section_template
    (ph ("degree").data) (ed.degree.getD defaultDegree))
    (ph ("university").data) (ed.university.getD defaultUniversity))
    (ph ("period").data) (ed.period.getD defaultEduPeriod))
    (ph ("description").data) (ed.description.getD defaultEduDescription) = _
  rw [e1, e2, e3, e4]

/-! ## Claim C2: markdown rendering leaves no placeholder behind

The strategy: every value substituted into a fragment template is brace-free,
each placeholder occurs exactly once in its fragment, so each substitution
splices cleanly (`subst_ph`), the rendered sections are brace-free, and a
brace-free document can neither contain a `\x7b\x7b...\x7d\x7d` token nor be
changed by running any placeholder substitution again. -/

theorem lookup_mem : ∀ {l : List (Chars × Chars)} {k v : Chars},
    l.lookup k = some v → (k, v) ∈ l := by
  intro l
  induction l with
  | nil => intro k v h; simp [List.lookup] at h
  | cons kv rest ih =>
    intro k v h
    rcases kv with ⟨k', v'⟩
    rw [List.lookup] at h
    by_cases hk : (k == k') = true
    · rw [hk] at h
      simp only [Option.some.injEq] at h
      subst h
      have : k = k' := by simpa using hk
      subst this
      exact List.mem_cons_self _ _
    · rw [Bool.not_eq_true] at hk
      rw [hk] at h
      exact List.mem_cons_of_mem _ (ih h)

theorem braceFree_subset {l m : Chars} (hm : m ⊆ l) (h : braceFree l = true) :
    braceFree m = true := by
  rw [braceFree, List.all_eq_true] at h ⊢
  exact fun c hc => h c (hm hc)

theorem braceFree_pyStrip {l : Chars} (h : braceFree l = true) :
    braceFree (pyStrip l) = true := by
  refine braceFree_subset ?_ h
  intro c hc
  rw [pyStrip, List.mem_reverse] at hc
  have hc2 := (List.dropWhile_sublist _).subset hc
  rw [List.mem_reverse] at hc2
  exact (List.dropWhile_sublist _).subset hc2

theorem braceFree_joinWith {sep : Chars} (hsep : braceFree sep = true) :
    ∀ {parts : List Chars}, (∀ p ∈ parts, braceFree p = true) →
      braceFree (joinWith sep parts) = true := by
  intro parts
  induction parts with
  | nil => intro _; rfl
  | cons p rest ih =>
    intro h
    cases rest with
    | nil => exact h p (List.mem_cons_self _ _)
    | cons q rs =>
      rw [show joinWith sep (p :: q :: rs) = p ++ sep ++ joinWith sep (q :: rs) from rfl]
      exact braceFree_append3 (h p (List.mem_cons_self _ _)) hsep
        (ih (fun x hx => h x (List.mem_cons_of_mem _ hx)))

/-- A fold that only ever appends brace-free chunks preserves brace-freedom. -/
theorem braceFree_foldl {α : Type} (f : Chars → α → Chars) (l : List α)
    (hstep : ∀ acc x, x ∈ l → braceFree acc = true → braceFree (f acc x) = true) :
    ∀ {init : Chars}, braceFree init = true → braceFree (l.foldl f init) = true := by
  induction l with
  | nil => intro init hi; exact hi
  | cons x xs ih =>
    intro init hi
    rw [List.foldl_cons]
    exact ih (fun acc y hy h => hstep acc y (List.mem_cons_of_mem _ hy) h)
      (hstep init x (List.mem_cons_self _ _) hi)

theorem braceFree_splitFirst {l sep : Chars} (h : braceFree l = true) :
    braceFree (splitFirst l sep).1 = true ∧ braceFree (splitFirst l sep).2 = true := by
  rw [splitFirst]
  cases hfs : findSplit sep l with
  | none => exact ⟨h, rfl⟩
  | some ab =>
    rcases ab with ⟨a, b⟩
    have hl := findSplit_eq_append hfs
    constructor
    · refine braceFree_subset ?_ h
      intro c hc
      simp only [Option.getD_some] at hc
      rw [hl]
      simp only [List.mem_append]
      exact Or.inl (Or.inl hc)
    · refine braceFree_subset ?_ h
      intro c hc
      simp only [Option.getD_some] at hc
      rw [hl]
      simp only [List.mem_append]
      exact Or.inr hc

theorem braceFree_splitCompany {c : Chars} (h : braceFree c = true) :
    braceFree (splitCompany c).1 = true ∧ braceFree (splitCompany c).2 = true := by
  rw [splitCompany]
  split_ifs with hif
  · dsimp only
    refine ⟨braceFree_pyStrip (braceFree_splitFirst h).1, ?_⟩
    rw [replaceList_singleton_nil]
    exact braceFree_pyStrip (braceFree_subset
      ((List.filter_sublist _).subset) (braceFree_splitFirst h).2)
  · exact ⟨h, rfl⟩

theorem braceFree_splitPeriod {p : Chars} (h : braceFree p = true) :
    braceFree (splitPeriod p).1 = true ∧ braceFree (splitPeriod p).2 = true := by
  rw [splitPeriod]
  split_ifs with hif
  · exact ⟨braceFree_pyStrip (braceFree_splitFirst h).1,
      braceFree_pyStrip (braceFree_splitFirst h).2⟩
  · exact ⟨h, rfl⟩

theorem braceFree_renderLocationSection (contact : List (Chars × Chars))
    (hc : contact.all (fun kv => braceFree kv.1 && braceFree kv.2) = true) :
    braceFree (renderLocationSection contact) = true := by
  rw [renderLocationSection]
  cases hl : contact.lookup ("location").data with
  | none => rfl
  | some loc =>
    have hloc : braceFree loc = true := by
      have := List.all_eq_true.mp hc _ (lookup_mem hl)
      exact ((Bool.and_eq_true _ _).mp this).2
    dsimp only
    by_cases hemp : loc.isEmpty
    · rw [if_pos hemp]; rfl
    · rw [if_neg hemp]
      rw [show location_section_template
          = ("<em>").data ++ ph ("location").data ++ ("</em>").data from rfl]
      rw [subst_ph loc (by decide) (by decide)]
      exact braceFree_append3 (by decide) hloc (by decide)

theorem braceFree_contactsHtml (contact : List (Chars × Chars))
    (hc : contact.all (fun kv => braceFree kv.1 && braceFree kv.2) = true) :
    braceFree (contactsHtml contact) = true := by
  rw [contactsHtml]
  refine braceFree_joinWith (by decide) ?_
  intro p hp
  rw [List.mem_map] at hp
  obtain ⟨kv, hkvmem, rfl⟩ := hp
  have hkv : kv ∈ contact := List.mem_of_mem_filter hkvmem
  have := List.all_eq_true.mp hc _ hkv
  rcases (Bool.and_eq_true _ _).mp this with ⟨h1, h2⟩
  rw [braceFree_append, braceFree_append, braceFree_append, braceFree_append,
    h1, h2]
  decide

theorem braceFree_renderTopSection (r : ResumeRecord)
    (hn : braceFree r.name = true)
    (hc : r.contact.all (fun kv => braceFree kv.1 && braceFree kv.2) = true) :
    braceFree (renderTopSection r) = true := by
  have hL := braceFree_renderLocationSection r.contact hc
  have hC := braceFree_contactsHtml r.contact hc
  show braceFree (pyReplace (pyReplace (pyReplace top_section_template
    (ph ("name").data) r.name)
    (ph ("location_section").data) (renderLocationSection r.contact))
    (ph ("contacts").data) (contactsHtml r.contact)) = true
  rw [show top_section_template
      = ("# ").data ++ ph ("name").data
        ++ (nl ++ ph ("location_section").data
          ++ (nl ++ ("<div align=\"center\">").data ++ (ph ("contacts").data
            ++ (("</div>").data ++ nl)))) from by
    rw [top_section_template]; simp [ph, nl]]
  rw [subst_ph r.name (by decide) (by decide)]
  rw [show ("# ").data ++ r.name
      ++ (nl ++ ph ("location_section").data
        ++ (nl ++ ("<div align=\"center\">").data ++ (ph ("contacts").data
          ++ (("</div>").data ++ nl))))
      = (("# ").data ++ r.name ++ nl) ++ ph ("location_section").data
        ++ (nl ++ ("<div align=\"center\">").data ++ (ph ("contacts").data
          ++ (("</div>").data ++ nl))) from by simp [List.append_assoc]]
  rw [subst_ph (renderLocationSection r.contact)
    (braceFree_append3 (by decide) hn (by decide)) (by decide)]
  rw [show (("# ").data ++ r.name ++ nl) ++ renderLocationSection r.contact
      ++ (nl ++ ("<div align=\"center\">").data ++ (ph ("contacts").data
        ++ (("</div>").data ++ nl)))
      = ((("# ").data ++ r.name ++ nl) ++ renderLocationSection r.contact
          ++ (nl ++ ("<div align=\"center\">").data))
        ++ ph ("contacts").data ++ (("</div>").data ++ nl) from by
    simp [List.append_assoc]]
  rw [subst_ph (contactsHtml r.contact)
    (braceFree_append3 (braceFree_append3 (by decide) hn (by decide)) hL (by decide))
    (by decide)]
  exact braceFree_append3
    (braceFree_append3 (braceFree_append3 (by decide) hn (by decide)) hL (by decide))
    hC (by decide)

theorem braceFree_renderSummarySection (r : ResumeRecord)
    (hs : braceFree r.summary = true) :
    braceFree (renderSummarySection r) = true := by
  rw [renderSummarySection, summary_section_template]
  rw [@subst_ph (("summary").data) r.summary ((("## Summary").data ++ nl)) nl
    (by decide) (by decide)]
  exact braceFree_append3 (by decide) hs (by decide)

theorem braceFree_refItem (ref : RefRec) (h : braceFreeRef ref = true) :
    braceFree (pyReplace (pyReplace (pyReplace reference_item_template
      (ph ("name").data) (ref.name.getD []))
      (ph ("text").data) (ref.text.getD []))
      (ph ("link").data) (ref.link.getD ("#").data)) = true := by
  rw [braceFreeRef] at h
  simp only [Bool.and_eq_true] at h
  obtain ⟨⟨hn, ht⟩, hl⟩ := h
  rw [braceFreeOpt] at hn ht
  rw [show reference_item_template
      = ("- **").data ++ ph ("name").data
        ++ (("**: ").data ++ ph ("text").data
          ++ ((" (").data ++ ph ("link").data ++ ((")").data ++ nl))) from by
    rw [reference_item_template]; try simp [ph, nl, List.append_assoc]]
  rw [subst_ph (ref.name.getD []) (by decide) (by decide)]
  rw [show ("- **").data ++ ref.name.getD []
      ++ (("**: ").data ++ ph ("text").data
        ++ ((" (").data ++ ph ("link").data ++ ((")").data ++ nl)))
      = (("- **").data ++ ref.name.getD [] ++ ("**: ").data) ++ ph ("text").data
        ++ ((" (").data ++ ph ("link").data ++ ((")").data ++ nl)) from by
    simp [List.append_assoc]]
  rw [subst_ph (ref.text.getD []) (braceFree_append3 (by decide) hn (by decide))
    (by decide)]
  rw [show (("- **").data ++ ref.name.getD [] ++ ("**: ").data) ++ ref.text.getD []
      ++ ((" (").data ++ ph ("link").data ++ ((")").data ++ nl))
      = ((("- **").data ++ ref.name.getD [] ++ ("**: ").data) ++ ref.text.getD []
          ++ (" (").data) ++ ph ("link").data ++ ((")").data ++ nl) from by
    simp [List.append_assoc]]
  rw [subst_ph (ref.link.getD ("#").data)
    (braceFree_append3 (braceFree_append3 (by decide) hn (by decide)) ht (by decide))
    (by decide)]
  exact braceFree_append3
    (braceFree_append3 (braceFree_append3 (by decide) hn (by decide)) ht (by decide))
    hl (by decide)

theorem braceFree_renderReferencesSection (refs : List RefRec)
    (h : refs.all braceFreeRef = true) :
    braceFree (renderReferencesSection refs) = true := by
  rw [renderReferencesSection]
  split_ifs with hemp
  · rfl
  · have hhtml : braceFree (refs.foldl (fun acc ref =>
        acc ++ pyReplace (pyReplace (pyReplace reference_item_template
          (ph ("name").data) (ref.name.getD []))
          (ph ("text").data) (ref.text.getD []))
          (ph ("link").data) (ref.link.getD ("#").data)) []) = true := by
      refine braceFree_foldl _ refs ?_ rfl
      intro acc ref hmem hacc
      rw [braceFree_append, hacc, braceFree_refItem ref (List.all_eq_true.mp h _ hmem)]
      rfl
    rw [show references_section_template
        = (("## References").data ++ nl) ++ ph ("references").data ++ nl from by
      rw [references_section_template]; try simp [ph, nl, List.append_assoc]]
    rw [subst_ph _ (by decide) (by decide)]
    exact braceFree_append3 (by decide) hhtml (by decide)

theorem braceFree_skillsFieldText (sf : SkillsField)
    (h : braceFreeSkillsField sf = true) :
    braceFree (skillsFieldText sf) = true := by
  cases sf with
  | items l =>
    rw [skillsFieldText]
    exact braceFree_joinWith (by decide) (fun p hp => List.all_eq_true.mp h _ hp)
  | text t => exact h

theorem braceFree_renderSkillsSection (sk : SkillsVal)
    (h : braceFreeSkills sk = true) :
    braceFree (renderSkillsSection sk) = true := by
  have hsub : ∀ html : Chars, braceFree html = true →
      braceFree (pyReplace skills_section_template (ph ("skills").data) html) = true := by
    intro html hh
    rw [show skills_section_template
        = (("## Skills").data ++ nl) ++ ph ("skills").data ++ ([] : Chars) from by
      rw [skills_section_template]; try simp [ph, nl, List.append_assoc]]
    rw [subst_ph html (by decide) (by decide)]
    exact braceFree_append3 (by decide) hh (by decide)
  cases sk with
  | cat cats =>
    rw [renderSkillsSection]
    refine hsub _ ?_
    refine braceFree_foldl _ cats ?_ rfl
    intro acc kv hmem hacc
    have hkv := List.all_eq_true.mp h _ hmem
    rcases (Bool.and_eq_true _ _).mp hkv with ⟨hk1, hk2⟩
    rw [show skill_section_item_template
        = ("- **").data ++ ph ("category").data
          ++ (("**: ").data ++ ph ("skills").data ++ ([] : Chars)) from by
      rw [skill_section_item_template]; try simp [ph, nl, List.append_assoc]]
    rw [subst_ph kv.1 (by decide) (by decide)]
    rw [show ("- **").data ++ kv.1 ++ (("**: ").data ++ ph ("skills").data ++ ([] : Chars))
        = (("- **").data ++ kv.1 ++ ("**: ").data) ++ ph ("skills").data ++ ([] : Chars)
      from by simp [List.append_assoc]]
    rw [subst_ph (skillsFieldText kv.2)
      (braceFree_append3 (by decide) hk1 (by decide)) (by decide)]
    rw [braceFree_append, braceFree_append, hacc]
    rw [braceFree_append3 (braceFree_append3 (by decide) hk1 (by decide))
      (braceFree_skillsFieldText kv.2 hk2) (by decide)]
    rfl
  | flat l => exact hsub [] rfl
  | other s => exact hsub [] rfl

theorem braceFree_expSkillsText (s : Option SkillsField)
    (h : (match s with | some sf => braceFreeSkillsField sf | none => true) = true) :
    braceFree (expSkillsText s) = true := by
  cases s with
  | none => rfl
  | some sf =>
    cases sf with
    | items l =>
      rw [expSkillsText]
      split_ifs with hemp
      · rfl
      · exact braceFree_joinWith (by decide) (fun p hp => List.all_eq_true.mp h _ hp)
    | text t =>
      rw [expSkillsText]
      split_ifs with hemp
      · rfl
      · exact h

theorem braceFree_renderHighlights (hl : Option (List Chars))
    (h : (hl.getD []).all braceFree = true) :
    braceFree (renderHighlights hl) = true := by
  rw [renderHighlights]
  split_ifs with hcond
  · have hitems : braceFree ((hl.getD []).foldl (fun acc x =>
        if highlightTruthy x then
          acc ++ pyReplace experience_highlight_item_template (ph ("highlight").data) x
        else acc) []) = true := by
      refine braceFree_foldl _ _ ?_ rfl
      intro acc x hmem hacc
      by_cases hx : highlightTruthy x = true
      · rw [if_pos hx]
        rw [show experience_highlight_item_template
            = ("<li>").data ++ ph ("highlight").data ++ (("</li>").data ++ nl) from by
          rw [experience_highlight_item_template]; try simp [ph, nl, List.append_assoc]]
        rw [subst_ph x (by decide) (by decide)]
        rw [braceFree_append, hacc,
          braceFree_append3 (by decide) (List.all_eq_true.mp h _ hmem) (by decide)]
        rfl
      · rw [if_neg hx]; exact hacc
    rw [show experience_highlights_template
        = (("<ul>").data ++ nl) ++ ph ("highlights").data ++ ("</ul>").data from by
      rw [experience_highlights_template]; try simp [ph, nl, List.append_assoc]]
    rw [subst_ph _ (by decide) (by decide)]
    exact braceFree_append3 (by decide) hitems (by decide)
  · rfl

theorem braceFree_append2 {a b : Chars} (h1 : braceFree a = true)
    (h2 : braceFree b = true) : braceFree (a ++ b) = true := by
  rw [braceFree_append, h1, h2]; rfl

theorem braceFree_renderExpItem (e : ExpEntry) (h : braceFreeExp e = true) :
    braceFree (renderExpItem e) = true := by
  rw [braceFreeExp] at h
  simp only [Bool.and_eq_true] at h
  obtain ⟨⟨⟨⟨⟨ht, hc⟩, hp⟩, hs⟩, hhl⟩, hsk⟩ := h
  rw [braceFreeOpt] at ht hc hp hs
  have hv2 := (braceFree_splitCompany hc).1
  have hv3 := (braceFree_splitCompany hc).2
  have hv4 := (braceFree_splitPeriod hp).1
  have hv5 := (braceFree_splitPeriod hp).2
  have hv7 := braceFree_expSkillsText e.skills hsk
  have hv8 := braceFree_renderHighlights e.highlights hhl
  show braceFree (pyReplace (pyReplace (pyReplace (pyReplace (pyReplace (pyReplace (pyReplace (pyReplace (experience_item_template)
      (ph ("position").data) (e.title.getD []))
      (ph ("company_name").data) (splitCompany (e.company.getD [])).1)
      (ph ("location").data) (splitCompany (e.company.getD [])).2)
      (ph ("from").data) (splitPeriod (e.period.getD [])).1)
      (ph ("to").data) (splitPeriod (e.period.getD [])).2)
      (ph ("description").data) (e.summary.getD []))
      (ph ("skills").data) (expSkillsText e.skills))
      (ph ("highlights").data) (renderHighlights e.highlights)) = true
  rw [show experience_item_template
      = ("### ").data ++ ph ("position").data ++ ((" | ").data ++ (ph ("company_name").data ++ (nl ++ (("<em>").data ++ (ph ("location").data ++ (("</em> | ").data ++ (ph ("from").data ++ ((" - ").data ++ (ph ("to").data ++ (nl ++ (ph ("description").data ++ (nl ++ (("Skills: ").data ++ (ph ("skills").data ++ (nl ++ (ph ("highlights").data ++ (nl)))))))))))))))))
    from by rw [experience_item_template]; try simp [ph, nl, List.append_assoc]]
  rw [@subst_ph (("position").data) (e.title.getD [])
    (("### ").data) ((" | ").data ++ (ph ("company_name").data ++ (nl ++ (("<em>").data ++ (ph ("location").data ++ (("</em> | ").data ++ (ph ("from").data ++ ((" - ").data ++ (ph ("to").data ++ (nl ++ (ph ("description").data ++ (nl ++ (("Skills: ").data ++ (ph ("skills").data ++ (nl ++ (ph ("highlights").data ++ (nl)))))))))))))))))
    (by decide)
    (by decide)]
  rw [show ("### ").data ++ (e.title.getD []) ++ ((" | ").data ++ (ph ("company_name").data ++ (nl ++ (("<em>").data ++ (ph ("location").data ++ (("</em> | ").data ++ (ph ("from").data ++ ((" - ").data ++ (ph ("to").data ++ (nl ++ (ph ("description").data ++ (nl ++ (("Skills: ").data ++ (ph ("skills").data ++ (nl ++ (ph ("highlights").data ++ (nl)))))))))))))))))
      = ((("### ").data ++ (e.title.getD [])) ++ (" | ").data) ++ ph ("company_name").data ++ (nl ++ (("<em>").data ++ (ph ("location").data ++ (("</em> | ").data ++ (ph ("from").data ++ ((" - ").data ++ (ph ("to").data ++ (nl ++ (ph ("description").data ++ (nl ++ (("Skills: ").data ++ (ph ("skills").data ++ (nl ++ (ph ("highlights").data ++ (nl)))))))))))))))
    from by simp [List.append_assoc]]
  rw [@subst_ph (("company_name").data) (splitCompany (e.company.getD [])).1
    (((("### ").data ++ (e.title.getD [])) ++ (" | ").data)) (nl ++ (("<em>").data ++ (ph ("location").data ++ (("</em> | ").data ++ (ph ("from").data ++ ((" - ").data ++ (ph ("to").data ++ (nl ++ (ph ("description").data ++ (nl ++ (("Skills: ").data ++ (ph ("skills").data ++ (nl ++ (ph ("highlights").data ++ (nl)))))))))))))))
    (braceFree_append2 (braceFree_append2 (by decide) ht) (by decide))
    (by decide)]
  rw [show ((("### ").data ++ (e.title.getD [])) ++ (" | ").data) ++ (splitCompany (e.company.getD [])).1 ++ (nl ++ (("<em>").data ++ (ph ("location").data ++ (("</em> | ").data ++ (ph ("from").data ++ ((" - ").data ++ (ph ("to").data ++ (nl ++ (ph ("description").data ++ (nl ++ (("Skills: ").data ++ (ph ("skills").data ++ (nl ++ (ph ("highlights").data ++ (nl)))))))))))))))
      = (((((("### ").data ++ (e.title.getD [])) ++ (" | ").data) ++ (splitCompany (e.company.getD [])).1) ++ nl) ++ ("<em>").data) ++ ph ("location").data ++ (("</em> | ").data ++ (ph ("from").data ++ ((" - ").data ++ (ph ("to").data ++ (nl ++ (ph ("description").data ++ (nl ++ (("Skills: ").data ++ (ph ("skills").data ++ (nl ++ (ph ("highlights").data ++ (nl))))))))))))
    from by simp [List.append_assoc]]
  rw [@subst_ph (("location").data) (splitCompany (e.company.getD [])).2
    ((((((("### ").data ++ (e.title.getD [])) ++ (" | ").data) ++ (splitCompany (e.company.getD [])).1) ++ nl) ++ ("<em>").data)) (("</em> | ").data ++ (ph ("from").data ++ ((" - ").data ++ (ph ("to").data ++ (nl ++ (ph ("description").data ++ (nl ++ (("Skills: ").data ++ (ph ("skills").data ++ (nl ++ (ph ("highlights").data ++ (nl))))))))))))
    (braceFree_append2 (braceFree_append2 (braceFree_append2 (braceFree_append2 (braceFree_append2 (by decide) ht) (by decide)) hv2) (by decide)) (by decide))
    (by decide)]
  rw [show (((((("### ").data ++ (e.title.getD [])) ++ (" | ").data) ++ (splitCompany (e.company.getD [])).1) ++ nl) ++ ("<em>").data) ++ (splitCompany (e.company.getD [])).2 ++ (("</em> | ").data ++ (ph ("from").data ++ ((" - ").data ++ (ph ("to").data ++ (nl ++ (ph ("description").data ++ (nl ++ (("Skills: ").data ++ (ph ("skills").data ++ (nl ++ (ph ("highlights").data ++ (nl))))))))))))
      = (((((((("### ").data ++ (e.title.getD [])) ++ (" | ").data) ++ (splitCompany (e.company.getD [])).1) ++ nl) ++ ("<em>").data) ++ (splitCompany (e.company.getD [])).2) ++ ("</em> | ").data) ++ ph ("from").data ++ ((" - ").data ++ (ph ("to").data ++ (nl ++ (ph ("description").data ++ (nl ++ (("Skills: ").data ++ (ph ("skills").data ++ (nl ++ (ph ("highlights").data ++ (nl))))))))))
    from by simp [List.append_assoc]]
  rw [@subst_ph (("from").data) (splitPeriod (e.period.getD [])).1
    ((((((((("### ").data ++ (e.title.getD [])) ++ (" | ").data) ++ (splitCompany (e.company.getD [])).1) ++ nl) ++ ("<em>").data) ++ (splitCompany (e.company.getD [])).2) ++ ("</em> | ").data)) ((" - ").data ++ (ph ("to").data ++ (nl ++ (ph ("description").data ++ (nl ++ (("Skills: ").data ++ (ph ("skills").data ++ (nl ++ (ph ("highlights").data ++ (nl))))))))))
    (braceFree_append2 (braceFree_append2 (braceFree_append2 (braceFree_append2 (braceFree_append2 (braceFree_append2 (braceFree_append2 (by decide) ht) (by decide)) hv2) (by decide)) (by decide)) hv3) (by decide))
    (by decide)]
  rw [show (((((((("### ").data ++ (e.title.getD [])) ++ (" | ").data) ++ (splitCompany (e.company.getD [])).1) ++ nl) ++ ("<em>").data) ++ (splitCompany (e.company.getD [])).2) ++ ("</em> | ").data) ++ (splitPeriod (e.period.getD [])).1 ++ ((" - ").data ++ (ph ("to").data ++ (nl ++ (ph ("description").data ++ (nl ++ (("Skills: ").data ++ (ph ("skills").data ++ (nl ++ (ph ("highlights").data ++ (nl))))))))))
      = (((((((((("### ").data ++ (e.title.getD [])) ++ (" | ").data) ++ (splitCompany (e.company.getD [])).1) ++ nl) ++ ("<em>").data) ++ (splitCompany (e.company.getD [])).2) ++ ("</em> | ").data) ++ (splitPeriod (e.period.getD [])).1) ++ (" - ").data) ++ ph ("to").data ++ (nl ++ (ph ("description").data ++ (nl ++ (("Skills: ").data ++ (ph ("skills").data ++ (nl ++ (ph ("highlights").data ++ (nl))))))))
    from by simp [List.append_assoc]]
  rw [@subst_ph (("to").data) (splitPeriod (e.period.getD [])).2
    ((((((((((("### ").data ++ (e.title.getD [])) ++ (" | ").data) ++ (splitCompany (e.company.getD [])).1) ++ nl) ++ ("<em>").data) ++ (splitCompany (e.company.getD [])).2) ++ ("</em> | ").data) ++ (splitPeriod (e.period.getD [])).1) ++ (" - ").data)) (nl ++ (ph ("description").data ++ (nl ++ (("Skills: ").data ++ (ph ("skills").data ++ (nl ++ (ph ("highlights").data ++ (nl))))))))
    (braceFree_append2 (braceFree_append2 (braceFree_append2 (braceFree_append2 (braceFree_append2 (braceFree_append2 (braceFree_append2 (braceFree_append2 (braceFree_append2 (by decide) ht) (by decide)) hv2) (by decide)) (by decide)) hv3) (by decide)) hv4) (by decide))
    (by decide)]
  rw [show (((((((((("### ").data ++ (e.title.getD [])) ++ (" | ").data) ++ (splitCompany (e.company.getD [])).1) ++ nl) ++ ("<em>").data) ++ (splitCompany (e.company.getD [])).2) ++ ("</em> | ").data) ++ (splitPeriod (e.period.getD [])).1) ++ (" - ").data) ++ (splitPeriod (e.period.getD [])).2 ++ (nl ++ (ph ("description").data ++ (nl ++ (("Skills: ").data ++ (ph ("skills").data ++ (nl ++ (ph ("highlights").data ++ (nl))))))))
      = (((((((((((("### ").data ++ (e.title.getD [])) ++ (" | ").data) ++ (splitCompany (e.company.getD [])).1) ++ nl) ++ ("<em>").data) ++ (splitCompany (e.company.getD [])).2) ++ ("</em> | ").data) ++ (splitPeriod (e.period.getD [])).1) ++ (" - ").data) ++ (splitPeriod (e.period.getD [])).2) ++ nl) ++ ph ("description").data ++ (nl ++ (("Skills: ").data ++ (ph ("skills").data ++ (nl ++ (ph ("highlights").data ++ (nl))))))
    from by simp [List.append_assoc]]
  rw [@subst_ph (("description").data) (e.summary.getD [])
    ((((((((((((("### ").data ++ (e.title.getD [])) ++ (" | ").data) ++ (splitCompany (e.company.getD [])).1) ++ nl) ++ ("<em>").data) ++ (splitCompany (e.company.getD [])).2) ++ ("</em> | ").data) ++ (splitPeriod (e.period.getD [])).1) ++ (" - ").data) ++ (splitPeriod (e.period.getD [])).2) ++ nl)) (nl ++ (("Skills: ").data ++ (ph ("skills").data ++ (nl ++ (ph ("highlights").data ++ (nl))))))
    (braceFree_append2 (braceFree_append2 (braceFree_append2 (braceFree_append2 (braceFree_append2 (braceFree_append2 (braceFree_append2 (braceFree_append2 (braceFree_append2 (braceFree_append2 (braceFree_append2 (by decide) ht) (by decide)) hv2) (by decide)) (by decide)) hv3) (by decide)) hv4) (by decide)) hv5) (by decide))
    (by decide)]
  rw [show (((((((((((("### ").data ++ (e.title.getD [])) ++ (" | ").data) ++ (splitCompany (e.company.getD [])).1) ++ nl) ++ ("<em>").data) ++ (splitCompany (e.company.getD [])).2) ++ ("</em> | ").data) ++ (splitPeriod (e.period.getD [])).1) ++ (" - ").data) ++ (splitPeriod (e.period.getD [])).2) ++ nl) ++ (e.summary.getD []) ++ (nl ++ (("Skills: ").data ++ (ph ("skills").data ++ (nl ++ (ph ("highlights").data ++ (nl))))))
      = ((((((((((((((("### ").data ++ (e.title.getD [])) ++ (" | ").data) ++ (splitCompany (e.company.getD [])).1) ++ nl) ++ ("<em>").data) ++ (splitCompany (e.company.getD [])).2) ++ ("</em> | ").data) ++ (splitPeriod (e.period.getD [])).1) ++ (" - ").data) ++ (splitPeriod (e.period.getD [])).2) ++ nl) ++ (e.summary.getD [])) ++ nl) ++ ("Skills: ").data) ++ ph ("skills").data ++ (nl ++ (ph ("highlights").data ++ (nl)))
    from by simp [List.append_assoc]]
  rw [@subst_ph (("skills").data) (expSkillsText e.skills)
    (((((((((((((((("### ").data ++ (e.title.getD [])) ++ (" | ").data) ++ (splitCompany (e.company.getD [])).1) ++ nl) ++ ("<em>").data) ++ (splitCompany (e.company.getD [])).2) ++ ("</em> | ").data) ++ (splitPeriod (e.period.getD [])).1) ++ (" - ").data) ++ (splitPeriod (e.period.getD [])).2) ++ nl) ++ (e.summary.getD [])) ++ nl) ++ ("Skills: ").data)) (nl ++ (ph ("highlights").data ++ (nl)))
    (braceFree_append2 (braceFree_append2 (braceFree_append2 (braceFree_append2 (braceFree_append2 (braceFree_append2 (braceFree_append2 (braceFree_append2 (braceFree_append2 (braceFree_append2 (braceFree_append2 (braceFree_append2 (braceFree_append2 (braceFree_append2 (by decide) ht) (by decide)) hv2) (by decide)) (by decide)) hv3) (by decide)) hv4) (by decide)) hv5) (by decide)) hs) (by decide)) (by decide))
    (by decide)]
  rw [show ((((((((((((((("### ").data ++ (e.title.getD [])) ++ (" | ").data) ++ (splitCompany (e.company.getD [])).1) ++ nl) ++ ("<em>").data) ++ (splitCompany (e.company.getD [])).2) ++ ("</em> | ").data) ++ (splitPeriod (e.period.getD [])).1) ++ (" - ").data) ++ (splitPeriod (e.period.getD [])).2) ++ nl) ++ (e.summary.getD [])) ++ nl) ++ ("Skills: ").data) ++ (expSkillsText e.skills) ++ (nl ++ (ph ("highlights").data ++ (nl)))
      = ((((((((((((((((("### ").data ++ (e.title.getD [])) ++ (" | ").data) ++ (splitCompany (e.company.getD [])).1) ++ nl) ++ ("<em>").data) ++ (splitCompany (e.company.getD [])).2) ++ ("</em> | ").data) ++ (splitPeriod (e.period.getD [])).1) ++ (" - ").data) ++ (splitPeriod (e.period.getD [])).2) ++ nl) ++ (e.summary.getD [])) ++ nl) ++ ("Skills: ").data) ++ (expSkillsText e.skills)) ++ nl) ++ ph ("highlights").data ++ (nl)
    from by simp [List.append_assoc]]
  rw [@subst_ph (("highlights").data) (renderHighlights e.highlights)
    (((((((((((((((((("### ").data ++ (e.title.getD [])) ++ (" | ").data) ++ (splitCompany (e.company.getD [])).1) ++ nl) ++ ("<em>").data) ++ (splitCompany (e.company.getD [])).2) ++ ("</em> | ").data) ++ (splitPeriod (e.period.getD [])).1) ++ (" - ").data) ++ (splitPeriod (e.period.getD [])).2) ++ nl) ++ (e.summary.getD [])) ++ nl) ++ ("Skills: ").data) ++ (expSkillsText e.skills)) ++ nl)) (nl)
    (braceFree_append2 (braceFree_append2 (braceFree_append2 (braceFree_append2 (braceFree_append2 (braceFree_append2 (braceFree_append2 (braceFree_append2 (braceFree_append2 (braceFree_append2 (braceFree_append2 (braceFree_append2 (braceFree_append2 (braceFree_append2 (braceFree_append2 (braceFree_append2 (by decide) ht) (by decide)) hv2) (by decide)) (by decide)) hv3) (by decide)) hv4) (by decide)) hv5) (by decide)) hs) (by decide)) (by decide)) hv7) (by decide))
    (by decide)]
  exact braceFree_append2 (braceFree_append2 (braceFree_append2 (braceFree_append2 (braceFree_append2 (braceFree_append2 (braceFree_append2 (braceFree_append2 (braceFree_append2 (braceFree_append2 (braceFree_append2 (braceFree_append2 (braceFree_append2 (braceFree_append2 (braceFree_append2 (braceFree_append2 (braceFree_append2 (braceFree_append2 (by decide) ht) (by decide)) hv2) (by decide)) (by decide)) hv3) (by decide)) hv4) (by decide)) hv5) (by decide)) hs) (by decide)) (by decide)) hv7) (by decide)) hv8) (by decide)

theorem braceFree_renderExperiencesSection (exps : List ExpEntry)
    (h : exps.all braceFreeExp = true) :
    braceFree (renderExperiencesSection exps) = true := by
  rw [renderExperiencesSection]
  have hhtml : braceFree (exps.foldl (fun acc e => acc ++ renderExpItem e ++ nl) [])
      = true := by
    refine braceFree_foldl _ exps ?_ rfl
    intro acc e hmem hacc
    rw [braceFree_append, braceFree_append, hacc,
      braceFree_renderExpItem e (List.all_eq_true.mp h _ hmem)]
    rfl
  rw [show experiences_section_template
      = (("## Experience").data ++ nl) ++ ph ("experiences").data ++ ([] : Chars) from by
    rw [experiences_section_template]; try simp [ph, nl, List.append_assoc]]
  rw [subst_ph _ (by decide) (by decide)]
  exact braceFree_append3 (by decide) hhtml (by decide)

theorem braceFree_convert_json_to_markdown (r : ResumeRecord)
    (hTop : braceFree (renderTopSection r) = true)
    (hSum : braceFree (renderSummarySection r) = true)
    (hRef : braceFree (renderReferencesSection r.references) = true)
    (hExps : braceFree (renderExperiencesSection r.experience) = true)
    (hSkl : braceFree (renderSkillsSection r.skills) = true)
    (hEdu : braceFree (renderEducationSection r.education) = true) :
    braceFree (convert_json_to_markdown r) = true := by
  show braceFree (pyReplace (pyReplace (pyReplace (pyReplace (pyReplace (pyReplace (output_template)
      (ph ("top_section").data) (renderTopSection r))
      (ph ("summary_section").data) (renderSummarySection r))
      (ph ("references_section").data) (renderReferencesSection r.references))
      (ph ("experiences_section").data) (renderExperiencesSection r.experience))
      (ph ("skills_section").data) (renderSkillsSection r.skills))
      (ph ("education_section").data) (renderEducationSection r.education)) = true
  rw [show output_template
      = ([] : Chars) ++ ph ("top_section").data ++ (nl ++ (ph ("summary_section").data ++ (nl ++ (ph ("references_section").data ++ (nl ++ (ph ("experiences_section").data ++ (nl ++ (ph ("skills_section").data ++ (nl ++ (ph ("education_section").data ++ (nl)))))))))))
    from by rw [output_template]; try simp [ph, nl, List.append_assoc]]
  rw [@subst_ph (("top_section").data) (renderTopSection r)
    (([] : Chars)) (nl ++ (ph ("summary_section").data ++ (nl ++ (ph ("references_section").data ++ (nl ++ (ph ("experiences_section").data ++ (nl ++ (ph ("skills_section").data ++ (nl ++ (ph ("education_section").data ++ (nl)))))))))))
    (by decide)
    (by decide)]
  rw [show ([] : Chars) ++ (renderTopSection r) ++ (nl ++ (ph ("summary_section").data ++ (nl ++ (ph ("references_section").data ++ (nl ++ (ph ("experiences_section").data ++ (nl ++ (ph ("skills_section").data ++ (nl ++ (ph ("education_section").data ++ (nl)))))))))))
      = ((renderTopSection r) ++ nl) ++ ph ("summary_section").data ++ (nl ++ (ph ("references_section").data ++ (nl ++ (ph ("experiences_section").data ++ (nl ++ (ph ("skills_section").data ++ (nl ++ (ph ("education_section").data ++ (nl)))))))))
    from by simp [List.append_assoc]]
  rw [@subst_ph (("summary_section").data) (renderSummarySection r)
    (((renderTopSection r) ++ nl)) (nl ++ (ph ("references_section").data ++ (nl ++ (ph ("experiences_section").data ++ (nl ++ (ph ("skills_section").data ++ (nl ++ (ph ("education_section").data ++ (nl)))))))))
    (braceFree_append2 hTop (by decide))
    (by decide)]
  rw [show ((renderTopSection r) ++ nl) ++ (renderSummarySection r) ++ (nl ++ (ph ("references_section").data ++ (nl ++ (ph ("experiences_section").data ++ (nl ++ (ph ("skills_section").data ++ (nl ++ (ph ("education_section").data ++ (nl)))))))))
      = ((((renderTopSection r) ++ nl) ++ (renderSummarySection r)) ++ nl) ++ ph ("references_section").data ++ (nl ++ (ph ("experiences_section").data ++ (nl ++ (ph ("skills_section").data ++ (nl ++ (ph ("education_section").data ++ (nl)))))))
    from by simp [List.append_assoc]]
  rw [@subst_ph (("references_section").data) (renderReferencesSection r.references)
    (((((renderTopSection r) ++ nl) ++ (renderSummarySection r)) ++ nl)) (nl ++ (ph ("experiences_section").data ++ (nl ++ (ph ("skills_section").data ++ (nl ++ (ph ("education_section").data ++ (nl)))))))
    (braceFree_append2 (braceFree_append2 (braceFree_append2 hTop (by decide)) hSum) (by decide))
    (by decide)]
  rw [show ((((renderTopSection r) ++ nl) ++ (renderSummarySection r)) ++ nl) ++ (renderReferencesSection r.references) ++ (nl ++ (ph ("experiences_section").data ++ (nl ++ (ph ("skills_section").data ++ (nl ++ (ph ("education_section").data ++ (nl)))))))
      = ((((((renderTopSection r) ++ nl) ++ (renderSummarySection r)) ++ nl) ++ (renderReferencesSection r.references)) ++ nl) ++ ph ("experiences_section").data ++ (nl ++ (ph ("skills_section").data ++ (nl ++ (ph ("education_section").data ++ (nl)))))
    from by simp [List.append_assoc]]
  rw [@subst_ph (("experiences_section").data) (renderExperiencesSection r.experience)
    (((((((renderTopSection r) ++ nl) ++ (renderSummarySection r)) ++ nl) ++ (renderReferencesSection r.references)) ++ nl)) (nl ++ (ph ("skills_section").data ++ (nl ++ (ph ("education_section").data ++ (nl)))))
    (braceFree_append2 (braceFree_append2 (braceFree_append2 (braceFree_append2 (braceFree_append2 hTop (by decide)) hSum) (by decide)) hRef) (by decide))
    (by decide)]
  rw [show ((((((renderTopSection r) ++ nl) ++ (renderSummarySection r)) ++ nl) ++ (renderReferencesSection r.references)) ++ nl) ++ (renderExperiencesSection r.experience) ++ (nl ++ (ph ("skills_section").data ++ (nl ++ (ph ("education_section").data ++ (nl)))))
      = ((((((((renderTopSection r) ++ nl) ++ (renderSummarySection r)) ++ nl) ++ (renderReferencesSection r.references)) ++ nl) ++ (renderExperiencesSection r.experience)) ++ nl) ++ ph ("skills_section").data ++ (nl ++ (ph ("education_section").data ++ (nl)))
    from by simp [List.append_assoc]]
  rw [@subst_ph (("skills_section").data) (renderSkillsSection r.skills)
    (((((((((renderTopSection r) ++ nl) ++ (renderSummarySection r)) ++ nl) ++ (renderReferencesSection r.references)) ++ nl) ++ (renderExperiencesSection r.experience)) ++ nl)) (nl ++ (ph ("education_section").data ++ (nl)))
    (braceFree_append2 (braceFree_append2 (braceFree_append2 (braceFree_append2 (braceFree_append2 (braceFree_append2 (braceFree_append2 hTop (by decide)) hSum) (by decide)) hRef) (by decide)) hExps) (by decide))
    (by decide)]
  rw [show ((((((((renderTopSection r) ++ nl) ++ (renderSummarySection r)) ++ nl) ++ (renderReferencesSection r.references)) ++ nl) ++ (renderExperiencesSection r.experience)) ++ nl) ++ (renderSkillsSection r.skills) ++ (nl ++ (ph ("education_section").data ++ (nl)))
      = ((((((((((renderTopSection r) ++ nl) ++ (renderSummarySection r)) ++ nl) ++ (renderReferencesSection r.references)) ++ nl) ++ (renderExperiencesSection r.experience)) ++ nl) ++ (renderSkillsSection r.skills)) ++ nl) ++ ph ("education_section").data ++ (nl)
    from by simp [List.append_assoc]]
  rw [@subst_ph (("education_section").data) (renderEducationSection r.education)
    (((((((((((renderTopSection r) ++ nl) ++ (renderSummarySection r)) ++ nl) ++ (renderReferencesSection r.references)) ++ nl) ++ (renderExperiencesSection r.experience)) ++ nl) ++ (renderSkillsSection r.skills)) ++ nl)) (nl)
    (braceFree_append2 (braceFree_append2 (braceFree_append2 (braceFree_append2 (braceFree_append2 (braceFree_append2 (braceFree_append2 (braceFree_append2 (braceFree_append2 hTop (by decide)) hSum) (by decide)) hRef) (by decide)) hExps) (by decide)) hSkl) (by decide))
    (by decide)]
  exact braceFree_append2 (braceFree_append2 (braceFree_append2 (braceFree_append2 (braceFree_append2 (braceFree_append2 (braceFree_append2 (braceFree_append2 (braceFree_append2 (braceFree_append2 (braceFree_append2 hTop (by decide)) hSum) (by decide)) hRef) (by decide)) hExps) (by decide)) hSkl) (by decide)) hEdu) (by decide)

/-- Claim C2, amended: for every resume record whose education field is a
mapping and whose string values contain no brace character, the markdown
output is brace-free, so it contains no `\x7b\x7b...\x7d\x7d` placeholder
token (populated or not), and re-running any placeholder substitution on the
output leaves it unchanged. -/
theorem claim_C2_markdown_amended (r : ResumeRecord) (ed : EduRec)
    (hed : r.education = .record ed) (hbf : braceFreeResume r = true) :
    braceFree (convert_json_to_markdown r) = true
    ∧ (∀ pname : Chars, pyContains (convert_json_to_markdown r) (ph pname) = false)
    ∧ (∀ pname repl : Chars,
        pyReplace (convert_json_to_markdown r) (ph pname) repl
          = convert_json_to_markdown r) := by
  rw [braceFreeResume] at hbf
  simp only [Bool.and_eq_true] at hbf
  obtain ⟨⟨⟨⟨⟨⟨hn, hc⟩, hs⟩, hr⟩, he⟩, hsk⟩, hedu⟩ := hbf
  rw [hed] at hedu
  have hedu2 : braceFreeEdu ed = true := hedu
  rw [braceFreeEdu] at hedu2
  simp only [Bool.and_eq_true] at hedu2
  obtain ⟨⟨⟨hd1, hd2⟩, hd3⟩, hd4⟩ := hedu2
  have hEdu : braceFree (renderEducationSection r.education) = true := by
    rw [hed, renderEducation_record_eq ed hd1 hd2 hd3 hd4]
    exact braceFree_append3 (braceFree_append3 (braceFree_append3 (braceFree_append3
      (by decide) hd1 (by decide)) hd2 (by decide)) hd3 (by decide)) hd4 (by decide)
  have hout := braceFree_convert_json_to_markdown r
    (braceFree_renderTopSection r hn hc)
    (braceFree_renderSummarySection r hs)
    (braceFree_renderReferencesSection r.references hr)
    (braceFree_renderExperiencesSection r.experience he)
    (braceFree_renderSkillsSection r.skills hsk)
    hEdu
  refine ⟨hout, ?_, ?_⟩
  · intro pname
    rw [pyContains, ph, findSplit_none (braceFree_lb_not_mem hout)]
    rfl
  · intro pname repl
    rw [pyReplace, ph, replaceList_id (braceFree_lb_not_mem hout)]

/-- Claim C2, counterexample: when `education` is a list rather than a
mapping, the renderer emits the education template untouched, so the markdown
contains a dangling `\x7b\x7bdegree\x7d\x7d` token (although the record's
degree is populated) and re-running placeholder substitution changes the
output. -/
theorem claim_C2_counterexample :
    pyContains (convert_json_to_markdown listEducationResume) (ph ("degree").data) = true
    ∧ pyReplace (convert_json_to_markdown listEducationResume) (ph ("degree").data) []
        ≠ convert_json_to_markdown listEducationResume :=
  ⟨by decide, by decide⟩

/-- Witness for `claim_C2_markdown_amended` at `exampleResume`. -/
theorem claim_C2_witness :
    braceFree (convert_json_to_markdown exampleResume) = true
    ∧ pyContains (convert_json_to_markdown exampleResume) (ph ("summary").data) = false
    ∧ pyReplace (convert_json_to_markdown exampleResume) (ph ("summary").data) ("X").data
        = convert_json_to_markdown exampleResume := by
  obtain ⟨h1, h2, h3⟩ := claim_C2_markdown_amended exampleResume
    { degree := some ("BSc Computing").data
      university := some ("Example University").data
      period := some ("2014 - 2018").data
      description := some ("First class honours.").data }
    rfl (by decide)
  exact ⟨h1, h2 _, h3 _ _⟩

/-- Witness for `claim_C6_question_answers` on two concrete questions. -/
theorem claim_C6_witness :
    (generate_question_answers (fun p => 'A' :: p)
      [("Q1").data, ("Q2").data] (("JD").data) exampleResume).length
        = [("Q1").data, ("Q2").data].length
    ∧ generate_question_answers (fun p => 'A' :: p)
        [("Q1").data, ("Q2").data] (("JD").data) exampleResume
      = [("Q1").data, ("Q2").data].map
          (fun q => pyStrip ((fun p => 'A' :: p) (questionPrompt exampleResume (("JD").data) q))) :=
  claim_C6_question_answers (fun p => 'A' :: p)
    [("Q1").data, ("Q2").data] (("JD").data) exampleResume (by decide)

/-! ## Claims C1 and C3: response extraction

First the JSON roundtrip: parsing the serialization of a value recovers the
value.  Digits, then strings, then the mutual induction over values. -/

theorem natCharsF_irrel : ∀ n f g, n < f → n < g → natCharsF f n = natCharsF g n := by
  intro n
  induction n using Nat.strong_induction_on with
  | _ n ih =>
    intro f g hf hg
    cases f with
    | zero => omega
    | succ f =>
      cases g with
      | zero => omega
      | succ g =>
        simp only [natCharsF]
        by_cases h10 : n < 10
        · rw [if_pos h10, if_pos h10]
        · rw [if_neg h10, if_neg h10]
          have hlt : n / 10 < n := Nat.div_lt_self (by omega) (by omega)
          rw [ih (n / 10) hlt f g (by omega) (by omega)]

theorem natChars_eq (n : Nat) :
    natChars n = if n < 10 then [Nat.digitChar n]
      else natChars (n / 10) ++ [Nat.digitChar (n % 10)] := by
  rw [natChars]
  show natCharsF (n + 1) n = _
  rw [natCharsF]
  by_cases h10 : n < 10
  · rw [if_pos h10, if_pos h10]
  · rw [if_neg h10, if_neg h10, natChars]
    have hlt : n / 10 < n := Nat.div_lt_self (by omega) (by omega)
    rw [natCharsF_irrel (n / 10) n (n / 10 + 1) hlt (by omega)]

/-- Facts about the ten digit characters, bundled for `decide`. -/
theorem digitChar_facts : ∀ m, m < 10 →
    (Nat.digitChar m).isDigit = true ∧ isJsonWs (Nat.digitChar m) = false
    ∧ isPySpace (Nat.digitChar m) = false ∧ digitVal (Nat.digitChar m) = m
    ∧ Nat.digitChar m ≠ ']' ∧ Nat.digitChar m ≠ '\x7d' ∧ Nat.digitChar m ≠ ','
    ∧ Nat.digitChar m ≠ '"' ∧ Nat.digitChar m ≠ '[' ∧ Nat.digitChar m ≠ '\x7b'
    ∧ Nat.digitChar m ≠ '-' ∧ Nat.digitChar m ≠ 'n' ∧ Nat.digitChar m ≠ 't'
    ∧ Nat.digitChar m ≠ 'f' := by decide

theorem natChars_shape : ∀ n, ∃ m t, natChars n = Nat.digitChar m :: t ∧ m < 10 := by
  intro n
  induction n using Nat.strong_induction_on with
  | _ n ih =>
    rw [natChars_eq]
    by_cases h10 : n < 10
    · rw [if_pos h10]
      exact ⟨n, [], rfl, h10⟩
    · rw [if_neg h10]
      have hlt : n / 10 < n := Nat.div_lt_self (by omega) (by omega)
      obtain ⟨m, t, heq, hm⟩ := ih (n / 10) hlt
      exact ⟨m, t ++ [Nat.digitChar (n % 10)], by rw [heq]; rfl, hm⟩

theorem natChars_all_digits : ∀ n c, c ∈ natChars n →
    ∃ m, m < 10 ∧ c = Nat.digitChar m := by
  intro n
  induction n using Nat.strong_induction_on with
  | _ n ih =>
    intro c hc
    rw [natChars_eq] at hc
    by_cases h10 : n < 10
    · rw [if_pos h10] at hc
      simp only [List.mem_singleton] at hc
      exact ⟨n, h10, hc⟩
    · rw [if_neg h10] at hc
      have hlt : n / 10 < n := Nat.div_lt_self (by omega) (by omega)
      rcases List.mem_append.mp hc with h1 | h2
      · exact ih (n / 10) hlt c h1
      · simp only [List.mem_singleton] at h2
        exact ⟨n % 10, by omega, h2⟩

theorem natChars_ne_nil (n : Nat) : natChars n ≠ [] := by
  obtain ⟨m, t, heq, _⟩ := natChars_shape n
  rw [heq]
  simp

theorem natChars_getLast (n : Nat) :
    ∃ m, m < 10 ∧ (natChars n).getLast? = some (Nat.digitChar m) := by
  rw [natChars_eq]
  by_cases h10 : n < 10
  · rw [if_pos h10]
    exact ⟨n, h10, rfl⟩
  · rw [if_neg h10]
    exact ⟨n % 10, by omega, by rw [List.getLast?_concat]⟩

/-- A run of characters all satisfying `p` followed by text whose head does
not satisfy `p` splits exactly there under `takeWhile`/`dropWhile`. -/
theorem takeWhile_run {p : Char → Bool} :
    ∀ {l rest : Chars}, (∀ c ∈ l, p c = true) →
      (rest = [] ∨ ∃ c t, rest = c :: t ∧ p c = false) →
      (l ++ rest).takeWhile p = l ∧ (l ++ rest).dropWhile p = rest := by
  intro l
  induction l with
  | nil =>
    intro rest _ hrest
    rcases hrest with rfl | ⟨c, t, rfl, hc⟩
    · exact ⟨rfl, rfl⟩
    · simp [List.takeWhile_cons, List.dropWhile_cons, hc]
  | cons x xs ih =>
    intro rest hall hrest
    have hx : p x = true := hall x (List.mem_cons_self _ _)
    have hxs : ∀ c ∈ xs, p c = true := fun c hc => hall c (List.mem_cons_of_mem _ hc)
    obtain ⟨h1, h2⟩ := ih hxs hrest
    simp [List.takeWhile_cons, List.dropWhile_cons, hx, h1, h2]

theorem foldl_digits : ∀ n acc,
    (natChars n).foldl (fun a c => a * 10 + digitVal c) acc
      = acc * 10 ^ (natChars n).length + n := by
  intro n
  induction n using Nat.strong_induction_on with
  | _ n ih =>
    intro acc
    rw [natChars_eq]
    by_cases h10 : n < 10
    · rw [if_pos h10]
      simp [List.foldl, (digitChar_facts n h10).2.2.2.1]
    · rw [if_neg h10]
      have hlt : n / 10 < n := Nat.div_lt_self (by omega) (by omega)
      rw [List.foldl_append, ih (n / 10) hlt acc]
      simp only [List.foldl, List.length_append, List.length_singleton]
      rw [(digitChar_facts (n % 10) (by omega)).2.2.2.1]
      rw [pow_succ]
      have : n / 10 * 10 + n % 10 = n := by omega
      ring_nf
      omega

theorem digitsToNat_natChars (n : Nat) : digitsToNat (natChars n) = n := by
  rw [digitsToNat, foldl_digits]
  simp

theorem parseDigits_natChars (n : Nat) (rest : Chars)
    (hrest : rest = [] ∨ ∃ c t, rest = c :: t ∧ c.isDigit = false) :
    parseDigits (natChars n ++ rest) = (natChars n, rest) := by
  have hall : ∀ c ∈ natChars n, c.isDigit = true := by
    intro c hc
    obtain ⟨m, hm, rfl⟩ := natChars_all_digits n c hc
    exact (digitChar_facts m hm).1
  obtain ⟨h1, h2⟩ := takeWhile_run hall hrest
  rw [parseDigits, h1, h2]

/-! String escaping roundtrip. -/

theorem parseStringRest_quote (r : Chars) : parseStringRest ('"' :: r) = some ([], r) := by
  rw [parseStringRest.eq_def]
  rfl

theorem parseStringRest_esc (e u : Char) (r2 : Chars) (hu : unescape e = some u) :
    parseStringRest ('\\' :: e :: r2)
      = (parseStringRest r2).map (fun p => (u :: p.1, p.2)) := by
  rw [parseStringRest.eq_def]
  simp only []
  rw [if_neg (by decide), if_pos trivial, hu]

theorem parseStringRest_plain (c : Char) (r : Chars) (h1 : ¬ c = '"') (h2 : ¬ c = '\\') :
    parseStringRest (c :: r) = (parseStringRest r).map (fun p => (c :: p.1, p.2)) := by
  rw [parseStringRest.eq_def]
  simp only []
  rw [if_neg h1, if_neg h2]

theorem parseStringRest_escape : ∀ (s rest : Chars),
    parseStringRest (escapeStr s ++ '"' :: rest) = some (s, rest) := by
  intro s
  induction s with
  | nil =>
    intro rest
    rw [escapeStr]
    simp only [List.nil_append]
    exact parseStringRest_quote rest
  | cons c cs ih =>
    intro rest
    rw [escapeStr, List.append_assoc, escapeChar]
    by_cases h1 : c = '"'
    · rw [if_pos h1]
      rw [show (['\\', '"'] : Chars) ++ (escapeStr cs ++ '"' :: rest)
          = '\\' :: '"' :: (escapeStr cs ++ '"' :: rest) from rfl]
      rw [parseStringRest_esc '"' '"' _ rfl, ih rest, h1]
      rfl
    · rw [if_neg h1]
      by_cases h2 : c = '\\'
      · rw [if_pos h2]
        rw [show (['\\', '\\'] : Chars) ++ (escapeStr cs ++ '"' :: rest)
            = '\\' :: '\\' :: (escapeStr cs ++ '"' :: rest) from rfl]
        rw [parseStringRest_esc '\\' '\\' _ rfl, ih rest, h2]
        rfl
      · rw [if_neg h2]
        by_cases h3 : c = '\n'
        · rw [if_pos h3]
          rw [show (['\\', 'n'] : Chars) ++ (escapeStr cs ++ '"' :: rest)
              = '\\' :: 'n' :: (escapeStr cs ++ '"' :: rest) from rfl]
          rw [parseStringRest_esc 'n' '\n' _ rfl, ih rest, h3]
          rfl
        · rw [if_neg h3]
          by_cases h4 : c = '\t'
          · rw [if_pos h4]
            rw [show (['\\', 't'] : Chars) ++ (escapeStr cs ++ '"' :: rest)
                = '\\' :: 't' :: (escapeStr cs ++ '"' :: rest) from rfl]
            rw [parseStringRest_esc 't' '\t' _ rfl, ih rest, h4]
            rfl
          · rw [if_neg h4]
            by_cases h5 : c = '\r'
            · rw [if_pos h5]
              rw [show (['\\', 'r'] : Chars) ++ (escapeStr cs ++ '"' :: rest)
                  = '\\' :: 'r' :: (escapeStr cs ++ '"' :: rest) from rfl]
              rw [parseStringRest_esc 'r' '\r' _ rfl, ih rest, h5]
              rfl
            · rw [if_neg h5]
              by_cases h6 : c = '\x08'
              · rw [if_pos h6]
                rw [show (['\\', 'b'] : Chars) ++ (escapeStr cs ++ '"' :: rest)
                    = '\\' :: 'b' :: (escapeStr cs ++ '"' :: rest) from rfl]
                rw [parseStringRest_esc 'b' '\x08' _ rfl, ih rest, h6]
                rfl
              · rw [if_neg h6]
                by_cases h7 : c = '\x0c'
                · rw [if_pos h7]
                  rw [show (['\\', 'f'] : Chars) ++ (escapeStr cs ++ '"' :: rest)
                      = '\\' :: 'f' :: (escapeStr cs ++ '"' :: rest) from rfl]
                  rw [parseStringRest_esc 'f' '\x0c' _ rfl, ih rest, h7]
                  rfl
                · rw [if_neg h7]
                  rw [show ([c] : Chars) ++ (escapeStr cs ++ '"' :: rest)
                      = c :: (escapeStr cs ++ '"' :: rest) from rfl]
                  rw [parseStringRest_plain c _ h1 h2, ih rest]
                  rfl

/-! Whitespace and dispatch helpers for the parser. -/

theorem skipWs_cons_not (c : Char) (l : Chars) (h : isJsonWs c = false) :
    skipWs (c :: l) = c :: l := by
  simp [skipWs, List.dropWhile_cons, h]

theorem skipWs_ws_append (pre l : Chars) (h : ∀ c ∈ pre, isJsonWs c = true) :
    skipWs (pre ++ l) = skipWs l := by
  induction pre with
  | nil => rfl
  | cons x xs ih =>
    have hx : isJsonWs x = true := h x (List.mem_cons_self _ _)
    have hxs : ∀ c ∈ xs, isJsonWs c = true := fun c hc => h c (List.mem_cons_of_mem _ hc)
    simp [skipWs, List.dropWhile_cons, hx] at ih ⊢
    exact ih hxs

theorem startsWithL_append_self (p rest : Chars) : startsWithL p (p ++ rest) = true :=
  (startsWithL_iff _ _).mpr ⟨rest, rfl⟩

theorem startsWithL_head_ne (a : Char) (p : Chars) (b : Char) (l : Chars)
    (h : (a == b) = false) : startsWithL (a :: p) (b :: l) = false := by
  simp [startsWithL, h]

/-- Every serialized JSON value is non-empty, and starts with a character that
is neither whitespace nor a closing bracket. -/
theorem serialize_head (v : Json) : ∃ c t, serialize v = c :: t
    ∧ isJsonWs c = false ∧ isPySpace c = false ∧ c ≠ ']' := by
  cases v with
  | jnull => exact ⟨'n', _, rfl, by decide, by decide, by decide⟩
  | jbool b =>
    cases b
    · exact ⟨'f', ("alse").data, rfl, by decide, by decide, by decide⟩
    · exact ⟨'t', ("rue").data, rfl, by decide, by decide, by decide⟩
  | jnum n =>
    rw [serialize, intChars]
    by_cases hn : n < 0
    · rw [if_pos hn]
      exact ⟨'-', _, rfl, by decide, by decide, by decide⟩
    · rw [if_neg hn]
      obtain ⟨m, t, heq, hm⟩ := natChars_shape n.toNat
      obtain ⟨_, hws, hps, _, hrb, _⟩ := digitChar_facts m hm
      exact ⟨Nat.digitChar m, t, heq, hws, hps, hrb⟩
  | jstr s => exact ⟨'"', _, rfl, by decide, by decide, by decide⟩
  | jarr es => exact ⟨'[', _, rfl, by decide, by decide, by decide⟩
  | jobj fs => exact ⟨'\x7b', _, rfl, by decide, by decide, by decide⟩

/-- Every serialized JSON value ends with a non-whitespace character. -/
theorem serialize_getLast (v : Json) :
    ∃ c, (serialize v).getLast? = some c ∧ isPySpace c = false := by
  cases v with
  | jnull => exact ⟨'l', rfl, by decide⟩
  | jbool b =>
    cases b with
    | true => exact ⟨'e', rfl, by decide⟩
    | false => exact ⟨'e', rfl, by decide⟩
  | jnum n =>
    rw [serialize, intChars]
    by_cases hn : n < 0
    · rw [if_pos hn]
      obtain ⟨m, hm, hlast⟩ := natChars_getLast n.natAbs
      obtain ⟨d, t, heq, _⟩ := natChars_shape n.natAbs
      refine ⟨Nat.digitChar m, ?_, (digitChar_facts m hm).2.2.1⟩
      rw [heq] at hlast ⊢
      rw [List.getLast?_cons_cons]
      exact hlast
    · rw [if_neg hn]
      obtain ⟨m, hm, hlast⟩ := natChars_getLast n.toNat
      exact ⟨Nat.digitChar m, hlast, (digitChar_facts m hm).2.2.1⟩
  | jstr s =>
    refine ⟨'"', ?_, by decide⟩
    rw [serialize, ← List.cons_append, List.getLast?_concat]
  | jarr es =>
    refine ⟨']', ?_, by decide⟩
    rw [serialize, ← List.cons_append, List.getLast?_concat]
  | jobj fs =>
    refine ⟨'\x7d', ?_, by decide⟩
    rw [serialize, ← List.cons_append, List.getLast?_concat]

/-- A non-empty serialized element list starts like its first element. -/
theorem serializeElems_cons_head (e : Json) (t : List Json) :
    ∃ c r, serializeElems (e :: t) = c :: r
      ∧ isJsonWs c = false ∧ c ≠ ']' := by
  obtain ⟨c, r0, he, h1, _, h3⟩ := serialize_head e
  cases t with
  | nil => exact ⟨c, r0, by rw [serializeElems, he], h1, h3⟩
  | cons t ts =>
    refine ⟨c, r0 ++ ',' :: ' ' :: serializeElems (t :: ts), ?_, h1, h3⟩
    rw [serializeElems, he]
    · rfl
    · simp

theorem not_true_of_false {b : Bool} (h : b = false) : ¬ b = true := by simp [h]

/-- After one step, on input whose significant head is not a keyword head,
`parseVal` reaches the character dispatch. -/
theorem parseVal_succ_dispatch (f : Nat) (l : Chars) (c : Char) (r : Chars)
    (hs : skipWs l = c :: r)
    (hn : ('n' == c) = false) (ht : ('t' == c) = false) (hf : ('f' == c) = false) :
    parseVal (f + 1) l =
      (if c = '"' then (parseStringRest r).map (fun p => (Json.jstr p.1, p.2))
       else if c = '[' then
         if startsWithL [']'] (skipWs r) then some (.jarr [], (skipWs r).drop 1)
         else (parseElems f (skipWs r)).map (fun p => (.jarr p.1, p.2))
       else if c = '\x7b' then
         if startsWithL ['\x7d'] (skipWs r) then some (.jobj [], (skipWs r).drop 1)
         else (parseFields f (skipWs r)).map (fun p => (.jobj p.1, p.2))
       else if c = '-' then
         match parseDigits r with
         | ([], _) => none
         | (ds, rest) => some (.jnum (-(digitsToNat ds : Int)), rest)
       else if c.isDigit then
         match parseDigits (c :: r) with
         | (ds, rest) => some (.jnum (digitsToNat ds : Int), rest)
       else none) := by
  rw [parseVal, hs]
  have h1 : startsWithL ("null").data (c :: r) = false :=
    startsWithL_head_ne 'n' (("ull").data) c r hn
  have h2 : startsWithL ("true").data (c :: r) = false :=
    startsWithL_head_ne 't' (("rue").data) c r ht
  have h3 : startsWithL ("false").data (c :: r) = false :=
    startsWithL_head_ne 'f' (("alse").data) c r hf
  rw [if_neg (not_true_of_false h1), if_neg (not_true_of_false h2),
      if_neg (not_true_of_false h3)]

theorem parseVal_null (f : Nat) (pre rest : Chars)
    (hpre : ∀ c ∈ pre, isJsonWs c = true) :
    parseVal (f + 1) (pre ++ (serialize .jnull ++ rest)) = some (.jnull, rest) := by
  rw [parseVal]
  have hs : skipWs (pre ++ (serialize Json.jnull ++ rest)) = ("null").data ++ rest := by
    rw [skipWs_ws_append pre _ hpre]
    exact skipWs_cons_not 'n' (("ull").data ++ rest) (by decide)
  rw [hs, if_pos (startsWithL_append_self (("null").data) rest)]
  rw [show (4 : Nat) = (("null").data).length from rfl, List.drop_left]

theorem parseVal_true (f : Nat) (pre rest : Chars)
    (hpre : ∀ c ∈ pre, isJsonWs c = true) :
    parseVal (f + 1) (pre ++ (serialize (.jbool true) ++ rest))
      = some (.jbool true, rest) := by
  rw [parseVal]
  have hs : skipWs (pre ++ (serialize (Json.jbool true) ++ rest)) = ("true").data ++ rest := by
    rw [skipWs_ws_append pre _ hpre]
    exact skipWs_cons_not 't' (("rue").data ++ rest) (by decide)
  rw [hs]
  have h1 : startsWithL ("null").data (("true").data ++ rest) = false :=
    startsWithL_head_ne 'n' (("ull").data) 't' (("rue").data ++ rest) (by decide)
  rw [if_neg (not_true_of_false h1)]
  rw [if_pos (startsWithL_append_self (("true").data) rest)]
  rw [show (4 : Nat) = (("true").data).length from rfl, List.drop_left]

theorem parseVal_false (f : Nat) (pre rest : Chars)
    (hpre : ∀ c ∈ pre, isJsonWs c = true) :
    parseVal (f + 1) (pre ++ (serialize (.jbool false) ++ rest))
      = some (.jbool false, rest) := by
  rw [parseVal]
  have hs : skipWs (pre ++ (serialize (Json.jbool false) ++ rest)) = ("false").data ++ rest := by
    rw [skipWs_ws_append pre _ hpre]
    exact skipWs_cons_not 'f' (("alse").data ++ rest) (by decide)
  rw [hs]
  have h1 : startsWithL ("null").data (("false").data ++ rest) = false :=
    startsWithL_head_ne 'n' (("ull").data) 'f' (("alse").data ++ rest) (by decide)
  have h2 : startsWithL ("true").data (("false").data ++ rest) = false :=
    startsWithL_head_ne 't' (("rue").data) 'f' (("alse").data ++ rest) (by decide)
  rw [if_neg (not_true_of_false h1), if_neg (not_true_of_false h2)]
  rw [if_pos (startsWithL_append_self (("false").data) rest)]
  rw [show (5 : Nat) = (("false").data).length from rfl, List.drop_left]

theorem parseVal_str (f : Nat) (s pre rest : Chars)
    (hpre : ∀ c ∈ pre, isJsonWs c = true) :
    parseVal (f + 1) (pre ++ (serialize (.jstr s) ++ rest))
      = some (.jstr s, rest) := by
  have hs : skipWs (pre ++ (serialize (Json.jstr s) ++ rest))
      = '"' :: ((escapeStr s ++ ['"']) ++ rest) := by
    rw [skipWs_ws_append pre _ hpre]
    exact skipWs_cons_not '"' ((escapeStr s ++ ['"']) ++ rest) (by decide)
  rw [parseVal_succ_dispatch f _ '"' ((escapeStr s ++ ['"']) ++ rest) hs
    (by decide) (by decide) (by decide)]
  rw [if_pos rfl, List.append_assoc]
  rw [show (['"'] : Chars) ++ rest = '"' :: rest from rfl]
  rw [parseStringRest_escape s rest]
  rfl

theorem parseVal_num (f : Nat) (n : Int) (pre rest : Chars)
    (hpre : ∀ c ∈ pre, isJsonWs c = true)
    (hguard : rest = [] ∨ ∃ c t, rest = c :: t ∧ c.isDigit = false) :
    parseVal (f + 1) (pre ++ (serialize (.jnum n) ++ rest)) = some (.jnum n, rest) := by
  by_cases hn : n < 0
  · have hser : serialize (Json.jnum n) = '-' :: natChars n.natAbs := by
      rw [serialize, intChars, if_pos hn]
    have hs : skipWs (pre ++ (serialize (Json.jnum n) ++ rest))
        = '-' :: (natChars n.natAbs ++ rest) := by
      rw [hser, skipWs_ws_append pre _ hpre]
      exact skipWs_cons_not '-' (natChars n.natAbs ++ rest) (by decide)
    rw [parseVal_succ_dispatch f _ '-' (natChars n.natAbs ++ rest) hs
      (by decide) (by decide) (by decide)]
    rw [if_neg (show ¬ ('-' = '"') from by decide),
        if_neg (show ¬ ('-' = '[') from by decide),
        if_neg (show ¬ ('-' = '\x7b') from by decide),
        if_pos rfl]
    rw [parseDigits_natChars n.natAbs rest hguard]
    obtain ⟨d, t, hshape, hd⟩ := natChars_shape n.natAbs
    rw [hshape]
    show some (Json.jnum (-(digitsToNat (Nat.digitChar d :: t) : Int)), rest)
      = some (Json.jnum n, rest)
    rw [← hshape, digitsToNat_natChars]
    have hval : (-(n.natAbs : Int)) = n := by omega
    rw [hval]
  · have hser : serialize (Json.jnum n) = natChars n.toNat := by
      rw [serialize, intChars, if_neg hn]
    obtain ⟨d, t, hshape, hd⟩ := natChars_shape n.toNat
    obtain ⟨hdig, hws, hps, hval, hrb, hcb, hcm, hq, hlb, hob, hmn, hnn, htn, hfn⟩ :=
      digitChar_facts d hd
    have hs : skipWs (pre ++ (serialize (Json.jnum n) ++ rest))
        = Nat.digitChar d :: (t ++ rest) := by
      rw [hser, hshape, skipWs_ws_append pre _ hpre]
      exact skipWs_cons_not (Nat.digitChar d) (t ++ rest) hws
    rw [parseVal_succ_dispatch f _ (Nat.digitChar d) (t ++ rest) hs
      (beq_eq_false_iff_ne.mpr (Ne.symm hnn)) (beq_eq_false_iff_ne.mpr (Ne.symm htn))
      (beq_eq_false_iff_ne.mpr (Ne.symm hfn))]
    rw [if_neg hq, if_neg hlb, if_neg hob, if_neg hmn, if_pos hdig]
    have hpd : parseDigits (Nat.digitChar d :: (t ++ rest)) = (natChars n.toNat, rest) := by
      rw [show Nat.digitChar d :: (t ++ rest) = natChars n.toNat ++ rest from
        by rw [hshape]; rfl]
      exact parseDigits_natChars n.toNat rest hguard
    rw [hpd]
    show some (Json.jnum (digitsToNat (natChars n.toNat) : Int), rest)
      = some (Json.jnum n, rest)
    rw [digitsToNat_natChars]
    have hcast : ((n.toNat : Nat) : Int) = n := by omega
    rw [hcast]

theorem fuelFor_pos (v : Json) : 1 ≤ fuelFor v := by
  cases v <;> simp [fuelFor]

theorem fuelForElems_pos (es : List Json) : 1 ≤ fuelForElems es := by
  cases es <;> simp [fuelForElems]

theorem fuelForFields_pos (fs : List (Chars × Json)) : 1 ≤ fuelForFields fs := by
  cases fs with
  | nil => simp [fuelForFields]
  | cons f t => obtain ⟨k, v⟩ := f; simp [fuelForFields]

theorem jsize_arr (es : List Json) : jsize (.jarr es) = 1 + jsizeElems es := rfl

theorem jsize_obj (fs : List (Chars × Json)) : jsize (.jobj fs) = 1 + jsizeFields fs := rfl

theorem jsizeElems_cons (e : Json) (t : List Json) :
    jsizeElems (e :: t) = 1 + jsize e + jsizeElems t := rfl

theorem jsizeFields_cons (k : Chars) (v : Json) (t : List (Chars × Json)) :
    jsizeFields ((k, v) :: t) = 1 + jsize v + jsizeFields t := rfl

theorem fuelFor_arr (es : List Json) : fuelFor (.jarr es) = 1 + fuelForElems es := rfl

theorem fuelFor_obj (fs : List (Chars × Json)) : fuelFor (.jobj fs) = 1 + fuelForFields fs := rfl

theorem fuelForElems_cons (e : Json) (t : List Json) :
    fuelForElems (e :: t) = 1 + max (fuelFor e) (fuelForElems t) := rfl

theorem fuelForFields_cons (k : Chars) (v : Json) (t : List (Chars × Json)) :
    fuelForFields ((k, v) :: t) = 1 + max (fuelFor v) (fuelForFields t) := rfl

/-- A non-empty serialized field list starts with a quote. -/
theorem serializeFields_cons_head (k : Chars) (v : Json) (t : List (Chars × Json)) :
    ∃ r, serializeFields ((k, v) :: t) = '"' :: r := by
  cases t with
  | nil => exact ⟨escapeStr k ++ '"' :: ':' :: ' ' :: serialize v, rfl⟩
  | cons f2 t2 =>
    refine ⟨(escapeStr k ++ '"' :: ':' :: ' ' :: serialize v) ++
      ',' :: ' ' :: serializeFields (f2 :: t2), ?_⟩
    rw [serializeFields]
    · rfl
    · simp

theorem parseElems_step (f : Nat) (l : Chars) (v : Json) (rest : Chars)
    (hv : parseVal f l = some (v, rest)) :
    parseElems (f + 1) l =
      (if startsWithL [','] (skipWs rest) then
        (parseElems f ((skipWs rest).drop 1)).map (fun p => (v :: p.1, p.2))
      else if startsWithL [']'] (skipWs rest) then some ([v], (skipWs rest).drop 1)
      else none) := by
  rw [parseElems, hv]

theorem parseFields_step (f : Nat) (l r k rest : Chars) (v : Json) (rest2 : Chars)
    (h1 : skipWs l = '"' :: r)
    (h2 : parseStringRest r = some (k, rest))
    (h3 : startsWithL [':'] (skipWs rest) = true)
    (h4 : parseVal f ((skipWs rest).drop 1) = some (v, rest2)) :
    parseFields (f + 1) l =
      (if startsWithL [','] (skipWs rest2) then
        (parseFields f ((skipWs rest2).drop 1)).map (fun p => ((k, v) :: p.1, p.2))
      else if startsWithL ['\x7d'] (skipWs rest2) then
        some ([(k, v)], (skipWs rest2).drop 1)
      else none) := by
  rw [parseFields, h1]
  show (if '"' = '"' then
      match parseStringRest r with
      | none => none
      | some (k, rest) =>
        if startsWithL [':'] (skipWs rest) = true then
          match parseVal f ((skipWs rest).drop 1) with
          | none => none
          | some (v, rest2) =>
            if startsWithL [','] (skipWs rest2) = true then
              (parseFields f ((skipWs rest2).drop 1)).map (fun p => ((k, v) :: p.1, p.2))
            else if startsWithL ['\x7d'] (skipWs rest2) = true then
              some ([(k, v)], (skipWs rest2).drop 1)
            else none
        else none
    else none) = _
  rw [if_pos rfl, h2]
  show (if startsWithL [':'] (skipWs rest) = true then
      match parseVal f ((skipWs rest).drop 1) with
      | none => none
      | some (v, rest2) =>
        if startsWithL [','] (skipWs rest2) = true then
          (parseFields f ((skipWs rest2).drop 1)).map (fun p => ((k, v) :: p.1, p.2))
        else if startsWithL ['\x7d'] (skipWs rest2) = true then
          some ([(k, v)], (skipWs rest2).drop 1)
        else none
    else none) = _
  rw [if_pos h3, h4]

theorem jsizeElems_nil : jsizeElems [] = 1 := rfl

theorem fuelForElems_nil : fuelForElems [] = 1 := rfl

/-- Round trip of the fuelled parser over the serializer, stated for values,
element lists and field lists simultaneously and proved by strong induction on
the nested size. -/
theorem parse_serialize_all : ∀ n : Nat,
    (∀ v : Json, jsize v ≤ n → ∀ fuel pre rest, fuelFor v ≤ fuel →
      (∀ c ∈ pre, isJsonWs c = true) →
      (rest = [] ∨ ∃ c t, rest = c :: t ∧ c.isDigit = false) →
      parseVal fuel (pre ++ (serialize v ++ rest)) = some (v, rest))
  ∧ (∀ es : List Json, jsizeElems es ≤ n → ∀ fuel pre rest, fuelForElems es ≤ fuel →
      (∀ c ∈ pre, isJsonWs c = true) → es ≠ [] →
      parseElems fuel (pre ++ (serializeElems es ++ ']' :: rest)) = some (es, rest))
  ∧ (∀ fs : List (Chars × Json), jsizeFields fs ≤ n → ∀ fuel pre rest,
      fuelForFields fs ≤ fuel →
      (∀ c ∈ pre, isJsonWs c = true) → fs ≠ [] →
      parseFields fuel (pre ++ (serializeFields fs ++ '\x7d' :: rest)) = some (fs, rest)) := by
  intro n
  induction n using Nat.strong_induction_on with
  | _ n ih =>
    refine ⟨?_, ?_, ?_⟩
    · intro v hsize fuel pre rest hfuel hpre hguard
      cases fuel with
      | zero => exact absurd hfuel (by have := fuelFor_pos v; omega)
      | succ f =>
        cases v with
        | jnull => exact parseVal_null f pre rest hpre
        | jbool b =>
          cases b with
          | true => exact parseVal_true f pre rest hpre
          | false => exact parseVal_false f pre rest hpre
        | jnum m => exact parseVal_num f m pre rest hpre hguard
        | jstr s => exact parseVal_str f s pre rest hpre
        | jarr es =>
          have hs : skipWs (pre ++ (serialize (Json.jarr es) ++ rest))
              = '[' :: ((serializeElems es ++ [']']) ++ rest) := by
            rw [show serialize (Json.jarr es)
                = '[' :: (serializeElems es ++ [']']) from rfl,
              skipWs_ws_append pre _ hpre]
            exact skipWs_cons_not '[' ((serializeElems es ++ [']']) ++ rest) (by decide)
          rw [parseVal_succ_dispatch f _ '[' ((serializeElems es ++ [']']) ++ rest) hs
            (by decide) (by decide) (by decide)]
          rw [if_neg (show ¬ ('[' = '"') from by decide), if_pos rfl]
          rw [show (serializeElems es ++ [']']) ++ rest
              = serializeElems es ++ ']' :: rest from by simp]
          cases es with
          | nil =>
            rw [show serializeElems ([] : List Json) ++ ']' :: rest
                = ']' :: rest from rfl]
            rw [skipWs_cons_not ']' rest (by decide)]
            rw [if_pos (show startsWithL [']'] (']' :: rest) = true from
              startsWithL_append_self [']'] rest)]
            rfl
          | cons e t =>
            obtain ⟨c, r', hhead, hws, hnrb⟩ := serializeElems_cons_head e t
            have hskip : skipWs (serializeElems (e :: t) ++ ']' :: rest)
                = serializeElems (e :: t) ++ ']' :: rest := by
              rw [hhead]
              exact skipWs_cons_not c (r' ++ ']' :: rest) hws
            rw [hskip]
            have hns : startsWithL [']'] (serializeElems (e :: t) ++ ']' :: rest)
                = false := by
              rw [hhead]
              exact startsWithL_head_ne ']' [] c (r' ++ ']' :: rest)
                (beq_eq_false_iff_ne.mpr (Ne.symm hnrb))
            rw [if_neg (not_true_of_false hns)]
            have hlt : jsizeElems (e :: t) < n := by
              rw [jsize_arr] at hsize
              omega
            have hfe : fuelForElems (e :: t) ≤ f := by
              rw [fuelFor_arr] at hfuel
              omega
            have h2 := (ih (jsizeElems (e :: t)) hlt).2.1 (e :: t) le_rfl f [] rest hfe
              (fun c hc => absurd hc (List.not_mem_nil c)) (List.cons_ne_nil e t)
            rw [List.nil_append] at h2
            rw [h2]
            rfl
        | jobj fs =>
          have hs : skipWs (pre ++ (serialize (Json.jobj fs) ++ rest))
              = '\x7b' :: ((serializeFields fs ++ ['\x7d']) ++ rest) := by
            rw [show serialize (Json.jobj fs)
                = '\x7b' :: (serializeFields fs ++ ['\x7d']) from rfl,
              skipWs_ws_append pre _ hpre]
            exact skipWs_cons_not '\x7b' ((serializeFields fs ++ ['\x7d']) ++ rest)
              (by decide)
          rw [parseVal_succ_dispatch f _ '\x7b' ((serializeFields fs ++ ['\x7d']) ++ rest)
            hs (by decide) (by decide) (by decide)]
          rw [if_neg (show ¬ ('\x7b' = '"') from by decide),
              if_neg (show ¬ ('\x7b' = '[') from by decide), if_pos rfl]
          rw [show (serializeFields fs ++ ['\x7d']) ++ rest
              = serializeFields fs ++ '\x7d' :: rest from by simp]
          cases fs with
          | nil =>
            rw [show serializeFields ([] : List (Chars × Json)) ++ '\x7d' :: rest
                = '\x7d' :: rest from rfl]
            rw [skipWs_cons_not '\x7d' rest (by decide)]
            rw [if_pos (show startsWithL ['\x7d'] ('\x7d' :: rest) = true from
              startsWithL_append_self ['\x7d'] rest)]
            rfl
          | cons kv t =>
            obtain ⟨k, v⟩ := kv
            obtain ⟨r0, hhead⟩ := serializeFields_cons_head k v t
            have hskip : skipWs (serializeFields ((k, v) :: t) ++ '\x7d' :: rest)
                = serializeFields ((k, v) :: t) ++ '\x7d' :: rest := by
              rw [hhead]
              exact skipWs_cons_not '"' (r0 ++ '\x7d' :: rest) (by decide)
            rw [hskip]
            have hns : startsWithL ['\x7d'] (serializeFields ((k, v) :: t) ++ '\x7d' :: rest)
                = false := by
              rw [hhead]
              exact startsWithL_head_ne '\x7d' [] '"' (r0 ++ '\x7d' :: rest) (by decide)
            rw [if_neg (not_true_of_false hns)]
            have hlt : jsizeFields ((k, v) :: t) < n := by
              rw [jsize_obj] at hsize
              omega
            have hff : fuelForFields ((k, v) :: t) ≤ f := by
              rw [fuelFor_obj] at hfuel
              omega
            have h2 := (ih (jsizeFields ((k, v) :: t)) hlt).2.2 ((k, v) :: t) le_rfl f []
              rest hff (fun c hc => absurd hc (List.not_mem_nil c))
              (List.cons_ne_nil (k, v) t)
            rw [List.nil_append] at h2
            rw [h2]
            rfl
    · intro es hsize fuel pre rest hfuel hpre hne
      cases es with
      | nil => exact absurd rfl hne
      | cons e t =>
        cases fuel with
        | zero => exact absurd hfuel (by have := fuelForElems_pos (e :: t); omega)
        | succ f =>
          cases t with
          | nil =>
            have hlt : jsize e < n := by
              rw [jsizeElems_cons, jsizeElems_nil] at hsize
              omega
            have hfe : fuelFor e ≤ f := by
              rw [fuelForElems_cons, fuelForElems_nil] at hfuel
              omega
            have hv := (ih (jsize e) hlt).1 e le_rfl f pre (']' :: rest) hfe hpre
              (Or.inr ⟨']', rest, rfl, by decide⟩)
            rw [show pre ++ (serializeElems [e] ++ ']' :: rest)
                = pre ++ (serialize e ++ ']' :: rest) from by
              rw [show serializeElems [e] = serialize e from rfl]]
            rw [parseElems_step f _ e (']' :: rest) hv]
            rw [skipWs_cons_not ']' rest (by decide)]
            have hc : startsWithL [','] (']' :: rest) = false :=
              startsWithL_head_ne ',' [] ']' rest (by decide)
            rw [if_neg (not_true_of_false hc)]
            rw [if_pos (show startsWithL [']'] (']' :: rest) = true from
              startsWithL_append_self [']'] rest)]
            rfl
          | cons e2 t2 =>
            have hser : serializeElems (e :: e2 :: t2)
                = serialize e ++ ',' :: ' ' :: serializeElems (e2 :: t2) := by
              rw [serializeElems]
              · simp
            have hlt1 : jsize e < n := by
              rw [jsizeElems_cons] at hsize
              omega
            have hlt2 : jsizeElems (e2 :: t2) < n := by
              rw [jsizeElems_cons] at hsize
              omega
            have hfe : fuelFor e ≤ f := by
              rw [fuelForElems_cons] at hfuel
              omega
            have hft : fuelForElems (e2 :: t2) ≤ f := by
              rw [fuelForElems_cons] at hfuel
              omega
            have hv := (ih (jsize e) hlt1).1 e le_rfl f pre
              (',' :: ' ' :: (serializeElems (e2 :: t2) ++ ']' :: rest)) hfe hpre
              (Or.inr ⟨',', ' ' :: (serializeElems (e2 :: t2) ++ ']' :: rest), rfl,
                by decide⟩)
            rw [show pre ++ (serializeElems (e :: e2 :: t2) ++ ']' :: rest)
                = pre ++ (serialize e ++
                  (',' :: ' ' :: (serializeElems (e2 :: t2) ++ ']' :: rest))) from by
              rw [hser]; simp]
            rw [parseElems_step f _ e _ hv]
            rw [skipWs_cons_not ','
              (' ' :: (serializeElems (e2 :: t2) ++ ']' :: rest)) (by decide)]
            rw [if_pos (show startsWithL [',']
                (',' :: ' ' :: (serializeElems (e2 :: t2) ++ ']' :: rest)) = true from
              startsWithL_append_self [','] _)]
            have he2 := (ih (jsizeElems (e2 :: t2)) hlt2).2.1 (e2 :: t2) le_rfl f [' ']
              rest hft (by intro c hc; simp at hc; subst hc; decide)
              (List.cons_ne_nil e2 t2)
            rw [show ((',' :: ' ' :: (serializeElems (e2 :: t2) ++ ']' :: rest)).drop 1)
                = [' '] ++ (serializeElems (e2 :: t2) ++ ']' :: rest) from rfl]
            rw [he2]
            rfl
    · intro fs hsize fuel pre rest hfuel hpre hne
      cases fs with
      | nil => exact absurd rfl hne
      | cons kv t =>
        obtain ⟨k, v⟩ := kv
        cases fuel with
        | zero => exact absurd hfuel (by have := fuelForFields_pos ((k, v) :: t); omega)
        | succ f =>
          cases t with
          | nil =>
            have hlt : jsize v < n := by
              rw [jsizeFields_cons] at hsize
              omega
            have hfv : fuelFor v ≤ f := by
              rw [fuelForFields_cons] at hfuel
              omega
            have h1 : skipWs (pre ++ (serializeFields [(k, v)] ++ '\x7d' :: rest))
                = '"' :: ((escapeStr k ++ '"' :: ':' :: ' ' :: serialize v)
                  ++ '\x7d' :: rest) := by
              rw [show serializeFields [(k, v)]
                  = '"' :: (escapeStr k ++ '"' :: ':' :: ' ' :: serialize v) from rfl,
                skipWs_ws_append pre _ hpre]
              exact skipWs_cons_not '"'
                ((escapeStr k ++ '"' :: ':' :: ' ' :: serialize v) ++ '\x7d' :: rest)
                (by decide)
            have h2 : parseStringRest
                ((escapeStr k ++ '"' :: ':' :: ' ' :: serialize v) ++ '\x7d' :: rest)
                = some (k, ':' :: ' ' :: (serialize v ++ '\x7d' :: rest)) := by
              rw [show (escapeStr k ++ '"' :: ':' :: ' ' :: serialize v) ++ '\x7d' :: rest
                  = escapeStr k ++ '"' :: ':' :: ' ' :: (serialize v ++ '\x7d' :: rest)
                  from by simp]
              exact parseStringRest_escape k _
            have hsk : skipWs (':' :: ' ' :: (serialize v ++ '\x7d' :: rest))
                = ':' :: ' ' :: (serialize v ++ '\x7d' :: rest) :=
              skipWs_cons_not ':' _ (by decide)
            have h3 : startsWithL [':']
                (skipWs (':' :: ' ' :: (serialize v ++ '\x7d' :: rest))) = true := by
              rw [hsk]
              exact startsWithL_append_self [':'] _
            have hv := (ih (jsize v) hlt).1 v le_rfl f [' '] ('\x7d' :: rest) hfv
              (by intro c hc; simp at hc; subst hc; decide)
              (Or.inr ⟨'\x7d', rest, rfl, by decide⟩)
            have h4 : parseVal f
                ((skipWs (':' :: ' ' :: (serialize v ++ '\x7d' :: rest))).drop 1)
                = some (v, '\x7d' :: rest) := by
              rw [hsk]
              rw [show ((':' :: ' ' :: (serialize v ++ '\x7d' :: rest)).drop 1)
                  = [' '] ++ (serialize v ++ '\x7d' :: rest) from rfl]
              exact hv
            rw [parseFields_step f _ _ k (':' :: ' ' :: (serialize v ++ '\x7d' :: rest))
              v ('\x7d' :: rest) h1 h2 h3 h4]
            rw [skipWs_cons_not '\x7d' rest (by decide)]
            have hc : startsWithL [','] ('\x7d' :: rest) = false :=
              startsWithL_head_ne ',' [] '\x7d' rest (by decide)
            rw [if_neg (not_true_of_false hc)]
            rw [if_pos (show startsWithL ['\x7d'] ('\x7d' :: rest) = true from
              startsWithL_append_self ['\x7d'] rest)]
            rfl
          | cons kv2 t2 =>
            obtain ⟨k2, v2⟩ := kv2
            have hser : serializeFields ((k, v) :: (k2, v2) :: t2)
                = ('"' :: (escapeStr k ++ '"' :: ':' :: ' ' :: serialize v)) ++
                  ',' :: ' ' :: serializeFields ((k2, v2) :: t2) := by
              rw [serializeFields]
              · simp
            have hlt1 : jsize v < n := by
              rw [jsizeFields_cons] at hsize
              omega
            have hlt2 : jsizeFields ((k2, v2) :: t2) < n := by
              rw [jsizeFields_cons] at hsize
              omega
            have hfv : fuelFor v ≤ f := by
              rw [fuelForFields_cons] at hfuel
              omega
            have hft : fuelForFields ((k2, v2) :: t2) ≤ f := by
              rw [fuelForFields_cons] at hfuel
              omega
            have h1 : skipWs (pre ++ (serializeFields ((k, v) :: (k2, v2) :: t2)
                ++ '\x7d' :: rest))
                = '"' :: (escapeStr k ++ '"' :: ':' :: ' ' :: (serialize v ++
                  ',' :: ' ' :: (serializeFields ((k2, v2) :: t2) ++ '\x7d' :: rest))) := by
              rw [show serializeFields ((k, v) :: (k2, v2) :: t2) ++ '\x7d' :: rest
                  = '"' :: (escapeStr k ++ '"' :: ':' :: ' ' :: (serialize v ++
                    ',' :: ' ' :: (serializeFields ((k2, v2) :: t2) ++ '\x7d' :: rest)))
                  from by rw [hser]; simp]
              rw [skipWs_ws_append pre _ hpre]
              exact skipWs_cons_not '"' _ (by decide)
            have h2 : parseStringRest (escapeStr k ++ '"' :: ':' :: ' ' :: (serialize v ++
                ',' :: ' ' :: (serializeFields ((k2, v2) :: t2) ++ '\x7d' :: rest)))
                = some (k, ':' :: ' ' :: (serialize v ++
                  ',' :: ' ' :: (serializeFields ((k2, v2) :: t2) ++ '\x7d' :: rest))) :=
              parseStringRest_escape k _
            have hsk : skipWs (':' :: ' ' :: (serialize v ++
                ',' :: ' ' :: (serializeFields ((k2, v2) :: t2) ++ '\x7d' :: rest)))
                = ':' :: ' ' :: (serialize v ++
                  ',' :: ' ' :: (serializeFields ((k2, v2) :: t2) ++ '\x7d' :: rest)) :=
              skipWs_cons_not ':' _ (by decide)
            have h3 : startsWithL [':'] (skipWs (':' :: ' ' :: (serialize v ++
                ',' :: ' ' :: (serializeFields ((k2, v2) :: t2) ++ '\x7d' :: rest))))
                = true := by
              rw [hsk]
              exact startsWithL_append_self [':'] _
            have hv := (ih (jsize v) hlt1).1 v le_rfl f [' ']
              (',' :: ' ' :: (serializeFields ((k2, v2) :: t2) ++ '\x7d' :: rest)) hfv
              (by intro c hc; simp at hc; subst hc; decide)
              (Or.inr ⟨',', ' ' :: (serializeFields ((k2, v2) :: t2) ++ '\x7d' :: rest),
                rfl, by decide⟩)
            have h4 : parseVal f ((skipWs (':' :: ' ' :: (serialize v ++
                ',' :: ' ' :: (serializeFields ((k2, v2) :: t2) ++ '\x7d' :: rest)))).drop 1)
                = some (v, ',' :: ' ' :: (serializeFields ((k2, v2) :: t2)
                  ++ '\x7d' :: rest)) := by
              rw [hsk]
              rw [show ((':' :: ' ' :: (serialize v ++ ',' :: ' ' ::
                  (serializeFields ((k2, v2) :: t2) ++ '\x7d' :: rest))).drop 1)
                  = [' '] ++ (serialize v ++ ',' :: ' ' ::
                    (serializeFields ((k2, v2) :: t2) ++ '\x7d' :: rest)) from rfl]
              exact hv
            rw [parseFields_step f _ _ k _ v _ h1 h2 h3 h4]
            rw [skipWs_cons_not ','
              (' ' :: (serializeFields ((k2, v2) :: t2) ++ '\x7d' :: rest)) (by decide)]
            rw [if_pos (show startsWithL [','] (',' :: ' ' ::
                (serializeFields ((k2, v2) :: t2) ++ '\x7d' :: rest)) = true from
              startsWithL_append_self [','] _)]
            have h5 := (ih (jsizeFields ((k2, v2) :: t2)) hlt2).2.2 ((k2, v2) :: t2)
              le_rfl f [' '] rest hft
              (by intro c hc; simp at hc; subst hc; decide)
              (List.cons_ne_nil (k2, v2) t2)
            rw [show ((',' :: ' ' :: (serializeFields ((k2, v2) :: t2)
                ++ '\x7d' :: rest)).drop 1)
                = [' '] ++ (serializeFields ((k2, v2) :: t2) ++ '\x7d' :: rest) from rfl]
            rw [h5]
            rfl

theorem fuelForFields_nil : fuelForFields [] = 1 := rfl

/-- The fuel `fuelFor v` needed to parse `serialize v` is within the fuel
`parseJsonTop` supplies (one more than the input length). -/
theorem fuelFor_le_all : ∀ n : Nat,
    (∀ v, jsize v ≤ n → fuelFor v ≤ (serialize v).length + 1)
  ∧ (∀ es, jsizeElems es ≤ n → fuelForElems es ≤ (serializeElems es).length + 2)
  ∧ (∀ fs, jsizeFields fs ≤ n → fuelForFields fs ≤ (serializeFields fs).length + 2) := by
  intro n
  induction n using Nat.strong_induction_on with
  | _ n ih =>
    refine ⟨?_, ?_, ?_⟩
    · intro v hsize
      cases v with
      | jnull => simp [fuelFor]
      | jbool b => cases b <;> simp [fuelFor]
      | jnum m => simp only [fuelFor]; omega
      | jstr s => simp only [fuelFor]; omega
      | jarr es =>
        rw [fuelFor_arr]
        have hlt : jsizeElems es < n := by rw [jsize_arr] at hsize; omega
        have hIH := (ih (jsizeElems es) hlt).2.1 es le_rfl
        rw [show serialize (Json.jarr es) = '[' :: (serializeElems es ++ [']']) from rfl]
        simp only [List.length_cons, List.length_append, List.length_singleton]
        omega
      | jobj fs =>
        rw [fuelFor_obj]
        have hlt : jsizeFields fs < n := by rw [jsize_obj] at hsize; omega
        have hIH := (ih (jsizeFields fs) hlt).2.2 fs le_rfl
        rw [show serialize (Json.jobj fs) = '\x7b' :: (serializeFields fs ++ ['\x7d'])
          from rfl]
        simp only [List.length_cons, List.length_append, List.length_singleton]
        omega
    · intro es hsize
      cases es with
      | nil => simp [fuelForElems]
      | cons e t =>
        rw [fuelForElems_cons]
        have hlt1 : jsize e < n := by rw [jsizeElems_cons] at hsize; omega
        have hIH1 := (ih (jsize e) hlt1).1 e le_rfl
        cases t with
        | nil =>
          rw [show serializeElems [e] = serialize e from rfl, fuelForElems_nil]
          omega
        | cons e2 t2 =>
          have hlt2 : jsizeElems (e2 :: t2) < n := by rw [jsizeElems_cons] at hsize; omega
          have hIH2 := (ih (jsizeElems (e2 :: t2)) hlt2).2.1 (e2 :: t2) le_rfl
          have hser : serializeElems (e :: e2 :: t2)
              = serialize e ++ ',' :: ' ' :: serializeElems (e2 :: t2) := by
            rw [serializeElems]
            · simp
          rw [hser]
          simp only [List.length_append, List.length_cons]
          omega
    · intro fs hsize
      cases fs with
      | nil => simp [fuelForFields]
      | cons kv t =>
        obtain ⟨k, v⟩ := kv
        rw [fuelForFields_cons]
        have hlt1 : jsize v < n := by rw [jsizeFields_cons] at hsize; omega
        have hIH1 := (ih (jsize v) hlt1).1 v le_rfl
        cases t with
        | nil =>
          rw [show serializeFields [(k, v)]
              = '"' :: (escapeStr k ++ '"' :: ':' :: ' ' :: serialize v) from rfl,
            fuelForFields_nil]
          simp only [List.length_cons, List.length_append]
          omega
        | cons kv2 t2 =>
          obtain ⟨k2, v2⟩ := kv2
          have hlt2 : jsizeFields ((k2, v2) :: t2) < n := by
            rw [jsizeFields_cons] at hsize; omega
          have hIH2 := (ih (jsizeFields ((k2, v2) :: t2)) hlt2).2.2 ((k2, v2) :: t2) le_rfl
          have hser : serializeFields ((k, v) :: (k2, v2) :: t2)
              = ('"' :: (escapeStr k ++ '"' :: ':' :: ' ' :: serialize v)) ++
                ',' :: ' ' :: serializeFields ((k2, v2) :: t2) := by
            rw [serializeFields]
            · simp
          rw [hser]
          simp only [List.length_append, List.length_cons]
          omega

/-- `json.loads` inverts `json.dumps`: parsing a serialized value yields the
value back. -/
theorem parseJsonTop_serialize (v : Json) : parseJsonTop (serialize v) = some v := by
  have hfuel : fuelFor v ≤ (serialize v).length + 1 := (fuelFor_le_all (jsize v)).1 v le_rfl
  have h := (parse_serialize_all (jsize v)).1 v le_rfl ((serialize v).length + 1) [] []
    hfuel (fun c hc => absurd hc (List.not_mem_nil c)) (Or.inl rfl)
  rw [show ([] : Chars) ++ (serialize v ++ ([] : Chars)) = serialize v from by simp] at h
  rw [parseJsonTop, h]
  rfl

/-- Stripping a string wrapped in single newlines recovers the string when it
neither starts nor ends with whitespace. -/
theorem pyStrip_wrap (s : Chars)
    (hhead : ∃ c t, s = c :: t ∧ isPySpace c = false)
    (hlast : ∃ c, s.getLast? = some c ∧ isPySpace c = false) :
    pyStrip ('\n' :: (s ++ ['\n'])) = s := by
  obtain ⟨c, t, rfl, hc⟩ := hhead
  obtain ⟨z, hz, hzs⟩ := hlast
  rw [pyStrip]
  rw [List.dropWhile_cons]
  rw [show isPySpace '\n' = true from rfl]
  simp only [if_true]
  rw [show ((c :: t) ++ ['\n'] : Chars) = c :: (t ++ ['\n']) from rfl]
  rw [List.dropWhile_cons, hc]
  simp only [Bool.false_eq_true, if_false]
  rw [show (c :: (t ++ ['\n']) : Chars) = (c :: t) ++ ['\n'] from rfl]
  rw [List.reverse_append]
  rw [show (['\n'] : Chars).reverse = ['\n'] from rfl]
  rw [show (['\n'] : Chars) ++ (c :: t).reverse = '\n' :: (c :: t).reverse from rfl]
  rw [List.dropWhile_cons]
  rw [show isPySpace '\n' = true from rfl]
  simp only [if_true]
  have hrev : (c :: t).reverse.head? = some z := by
    rw [List.head?_reverse]
    exact hz
  cases hr : (c :: t).reverse with
  | nil => simp [hr] at hrev
  | cons y ys =>
    rw [hr] at hrev
    simp only [List.head?_cons, Option.some.injEq] at hrev
    subst hrev
    rw [List.dropWhile_cons, hzs]
    simp only [Bool.false_eq_true, if_false]
    rw [← hr, List.reverse_reverse]

/-- When the oracle reply wraps a JSON payload in a well-formed fenced block
and no backtick occurs in the preamble or in the payload, the fence stripper
isolates exactly the payload. -/
theorem stripFences_fenced (body pre post : Chars)
    (hpre : '`' ∉ pre) (hbody : '`' ∉ body)
    (hhead : ∃ c t, body = c :: t ∧ isPySpace c = false)
    (hlast : ∃ c, body.getLast? = some c ∧ isPySpace c = false) :
    stripFences (pre ++ fenceJson ++ ('\n' :: (body ++ '\n' :: (fence ++ post)))) = body := by
  have h1 : findSplit fenceJson (pre ++ fenceJson ++ ('\n' :: (body ++ '\n' :: (fence ++ post))))
      = some (pre, '\n' :: (body ++ '\n' :: (fence ++ post))) := by
    rw [show fenceJson = '`' :: ("``json").data from rfl]
    exact findSplit_boundary hpre
  have hB : ('\n' :: (body ++ '\n' :: (fence ++ post)) : Chars)
      = ('\n' :: (body ++ ['\n'])) ++ fence ++ post := by
    simp
  have hA : '`' ∉ ('\n' :: (body ++ ['\n']) : Chars) := by
    simp only [List.mem_cons, List.mem_append, List.mem_singleton]
    rintro (h | h | h) <;> first
      | exact absurd h.symm (by decide)
      | exact hbody h
  have h2 : findSplit fence ('\n' :: (body ++ '\n' :: (fence ++ post)))
      = some ('\n' :: (body ++ ['\n']), post) := by
    rw [hB, show fence = '`' :: ("``").data from rfl]
    exact findSplit_boundary hA
  have hsf1 : splitFirst (pre ++ fenceJson ++ ('\n' :: (body ++ '\n' :: (fence ++ post))))
      fenceJson = (pre, '\n' :: (body ++ '\n' :: (fence ++ post))) := by
    rw [splitFirst, h1]
    rfl
  have hc1 : pyContains (pre ++ fenceJson ++ ('\n' :: (body ++ '\n' :: (fence ++ post))))
      fenceJson = true := by
    rw [pyContains, h1]
    rfl
  have hc2 : pyContains ('\n' :: (body ++ '\n' :: (fence ++ post))) fence = true := by
    rw [pyContains, h2]
    rfl
  have hsf2 : splitFirst ('\n' :: (body ++ '\n' :: (fence ++ post))) fence
      = ('\n' :: (body ++ ['\n']), post) := by
    rw [splitFirst, h2]
    rfl
  rw [stripFences, hsf1]
  simp only [hc1, hc2, Bool.and_self, if_true]
  rw [hsf2]
  exact pyStrip_wrap body hhead hlast

/-- C1 (amended): when the oracle text (after fence stripping) fails to parse
as JSON, `analyze_job_description` returns the degraded-but-valid fallback
object carrying the raw text with default/empty required fields, but
`tailor_resume` raises an exception to the caller naming the raw dump file. -/
theorem claim_C1_extraction_amended (ts text : Chars)
    (hfail : parseJsonTop (stripFences text) = none) :
    analyzeExtract text = Json.jobj
        [(("raw_analysis").data, Json.jstr text),
         (("job_title").data, Json.jstr ("Unknown").data),
         (("required_skills").data, Json.jarr []),
         (("keywords").data, Json.jarr [])]
    ∧ tailorExtract ts text = Except.error
        ((("Failed to parse tailored resume as JSON. Raw output saved to output/tailored_resume_raw_").data)
          ++ ts ++ (".txt").data) := by
  constructor
  · rw [analyzeExtract, hfail]
    rfl
  · rw [tailorExtract, hfail]

/-- C1 counterexample: on unparsable oracle text, `tailor_resume` raises
(`Except.error`) rather than returning a degraded result, so extraction does
not "never raise an exception to the caller". -/
theorem claim_C1_counterexample :
    tailorExtract (("20250101_120000").data) (("I could not produce JSON, sorry.").data)
      = Except.error
        ((("Failed to parse tailored resume as JSON. Raw output saved to output/tailored_resume_raw_").data)
          ++ ("20250101_120000").data ++ (".txt").data) := by
  rfl

/-- Witness instantiating the amended C1 theorem on concrete unparsable text. -/
theorem claim_C1_witness :
    parseJsonTop (stripFences (("oops, no data").data)) = none
    ∧ (analyzeExtract (("oops, no data").data) = Json.jobj
        [(("raw_analysis").data, Json.jstr (("oops, no data").data)),
         (("job_title").data, Json.jstr ("Unknown").data),
         (("required_skills").data, Json.jarr []),
         (("keywords").data, Json.jarr [])]
      ∧ tailorExtract (("ts1").data) (("oops, no data").data) = Except.error
        ((("Failed to parse tailored resume as JSON. Raw output saved to output/tailored_resume_raw_").data)
          ++ ("ts1").data ++ (".txt").data)) :=
  ⟨rfl, claim_C1_extraction_amended (("ts1").data) (("oops, no data").data) rfl⟩

/-- C3 (amended): a JSON value serialized into a well-formed ```json fenced
block recovers deep-equal, provided no backtick occurs in the preamble or in
the serialized payload. -/
theorem claim_C3_extract_amended (v : Json) (pre post ts : Chars)
    (hpre : '`' ∉ pre) (hv : '`' ∉ serialize v) :
    analyzeExtract (pre ++ fenceJson ++ ('\n' :: (serialize v ++ '\n' :: (fence ++ post))))
      = v
    ∧ tailorExtract ts
        (pre ++ fenceJson ++ ('\n' :: (serialize v ++ '\n' :: (fence ++ post))))
      = Except.ok v := by
  have hh : ∃ c t, serialize v = c :: t ∧ isPySpace c = false := by
    obtain ⟨c, t, he, _, hps, _⟩ := serialize_head v
    exact ⟨c, t, he, hps⟩
  have hl : ∃ c, (serialize v).getLast? = some c ∧ isPySpace c = false :=
    serialize_getLast v
  have hs := stripFences_fenced (serialize v) pre post hpre hv hh hl
  constructor
  · rw [analyzeExtract, hs, parseJsonTop_serialize]
  · rw [tailorExtract, hs, parseJsonTop_serialize]

/-- C3 counterexample: prose is not arbitrary — a preamble that itself mentions
a ```json fence derails the first-occurrence split, so the extractor grabs
prose instead of the embedded object and falls back. -/
theorem claim_C3_counterexample :
    stripFences ((("Note ```json is used below.\n").data) ++ fenceJson ++
        ('\n' :: (serialize (Json.jobj [(("a").data, Json.jnum 1)]) ++ '\n' ::
          (fence ++ ("\nBye.").data))))
      = ("is used below.").data
    ∧ analyzeExtract ((("Note ```json is used below.\n").data) ++ fenceJson ++
        ('\n' :: (serialize (Json.jobj [(("a").data, Json.jnum 1)]) ++ '\n' ::
          (fence ++ ("\nBye.").data))))
      = analyzeFallback ((("Note ```json is used below.\n").data) ++ fenceJson ++
        ('\n' :: (serialize (Json.jobj [(("a").data, Json.jnum 1)]) ++ '\n' ::
          (fence ++ ("\nBye.").data))))
    ∧ analyzeFallback ((("Note ```json is used below.\n").data) ++ fenceJson ++
        ('\n' :: (serialize (Json.jobj [(("a").data, Json.jnum 1)]) ++ '\n' ::
          (fence ++ ("\nBye.").data))))
      ≠ Json.jobj [(("a").data, Json.jnum 1)] := by
  refine ⟨rfl, rfl, ?_⟩
  simp [analyzeFallback]

/-- Witness instantiating the amended C3 theorem on a concrete fenced reply. -/
theorem claim_C3_witness :
    ('`' ∉ (("Sure, here is the tailored resume:").data : Chars))
    ∧ ('`' ∉ serialize (Json.jobj [(("a").data, Json.jnum 1)]))
    ∧ analyzeExtract ((("Sure, here is the tailored resume:").data) ++ fenceJson ++
        ('\n' :: (serialize (Json.jobj [(("a").data, Json.jnum 1)]) ++ '\n' ::
          (fence ++ (" Hope this helps!").data))))
      = Json.jobj [(("a").data, Json.jnum 1)]
    ∧ tailorExtract (("ts2").data)
        ((("Sure, here is the tailored resume:").data) ++ fenceJson ++
        ('\n' :: (serialize (Json.jobj [(("a").data, Json.jnum 1)]) ++ '\n' ::
          (fence ++ (" Hope this helps!").data))))
      = Except.ok (Json.jobj [(("a").data, Json.jnum 1)]) :=
  ⟨by decide, by decide,
    (claim_C3_extract_amended (Json.jobj [(("a").data, Json.jnum 1)])
      (("Sure, here is the tailored resume:").data) ((" Hope this helps!").data)
      (("ts2").data) (by decide) (by decide)).1,
    (claim_C3_extract_amended (Json.jobj [(("a").data, Json.jnum 1)])
      (("Sure, here is the tailored resume:").data) ((" Hope this helps!").data)
      (("ts2").data) (by decide) (by decide)).2⟩

/-! ## Claim C10: hard-coded education defaults

The closed forms below carry NO hypotheses on the record values: the
substitution scan never rescans a replacement, a match never starts inside a
brace-free segment, and a brace-free segment longer than a placeholder name
cannot be overlapped by a match, so a spliced default survives every later
substitution, up to and including the final markdown document. -/

theorem braceFree_cons {c : Char} {l : Chars} (h : braceFree (c :: l) = true) :
    c ≠ '\x7b' ∧ c ≠ '\x7d' ∧ braceFree l = true := by
  rw [braceFree, List.all_cons, Bool.and_eq_true] at h
  have h1 := h.1
  simp only [Bool.and_eq_true, bne_iff_ne, ne_eq] at h1
  exact ⟨h1.1, h1.2, by rw [braceFree]; exact h.2⟩

theorem startsWithL_append_stop (p : Chars) : ∀ (l t : Chars), p.length ≤ l.length →
    startsWithL p (l ++ t) = startsWithL p l := by
  induction p with
  | nil => intro l t _; rfl
  | cons pc pp ih =>
    intro l t hlen
    cases l with
    | nil => simp at hlen
    | cons x xs =>
      simp only [List.cons_append, startsWithL, List.append_eq]
      rw [ih xs t (by simp only [List.length_cons] at hlen; omega)]

theorem startsWithL_of_short : ∀ {p l : Chars}, l.length < p.length →
    startsWithL p l = false := by
  intro p
  induction p with
  | nil => intro l h; simp at h
  | cons pc pp ih =>
    intro l h
    cases l with
    | nil => rfl
    | cons x xs =>
      simp only [startsWithL]
      rw [ih (show xs.length < pp.length by
        simp only [List.length_cons] at h; omega)]
      simp

theorem ph_ne_nil (name : Chars) : ph name ≠ [] := by
  rw [ph]; simp

theorem ph_length (name : Chars) : (ph name).length = name.length + 4 := by
  rw [ph]
  simp only [List.length_cons, List.length_append, List.length_cons,
    List.length_nil]

theorem ph_getLast (name : Chars) : (ph name).getLast? = some '\x7d' := by
  rw [show ph name = ('\x7b' :: '\x7b' :: (name ++ ['\x7d'])) ++ ['\x7d'] from by
    rw [ph]; simp]
  exact List.getLast?_concat _

theorem getLast?_some_mem : ∀ {l : Chars} {z : Char}, l.getLast? = some z → z ∈ l := by
  intro l
  induction l with
  | nil => intro z h; simp at h
  | cons c t ih =>
    intro z h
    cases t with
    | nil =>
      simp only [List.getLast?_singleton, Option.some.injEq] at h
      simp [h]
    | cons c2 t2 =>
      rw [List.getLast?_cons_cons] at h
      exact List.mem_cons_of_mem c (ih h)

theorem getLast?_append_right : ∀ (l1 : Chars) {l2 : Chars}, l2 ≠ [] →
    (l1 ++ l2).getLast? = l2.getLast? := by
  intro l1
  induction l1 with
  | nil => intro l2 _; rfl
  | cons c cs ih =>
    intro l2 h
    rw [List.cons_append]
    cases hcs : cs ++ l2 with
    | nil =>
      obtain ⟨-, h2⟩ := List.append_eq_nil.mp hcs
      exact absurd h2 h
    | cons d ds =>
      rw [List.getLast?_cons_cons, ← hcs]
      exact ih h

theorem countB_zero {l : Chars} (h : braceFree l = true) :
    List.countP (fun c => c == '\x7b' || c == '\x7d') l = 0 := by
  induction l with
  | nil => rfl
  | cons c t ih =>
    obtain ⟨h1, h2, h3⟩ := braceFree_cons h
    rw [List.countP_cons, ih h3]
    have e1 : (c == '\x7b') = false := beq_eq_false_iff_ne.mpr h1
    have e2 : (c == '\x7d') = false := beq_eq_false_iff_ne.mpr h2
    simp [e1, e2]

theorem countB_ph {name : Chars} (h : braceFree name = true) :
    List.countP (fun c => c == '\x7b' || c == '\x7d') (ph name) = 4 := by
  rw [show ph name = ['\x7b', '\x7b'] ++ name ++ ['\x7d', '\x7d'] from by
    rw [ph]; simp]
  rw [List.countP_append, List.countP_append, countB_zero h]
  rfl

/-- The substitution scan copies a brace-free prefix verbatim: no placeholder
match can start inside it. -/
theorem replaceList_bf_skip (name repl : Chars) :
    ∀ (a t : Chars), braceFree a = true →
      replaceList (ph name) repl (a ++ t) = a ++ replaceList (ph name) repl t := by
  intro a
  induction a with
  | nil => intro t _; rfl
  | cons c a2 ih =>
    intro t h
    obtain ⟨h1, -, h3⟩ := braceFree_cons h
    rw [show (c :: a2) ++ t = c :: (a2 ++ t) from rfl]
    rw [replaceList_cons (ph_ne_nil name) repl]
    have hsw : startsWithL (ph name) (c :: (a2 ++ t)) = false := by
      rw [show ph name = '\x7b' :: ('\x7b' :: (name ++ ['\x7d', '\x7d'])) from rfl]
      exact startsWithL_head_ne '\x7b' _ c _ (beq_eq_false_iff_ne.mpr (Ne.symm h1))
    rw [hsw]
    simp only [Bool.false_eq_true, if_false]
    rw [ih t h3]
    rfl

/-- One substitution pass over unknown junk followed by a known template
slice `A ++ ph name ++ B`: the junk is processed independently and the
slice's placeholder is spliced.  `hstr` rules out a match straddling the
junk/slice boundary, `hA` one starting inside `A`, `hB` a second occurrence
in `B`. -/
theorem replaceList_step_junk {name repl A B : Chars}
    (hA : braceFree A = true)
    (hB : findSplit (ph name) B = none)
    (hstr : ∀ k, k < (ph name).length → 0 < k →
      startsWithL ((ph name).drop k) (A ++ (ph name ++ B)) = false) :
    ∀ J : Chars, replaceList (ph name) repl (J ++ (A ++ (ph name ++ B)))
      = replaceList (ph name) repl J ++ (A ++ (repl ++ B)) := by
  suffices hsuf : ∀ n J, J.length = n →
      replaceList (ph name) repl (J ++ (A ++ (ph name ++ B)))
        = replaceList (ph name) repl J ++ (A ++ (repl ++ B)) by
    intro J
    exact hsuf J.length J rfl
  intro n
  induction n using Nat.strong_induction_on with
  | _ n IH =>
    intro J hJ
    cases J with
    | nil =>
      rw [replaceList_nil]
      simp only [List.nil_append]
      rw [show A ++ (ph name ++ B) = A ++ ph name ++ B from by simp]
      rw [show ph name = '\x7b' :: ('\x7b' :: (name ++ ['\x7d', '\x7d'])) from rfl]
      rw [replaceList_once (braceFree_lb_not_mem hA) hB]
      simp [List.append_assoc]
    | cons c J2 =>
      by_cases hlen : (ph name).length ≤ (c :: J2).length
      · have heq : startsWithL (ph name) (c :: (J2 ++ (A ++ (ph name ++ B))))
            = startsWithL (ph name) (c :: J2) := by
          rw [show c :: (J2 ++ (A ++ (ph name ++ B)))
              = (c :: J2) ++ (A ++ (ph name ++ B)) from rfl]
          exact startsWithL_append_stop (ph name) (c :: J2) _ hlen
        rw [show (c :: J2) ++ (A ++ (ph name ++ B))
            = c :: (J2 ++ (A ++ (ph name ++ B))) from rfl]
        rw [replaceList_cons (ph_ne_nil name) repl, heq]
        by_cases hsw : startsWithL (ph name) (c :: J2) = true
        · obtain ⟨t, ht⟩ := (startsWithL_iff _ _).mp hsw
          rw [if_pos hsw]
          have hdrop : (c :: (J2 ++ (A ++ (ph name ++ B)))).drop (ph name).length
              = t ++ (A ++ (ph name ++ B)) := by
            rw [show c :: (J2 ++ (A ++ (ph name ++ B)))
                = (c :: J2) ++ (A ++ (ph name ++ B)) from rfl, ht, List.append_assoc,
              List.drop_left]
          rw [hdrop]
          have hlt : t.length < n := by
            have hlen2 := congrArg List.length ht
            simp only [List.length_cons, List.length_append] at hlen2
            have h4 := ph_length name
            simp only [List.length_cons] at hJ
            omega
          rw [IH t.length hlt t rfl]
          rw [show replaceList (ph name) repl (c :: J2)
              = repl ++ replaceList (ph name) repl t from by
            rw [replaceList_cons (ph_ne_nil name) repl, if_pos hsw, ht, List.drop_left]]
          simp [List.append_assoc]
        · rw [if_neg hsw]
          have hlt : J2.length < n := by simp only [List.length_cons] at hJ; omega
          rw [IH J2.length hlt J2 rfl]
          rw [show replaceList (ph name) repl (c :: J2)
              = c :: replaceList (ph name) repl J2 from by
            rw [replaceList_cons (ph_ne_nil name) repl, if_neg hsw]]
          rfl
      · have hswfull : startsWithL (ph name) (c :: (J2 ++ (A ++ (ph name ++ B))))
            = false := by
          cases hx : startsWithL (ph name) (c :: (J2 ++ (A ++ (ph name ++ B)))) with
          | false => rfl
          | true =>
            exfalso
            obtain ⟨t, ht⟩ := (startsWithL_iff _ _).mp hx
            rcases List.append_eq_append_iff.mp
                (show (c :: J2) ++ (A ++ (ph name ++ B)) = ph name ++ t from ht) with
              ⟨a2, ha2, hT⟩ | ⟨c2, hc2, ht2⟩
            · have ha2ne : a2 ≠ [] := by
                intro h0
                rw [h0, List.append_nil] at ha2
                have := congrArg List.length ha2
                omega
              have hk := hstr (c :: J2).length
                (by
                  have hl2 := congrArg List.length ha2
                  simp only [List.length_append] at hl2
                  have hpos : 0 < a2.length := List.length_pos.mpr ha2ne
                  omega)
                (by simp)
              have hdrop2 : (ph name).drop (c :: J2).length = a2 := by
                rw [ha2, List.drop_left]
              rw [hdrop2] at hk
              have hT2 : startsWithL a2 (A ++ (ph name ++ B)) = true :=
                (startsWithL_iff _ _).mpr ⟨t, hT⟩
              rw [hT2] at hk
              cases hk
            · have := congrArg List.length hc2
              simp only [List.length_append] at this
              omega
        rw [show (c :: J2) ++ (A ++ (ph name ++ B))
            = c :: (J2 ++ (A ++ (ph name ++ B))) from rfl]
        rw [replaceList_cons (ph_ne_nil name) repl, hswfull]
        simp only [Bool.false_eq_true, if_false]
        have hlt : J2.length < n := by simp only [List.length_cons] at hJ; omega
        rw [IH J2.length hlt J2 rfl]
        rw [show replaceList (ph name) repl (c :: J2)
            = c :: replaceList (ph name) repl J2 from by
          rw [replaceList_cons (ph_ne_nil name) repl,
            if_neg (not_true_of_false (startsWithL_of_short (by
              simp only [List.length_cons] at hlen ⊢; omega)))]]
        rfl

/-- A brace-free segment strictly longer than the placeholder's name survives
a full substitution pass: no match of the placeholder can overlap it. -/
theorem replaceList_survives {name repl mid : Chars}
    (hname : braceFree name = true) (hmid : braceFree mid = true)
    (hlen : name.length < mid.length) :
    ∀ s x y, s = x ++ (mid ++ y) →
      ∃ x2 y2, replaceList (ph name) repl s = x2 ++ (mid ++ y2) := by
  suffices hsuf : ∀ n s, s.length = n → ∀ x y, s = x ++ (mid ++ y) →
      ∃ x2 y2, replaceList (ph name) repl s = x2 ++ (mid ++ y2) by
    intro s x y hs
    exact hsuf s.length s rfl x y hs
  intro n
  induction n using Nat.strong_induction_on with
  | _ n IH =>
    intro s hn x y hs
    subst hs
    cases x with
    | nil =>
      simp only [List.nil_append]
      exact ⟨[], replaceList (ph name) repl y, by
        rw [replaceList_bf_skip name repl mid y hmid]
        rfl⟩
    | cons x0 x1 =>
      by_cases hsw : startsWithL (ph name) (x0 :: (x1 ++ (mid ++ y))) = true
      · obtain ⟨rest, hrest⟩ := (startsWithL_iff _ _).mp hsw
        have hstep : replaceList (ph name) repl ((x0 :: x1) ++ (mid ++ y))
            = repl ++ replaceList (ph name) repl rest := by
          rw [show (x0 :: x1) ++ (mid ++ y) = x0 :: (x1 ++ (mid ++ y)) from rfl,
            replaceList_cons (ph_ne_nil name) repl, if_pos hsw]
          congr 1
          rw [show x0 :: (x1 ++ (mid ++ y)) = ph name ++ rest from hrest, List.drop_left]
        have hrlen : rest.length < n := by
          have hl1 := congrArg List.length hrest
          simp only [List.length_cons, List.length_append] at hl1 hn
          have h4 := ph_length name
          omega
        rw [hstep]
        rcases List.append_eq_append_iff.mp
            (show (x0 :: x1) ++ (mid ++ y) = ph name ++ rest from hrest) with
          ⟨a2, ha2, hrest2⟩ | ⟨c2, hc2, hrest2⟩
        · rcases List.append_eq_append_iff.mp hrest2 with ⟨w, hw1, hw2⟩ | ⟨w, hw1, hw2⟩
          · exfalso
            have hph := countB_ph hname
            rw [ha2, hw1] at hph
            rw [List.countP_append, List.countP_append, countB_zero hmid] at hph
            have hl1 : List.countP (fun c => c == '\x7b' || c == '\x7d') (x0 :: x1)
                ≤ (x0 :: x1).length := List.countP_le_length _
            have hl2 : List.countP (fun c => c == '\x7b' || c == '\x7d') w
                ≤ w.length := List.countP_le_length _
            have hl3 := congrArg List.length ha2
            rw [hw1] at hl3
            simp only [List.length_append] at hl3
            have h4 := ph_length name
            omega
          · cases ha2e : a2 with
            | nil =>
              rw [ha2e] at hw1
              simp only [List.nil_append] at hw1
              have hrw : rest = mid ++ y := by rw [hw2, ← hw1]
              obtain ⟨x2, y2, hxy⟩ := IH rest.length hrlen rest rfl [] y (by
                simp [hrw])
              exact ⟨repl ++ x2, y2, by rw [hxy]; simp [List.append_assoc]⟩
            | cons a0 a1 =>
              exfalso
              have hgl : ((x0 :: x1) ++ a2).getLast? = some '\x7d' := by
                rw [← ha2, ph_getLast]
              rw [getLast?_append_right _ (by rw [ha2e]; simp)] at hgl
              have hmem : '\x7d' ∈ a2 := getLast?_some_mem hgl
              have hmm : '\x7d' ∈ mid := by
                rw [hw1]
                exact List.mem_append_left _ hmem
              exact braceFree_rb_not_mem hmid hmm
        · obtain ⟨x2, y2, hxy⟩ := IH rest.length hrlen rest rfl c2 y hrest2
          exact ⟨repl ++ x2, y2, by rw [hxy]; simp [List.append_assoc]⟩
      · rw [show (x0 :: x1) ++ (mid ++ y) = x0 :: (x1 ++ (mid ++ y)) from rfl,
          replaceList_cons (ph_ne_nil name) repl, if_neg hsw]
        have hlt : (x1 ++ (mid ++ y)).length < n := by
          simp only [List.length_cons, List.length_append] at hn
          simp only [List.length_append]
          omega
        obtain ⟨x2, y2, hxy⟩ := IH (x1 ++ (mid ++ y)).length hlt (x1 ++ (mid ++ y))
          rfl x1 y rfl
        exact ⟨x0 :: x2, y2, by rw [hxy]; rfl⟩

theorem replaceList_step_junk_ex {name repl A B : Chars}
    (hA : braceFree A = true)
    (hB : findSplit (ph name) B = none)
    (hstr : ∀ k, k < (ph name).length → 0 < k →
      startsWithL ((ph name).drop k) (A ++ (ph name ++ B)) = false)
    (J : Chars) :
    ∃ X, replaceList (ph name) repl (J ++ (A ++ (ph name ++ B)))
      = X ++ (A ++ (repl ++ B)) :=
  ⟨replaceList (ph name) repl J, replaceList_step_junk hA hB hstr J⟩

/-- A surviving infix stays an infix through one substitution pass followed by
appended text. -/
theorem survive_step {name repl mid : Chars} (hname : braceFree name = true)
    (hmid : braceFree mid = true) (hlen : name.length < mid.length)
    {s tail : Chars} (h : mid <:+: s) :
    mid <:+: (replaceList (ph name) repl s ++ tail) := by
  obtain ⟨a, b, hab⟩ := h
  obtain ⟨x2, y2, h2⟩ := replaceList_survives hname hmid hlen s a b (by
    rw [← hab]; simp [List.append_assoc])
  exact ⟨x2, y2 ++ tail, by rw [h2]; simp [List.append_assoc]⟩

theorem infix_tail2 (a mid : Chars) : mid <:+: a ++ mid :=
  ⟨a, [], by simp⟩

theorem infix_tail (a b mid : Chars) : mid <:+: a ++ (b ++ mid) :=
  ⟨a ++ b, [], by simp⟩

theorem infix_mid (a b mid t : Chars) : mid <:+: a ++ (b ++ (mid ++ t)) :=
  ⟨a ++ b, t, by simp⟩

/-- The education section's exact closed form for a mapping-valued education:
no hypotheses on the values, the junk to the left of each later placeholder is
simply reprocessed by the later passes. -/
theorem renderEducation_closed (ed : EduRec) :
    renderEducationSection (.record ed)
      = replaceList (ph ("description").data) (ed.description.getD defaultEduDescription)
          (replaceList (ph ("period").data) (ed.period.getD defaultEduPeriod)
            (replaceList (ph ("university").data) (ed.university.getD defaultUniversity)
              (("## Education\n### ").data ++ ed.degree.getD defaultDegree)
              ++ ((" - ").data ++ ed.university.getD defaultUniversity))
            ++ (nl ++ ed.period.getD defaultEduPeriod))
        ++ (nl ++ (ed.description.getD defaultEduDescription ++ nl)) := by
  show pyReplace (pyReplace (pyReplace (pyReplace education_section_template
    (ph ("degree").data) (ed.degree.getD defaultDegree))
    (ph ("university").data) (ed.university.getD defaultUniversity))
    (ph ("period").data) (ed.period.getD defaultEduPeriod))
    (ph ("description").data) (ed.description.getD defaultEduDescription) = _
  have e1 : pyReplace education_section_template (ph ("degree").data)
      (ed.degree.getD defaultDegree)
      = (("## Education\n### ").data ++ ed.degree.getD defaultDegree)
        ++ ((" - ").data ++ (ph ("university").data
          ++ (nl ++ (ph ("period").data ++ (nl ++ (ph ("description").data ++ nl)))))) := by
    rw [show education_section_template
        = ("## Education\n### ").data ++ ph ("degree").data
          ++ ((" - ").data ++ (ph ("university").data
            ++ (nl ++ (ph ("period").data ++ (nl ++ (ph ("description").data ++ nl))))))
      from by rw [education_section_template]; simp [ph, nl]]
    rw [subst_ph _ (by decide) (by decide)]
    try simp [List.append_assoc]
  rw [e1]
  have e2 : pyReplace ((("## Education\n### ").data ++ ed.degree.getD defaultDegree)
        ++ ((" - ").data ++ (ph ("university").data
          ++ (nl ++ (ph ("period").data ++ (nl ++ (ph ("description").data ++ nl)))))))
      (ph ("university").data) (ed.university.getD defaultUniversity)
      = replaceList (ph ("university").data) (ed.university.getD defaultUniversity)
          (("## Education\n### ").data ++ ed.degree.getD defaultDegree)
        ++ ((" - ").data ++ (ed.university.getD defaultUniversity
          ++ (nl ++ (ph ("period").data ++ (nl ++ (ph ("description").data ++ nl)))))) := by
    rw [pyReplace]
    exact @replaceList_step_junk (("university").data)
      (ed.university.getD defaultUniversity) ((" - ").data)
      (nl ++ (ph ("period").data ++ (nl ++ (ph ("description").data ++ nl))))
      (by decide) (by decide) (by decide)
      (("## Education\n### ").data ++ ed.degree.getD defaultDegree)
  rw [e2]
  have e3 : pyReplace (replaceList (ph ("university").data)
          (ed.university.getD defaultUniversity)
          (("## Education\n### ").data ++ ed.degree.getD defaultDegree)
        ++ ((" - ").data ++ (ed.university.getD defaultUniversity
          ++ (nl ++ (ph ("period").data ++ (nl ++ (ph ("description").data ++ nl)))))))
      (ph ("period").data) (ed.period.getD defaultEduPeriod)
      = replaceList (ph ("period").data) (ed.period.getD defaultEduPeriod)
          (replaceList (ph ("university").data) (ed.university.getD defaultUniversity)
            (("## Education\n### ").data ++ ed.degree.getD defaultDegree)
            ++ ((" - ").data ++ ed.university.getD defaultUniversity))
        ++ (nl ++ (ed.period.getD defaultEduPeriod
          ++ (nl ++ (ph ("description").data ++ nl)))) := by
    rw [pyReplace]
    rw [show replaceList (ph ("university").data) (ed.university.getD defaultUniversity)
          (("## Education\n### ").data ++ ed.degree.getD defaultDegree)
        ++ ((" - ").data ++ (ed.university.getD defaultUniversity
          ++ (nl ++ (ph ("period").data ++ (nl ++ (ph ("description").data ++ nl))))))
        = (replaceList (ph ("university").data) (ed.university.getD defaultUniversity)
            (("## Education\n### ").data ++ ed.degree.getD defaultDegree)
            ++ ((" - ").data ++ ed.university.getD defaultUniversity))
          ++ (nl ++ (ph ("period").data ++ (nl ++ (ph ("description").data ++ nl))))
      from by simp [List.append_assoc]]
    exact @replaceList_step_junk (("period").data) (ed.period.getD defaultEduPeriod)
      nl (nl ++ (ph ("description").data ++ nl)) (by decide) (by decide) (by decide)
      (replaceList (ph ("university").data) (ed.university.getD defaultUniversity)
        (("## Education\n### ").data ++ ed.degree.getD defaultDegree)
        ++ ((" - ").data ++ ed.university.getD defaultUniversity))
  rw [e3]
  have e4 : pyReplace (replaceList (ph ("period").data) (ed.period.getD defaultEduPeriod)
          (replaceList (ph ("university").data) (ed.university.getD defaultUniversity)
            (("## Education\n### ").data ++ ed.degree.getD defaultDegree)
            ++ ((" - ").data ++ ed.university.getD defaultUniversity))
        ++ (nl ++ (ed.period.getD defaultEduPeriod
          ++ (nl ++ (ph ("description").data ++ nl)))))
      (ph ("description").data) (ed.description.getD defaultEduDescription)
      = replaceList (ph ("description").data) (ed.description.getD defaultEduDescription)
          (replaceList (ph ("period").data) (ed.period.getD defaultEduPeriod)
            (replaceList (ph ("university").data) (ed.university.getD defaultUniversity)
              (("## Education\n### ").data ++ ed.degree.getD defaultDegree)
              ++ ((" - ").data ++ ed.university.getD defaultUniversity))
            ++ (nl ++ ed.period.getD defaultEduPeriod))
        ++ (nl ++ (ed.description.getD defaultEduDescription ++ nl)) := by
    rw [pyReplace]
    rw [show replaceList (ph ("period").data) (ed.period.getD defaultEduPeriod)
          (replaceList (ph ("university").data) (ed.university.getD defaultUniversity)
            (("## Education\n### ").data ++ ed.degree.getD defaultDegree)
            ++ ((" - ").data ++ ed.university.getD defaultUniversity))
        ++ (nl ++ (ed.period.getD defaultEduPeriod
          ++ (nl ++ (ph ("description").data ++ nl))))
        = (replaceList (ph ("period").data) (ed.period.getD defaultEduPeriod)
            (replaceList (ph ("university").data) (ed.university.getD defaultUniversity)
              (("## Education\n### ").data ++ ed.degree.getD defaultDegree)
              ++ ((" - ").data ++ ed.university.getD defaultUniversity))
            ++ (nl ++ ed.period.getD defaultEduPeriod))
          ++ (nl ++ (ph ("description").data ++ nl))
      from by simp [List.append_assoc]]
    exact @replaceList_step_junk (("description").data)
      (ed.description.getD defaultEduDescription) nl nl
      (by decide) (by decide) (by decide)
      (replaceList (ph ("period").data) (ed.period.getD defaultEduPeriod)
        (replaceList (ph ("university").data) (ed.university.getD defaultUniversity)
          (("## Education\n### ").data ++ ed.degree.getD defaultDegree)
          ++ ((" - ").data ++ ed.university.getD defaultUniversity))
        ++ (nl ++ ed.period.getD defaultEduPeriod))
  rw [e4]

/-- The markdown output contains the rendered education section verbatim: the
education placeholder is the last one substituted into the top template. -/
theorem convert_markdown_edu (r : ResumeRecord) :
    ∃ X, convert_json_to_markdown r
      = X ++ (nl ++ (renderEducationSection r.education ++ nl)) := by
  have e1 : pyReplace output_template (ph ("top_section").data) (renderTopSection r)
      = renderTopSection r
        ++ (nl ++ (ph ("summary_section").data
        ++ (nl ++ (ph ("references_section").data
        ++ (nl ++ (ph ("experiences_section").data
        ++ (nl ++ (ph ("skills_section").data
        ++ (nl ++ (ph ("education_section").data ++ nl)))))))))) := by
    rw [show output_template
        = [] ++ ph ("top_section").data
          ++ (nl ++ (ph ("summary_section").data
          ++ (nl ++ (ph ("references_section").data
          ++ (nl ++ (ph ("experiences_section").data
          ++ (nl ++ (ph ("skills_section").data
          ++ (nl ++ (ph ("education_section").data ++ nl))))))))))
      from by rw [output_template]; simp [ph, nl]]
    rw [subst_ph _ (by decide) (by decide)]
    try simp [List.append_assoc]
  obtain ⟨X2, e2⟩ := @replaceList_step_junk_ex (("summary_section").data)
    (renderSummarySection r) nl
    (nl ++ (ph ("references_section").data
      ++ (nl ++ (ph ("experiences_section").data
      ++ (nl ++ (ph ("skills_section").data
      ++ (nl ++ (ph ("education_section").data ++ nl))))))))
    (by decide) (by decide) (by decide) (renderTopSection r)
  obtain ⟨X3, e3⟩ := @replaceList_step_junk_ex (("references_section").data)
    (renderReferencesSection r.references) nl
    (nl ++ (ph ("experiences_section").data
      ++ (nl ++ (ph ("skills_section").data
      ++ (nl ++ (ph ("education_section").data ++ nl))))))
    (by decide) (by decide) (by decide) (X2 ++ (nl ++ renderSummarySection r))
  obtain ⟨X4, e4⟩ := @replaceList_step_junk_ex (("experiences_section").data)
    (renderExperiencesSection r.experience) nl
    (nl ++ (ph ("skills_section").data ++ (nl ++ (ph ("education_section").data ++ nl))))
    (by decide) (by decide) (by decide)
    (X3 ++ (nl ++ renderReferencesSection r.references))
  obtain ⟨X5, e5⟩ := @replaceList_step_junk_ex (("skills_section").data)
    (renderSkillsSection r.skills) nl
    (nl ++ (ph ("education_section").data ++ nl))
    (by decide) (by decide) (by decide)
    (X4 ++ (nl ++ renderExperiencesSection r.experience))
  obtain ⟨X6, e6⟩ := @replaceList_step_junk_ex (("education_section").data)
    (renderEducationSection r.education) nl nl
    (by decide) (by decide) (by decide) (X5 ++ (nl ++ renderSkillsSection r.skills))
  refine ⟨X6, ?_⟩
  show pyReplace (pyReplace (pyReplace (pyReplace (pyReplace (pyReplace output_template
      (ph ("top_section").data) (renderTopSection r))
      (ph ("summary_section").data) (renderSummarySection r))
      (ph ("references_section").data) (renderReferencesSection r.references))
      (ph ("experiences_section").data) (renderExperiencesSection r.experience))
      (ph ("skills_section").data) (renderSkillsSection r.skills))
      (ph ("education_section").data) (renderEducationSection r.education)
    = X6 ++ (nl ++ (renderEducationSection r.education ++ nl))
  rw [e1]
  rw [show pyReplace (renderTopSection r
        ++ (nl ++ (ph ("summary_section").data
        ++ (nl ++ (ph ("references_section").data
        ++ (nl ++ (ph ("experiences_section").data
        ++ (nl ++ (ph ("skills_section").data
        ++ (nl ++ (ph ("education_section").data ++ nl)))))))))))
      (ph ("summary_section").data) (renderSummarySection r)
      = X2 ++ (nl ++ (renderSummarySection r
        ++ (nl ++ (ph ("references_section").data
        ++ (nl ++ (ph ("experiences_section").data
        ++ (nl ++ (ph ("skills_section").data
        ++ (nl ++ (ph ("education_section").data ++ nl))))))))))
    from by rw [pyReplace]; exact e2]
  rw [show X2 ++ (nl ++ (renderSummarySection r
        ++ (nl ++ (ph ("references_section").data
        ++ (nl ++ (ph ("experiences_section").data
        ++ (nl ++ (ph ("skills_section").data
        ++ (nl ++ (ph ("education_section").data ++ nl))))))))))
      = (X2 ++ (nl ++ renderSummarySection r))
        ++ (nl ++ (ph ("references_section").data
        ++ (nl ++ (ph ("experiences_section").data
        ++ (nl ++ (ph ("skills_section").data
        ++ (nl ++ (ph ("education_section").data ++ nl))))))))
    from by simp [List.append_assoc]]
  rw [show pyReplace ((X2 ++ (nl ++ renderSummarySection r))
        ++ (nl ++ (ph ("references_section").data
        ++ (nl ++ (ph ("experiences_section").data
        ++ (nl ++ (ph ("skills_section").data
        ++ (nl ++ (ph ("education_section").data ++ nl)))))))))
      (ph ("references_section").data) (renderReferencesSection r.references)
      = X3 ++ (nl ++ (renderReferencesSection r.references
        ++ (nl ++ (ph ("experiences_section").data
        ++ (nl ++ (ph ("skills_section").data
        ++ (nl ++ (ph ("education_section").data ++ nl))))))))
    from by rw [pyReplace]; exact e3]
  rw [show X3 ++ (nl ++ (renderReferencesSection r.references
        ++ (nl ++ (ph ("experiences_section").data
        ++ (nl ++ (ph ("skills_section").data
        ++ (nl ++ (ph ("education_section").data ++ nl))))))))
      = (X3 ++ (nl ++ renderReferencesSection r.references))
        ++ (nl ++ (ph ("experiences_section").data
        ++ (nl ++ (ph ("skills_section").data
        ++ (nl ++ (ph ("education_section").data ++ nl))))))
    from by simp [List.append_assoc]]
  rw [show pyReplace ((X3 ++ (nl ++ renderReferencesSection r.references))
        ++ (nl ++ (ph ("experiences_section").data
        ++ (nl ++ (ph ("skills_section").data
        ++ (nl ++ (ph ("education_section").data ++ nl)))))))
      (ph ("experiences_section").data) (renderExperiencesSection r.experience)
      = X4 ++ (nl ++ (renderExperiencesSection r.experience
        ++ (nl ++ (ph ("skills_section").data
        ++ (nl ++ (ph ("education_section").data ++ nl))))))
    from by rw [pyReplace]; exact e4]
  rw [show X4 ++ (nl ++ (renderExperiencesSection r.experience
        ++ (nl ++ (ph ("skills_section").data
        ++ (nl ++ (ph ("education_section").data ++ nl))))))
      = (X4 ++ (nl ++ renderExperiencesSection r.experience))
        ++ (nl ++ (ph ("skills_section").data
        ++ (nl ++ (ph ("education_section").data ++ nl))))
    from by simp [List.append_assoc]]
  rw [show pyReplace ((X4 ++ (nl ++ renderExperiencesSection r.experience))
        ++ (nl ++ (ph ("skills_section").data
        ++ (nl ++ (ph ("education_section").data ++ nl)))))
      (ph ("skills_section").data) (renderSkillsSection r.skills)
      = X5 ++ (nl ++ (renderSkillsSection r.skills
        ++ (nl ++ (ph ("education_section").data ++ nl))))
    from by rw [pyReplace]; exact e5]
  rw [show X5 ++ (nl ++ (renderSkillsSection r.skills
        ++ (nl ++ (ph ("education_section").data ++ nl))))
      = (X5 ++ (nl ++ renderSkillsSection r.skills))
        ++ (nl ++ (ph ("education_section").data ++ nl))
    from by simp [List.append_assoc]]
  rw [show pyReplace ((X5 ++ (nl ++ renderSkillsSection r.skills))
        ++ (nl ++ (ph ("education_section").data ++ nl)))
      (ph ("education_section").data) (renderEducationSection r.education)
      = X6 ++ (nl ++ (renderEducationSection r.education ++ nl))
    from by rw [pyReplace]; exact e6]

/-- Claim C10: for every resume record whose education field is a mapping, each
absent key among degree, university, period and description is rendered in the
markdown output as its fixed hard-coded default string, which is not the empty
string. -/
theorem claim_C10_education_defaults (r : ResumeRecord) (ed : EduRec)
    (hed : r.education = .record ed) :
    (ed.degree = none → defaultDegree <:+: convert_json_to_markdown r)
    ∧ (ed.university = none → defaultUniversity <:+: convert_json_to_markdown r)
    ∧ (ed.period = none → defaultEduPeriod <:+: convert_json_to_markdown r)
    ∧ (ed.description = none → defaultEduDescription <:+: convert_json_to_markdown r)
    ∧ defaultDegree ≠ [] ∧ defaultUniversity ≠ [] ∧ defaultEduPeriod ≠ []
    ∧ defaultEduDescription ≠ [] := by
  obtain ⟨X, hX⟩ := convert_markdown_edu r
  rw [hed] at hX
  have hlift : ∀ d : Chars, d <:+: renderEducationSection (.record ed)
      → d <:+: convert_json_to_markdown r := by
    intro d hd
    obtain ⟨a, b, hab⟩ := hd
    refine ⟨X ++ nl ++ a, b ++ nl, ?_⟩
    rw [hX, ← hab]
    simp [List.append_assoc]
  refine ⟨?_, ?_, ?_, ?_, by decide, by decide, by decide, by decide⟩
  · intro h
    apply hlift
    rw [renderEducation_closed]
    simp only [h, Option.getD_none]
    apply survive_step (by decide) (by decide) (by decide)
    apply survive_step (by decide) (by decide) (by decide)
    apply survive_step (by decide) (by decide) (by decide)
    exact infix_tail2 _ _
  · intro h
    apply hlift
    rw [renderEducation_closed]
    simp only [h, Option.getD_none]
    apply survive_step (by decide) (by decide) (by decide)
    apply survive_step (by decide) (by decide) (by decide)
    exact infix_tail _ _ _
  · intro h
    apply hlift
    rw [renderEducation_closed]
    simp only [h, Option.getD_none]
    apply survive_step (by decide) (by decide) (by decide)
    exact infix_tail _ _ _
  · intro h
    apply hlift
    rw [renderEducation_closed]
    simp only [h, Option.getD_none]
    exact infix_mid _ _ _ _

/-- Witness for `claim_C10_education_defaults` at a concrete record whose
education mapping has all four keys absent. -/
theorem claim_C10_witness :
    defaultDegree <:+: convert_json_to_markdown
        ⟨[], [], [], [], [], .flat [], .record ⟨none, none, none, none⟩⟩
    ∧ defaultUniversity <:+: convert_json_to_markdown
        ⟨[], [], [], [], [], .flat [], .record ⟨none, none, none, none⟩⟩
    ∧ defaultEduPeriod <:+: convert_json_to_markdown
        ⟨[], [], [], [], [], .flat [], .record ⟨none, none, none, none⟩⟩
    ∧ defaultEduDescription <:+: convert_json_to_markdown
        ⟨[], [], [], [], [], .flat [], .record ⟨none, none, none, none⟩⟩
    ∧ defaultDegree ≠ [] := by
  have h := claim_C10_education_defaults
    ⟨[], [], [], [], [], .flat [], .record ⟨none, none, none, none⟩⟩
    ⟨none, none, none, none⟩ rfl
  exact ⟨h.1 rfl, h.2.1 rfl, h.2.2.1 rfl, h.2.2.2.1 rfl, h.2.2.2.2.1⟩

/-! ## Claim C8: output file names across re-generation -/

theorem append_affix_ne {pre suf a b : Chars} (h : a ≠ b) :
    pre ++ a ++ suf ≠ pre ++ b ++ suf := by
  intro heq
  exact h (List.append_cancel_left (List.append_cancel_right heq))

/-- Claim C8, counterexample: two tailoring requests with the same template
name and different timestamps both write `michael_resume.pdf`, so the second
request overwrites an artifact the first one wrote. -/
theorem claim_C8_counterexample :
    ("20250101_000000").data ≠ ("20250102_000000").data
    ∧ ("michael_resume.pdf").data
        ∈ tailorRequestWrites ("michael").data ("20250101_000000").data
    ∧ ("michael_resume.pdf").data
        ∈ tailorRequestWrites ("michael").data ("20250102_000000").data :=
  ⟨by decide, by decide, by decide⟩

/-- Claim C8, amended: the timestamp-qualified intermediates (JSON, text,
markdown) of two requests with distinct timestamps never collide, but the
template-name-qualified artifacts (the resume PDF and the cover-letter files)
keep the same name in both requests, so re-generation with the same template
overwrites them in place. -/
theorem claim_C8_writes_amended (tn ts1 ts2 : Chars) (hts : ts1 ≠ ts2) :
    (("tailored_resume_").data ++ ts1 ++ (".json").data
      ≠ ("tailored_resume_").data ++ ts2 ++ (".json").data)
    ∧ (("tailored_resume_text_").data ++ ts1 ++ (".txt").data
      ≠ ("tailored_resume_text_").data ++ ts2 ++ (".txt").data)
    ∧ (("tailored_resume_markdown_").data ++ ts1 ++ (".md").data
      ≠ ("tailored_resume_markdown_").data ++ ts2 ++ (".md").data)
    ∧ tn ++ ("_resume.pdf").data ∈ tailorRequestWrites tn ts1
    ∧ tn ++ ("_resume.pdf").data ∈ tailorRequestWrites tn ts2
    ∧ coverLetterPrefix tn ++ (".pdf").data ∈ tailorRequestWrites tn ts1
    ∧ coverLetterPrefix tn ++ (".pdf").data ∈ tailorRequestWrites tn ts2 := by
  refine ⟨append_affix_ne hts, append_affix_ne hts, append_affix_ne hts, ?_, ?_, ?_, ?_⟩
    <;> simp [tailorRequestWrites]

/-- Witness for `claim_C8_writes_amended` at two concrete requests. -/
theorem claim_C8_witness :
    (("tailored_resume_").data ++ ("20250101_000000").data ++ (".json").data
      ≠ ("tailored_resume_").data ++ ("20250102_000000").data ++ (".json").data)
    ∧ (("tailored_resume_text_").data ++ ("20250101_000000").data ++ (".txt").data
      ≠ ("tailored_resume_text_").data ++ ("20250102_000000").data ++ (".txt").data)
    ∧ (("tailored_resume_markdown_").data ++ ("20250101_000000").data ++ (".md").data
      ≠ ("tailored_resume_markdown_").data ++ ("20250102_000000").data ++ (".md").data)
    ∧ ("michael").data ++ ("_resume.pdf").data
        ∈ tailorRequestWrites ("michael").data ("20250101_000000").data
    ∧ ("michael").data ++ ("_resume.pdf").data
        ∈ tailorRequestWrites ("michael").data ("20250102_000000").data
    ∧ coverLetterPrefix ("michael").data ++ (".pdf").data
        ∈ tailorRequestWrites ("michael").data ("20250101_000000").data
    ∧ coverLetterPrefix ("michael").data ++ (".pdf").data
        ∈ tailorRequestWrites ("michael").data ("20250102_000000").data :=
  claim_C8_writes_amended ("michael").data ("20250101_000000").data
    ("20250102_000000").data (by decide)

/-! ## Claim C9: download endpoints skip authentication -/

/-- Claim C9: the two download endpoints never consult the credential — an
unauthenticated request receives the file exactly when it exists in the
output directory and a 404 otherwise — while the tailoring, template-listing
and cover-letter-content endpoints reject a missing (403) or invalid (401)
bearer token. -/
theorem claim_C9_download_auth (auth : Chars → Bool) (fs : FS) (filename : Chars)
    (mode : Option Chars) (cred cred2 : Cred) (t : Chars)
    (templatesDir : List Chars) (oracle : Chars → Chars)
    (store : List (Chars × Json)) (interp : Json → Option ResumeRecord)
    (job : JobSubmission) (ts : Chars)
    (hbad : auth t = false) :
    download_resume fs filename mode cred = download_resume fs filename mode cred2
    ∧ download_cover_letter fs filename mode cred
        = download_cover_letter fs filename mode cred2
    ∧ (fs.lookup filename = none →
        download_resume fs filename mode none = .err 404 ("Resume not found").data
        ∧ download_cover_letter fs filename mode none
            = .err 404 ("Cover letter not found").data)
    ∧ ((fs.lookup filename).isSome = true →
        isFileResponse (download_resume fs filename mode none) = true
        ∧ isFileResponse (download_cover_letter fs filename mode none) = true)
    ∧ get_templates auth templatesDir none = .err 403 ("Not authenticated").data
    ∧ get_templates auth templatesDir (some t)
        = .err 401 ("Could not validate credentials").data
    ∧ get_cover_letter_content auth fs filename none
        = .err 403 ("Not authenticated").data
    ∧ get_cover_letter_content auth fs filename (some t)
        = .err 401 ("Could not validate credentials").data
    ∧ tailor_resume_endpoint auth oracle store interp job ts none
        = .err 403 ("Not authenticated").data
    ∧ tailor_resume_endpoint auth oracle store interp job ts (some t)
        = .err 401 ("Could not validate credentials").data := by
  have hgate : protectedGate auth (some t)
      = some (401, ("Could not validate credentials").data) := by
    rw [protectedGate, hbad]
    rfl
  refine ⟨rfl, rfl, ?_, ?_, rfl, ?_, rfl, ?_, rfl, ?_⟩
  · intro hnone
    rw [download_resume, download_cover_letter, hnone]
    exact ⟨rfl, rfl⟩
  · intro hsome
    cases hl : fs.lookup filename with
    | none => rw [hl] at hsome; cases hsome
    | some content =>
      rw [download_resume, download_cover_letter, hl]
      constructor
      · dsimp only
        split_ifs <;> rfl
      · dsimp only
        split_ifs <;> rfl
  · rw [get_templates, hgate]
  · rw [get_cover_letter_content, hgate]
  · rw [tailor_resume_endpoint, hgate]

/-- Witness for `claim_C9_download_auth` at a concrete file system, token and
request. -/
theorem claim_C9_witness :
    download_resume [(("michael_resume.pdf").data, ("PDF").data)]
        (("michael_resume.pdf").data) none (some ("tok").data)
      = download_resume [(("michael_resume.pdf").data, ("PDF").data)]
        (("michael_resume.pdf").data) none none
    ∧ download_cover_letter [(("michael_resume.pdf").data, ("PDF").data)]
        (("michael_resume.pdf").data) none (some ("tok").data)
      = download_cover_letter [(("michael_resume.pdf").data, ("PDF").data)]
        (("michael_resume.pdf").data) none none
    ∧ (([(("michael_resume.pdf").data, ("PDF").data)] : FS).lookup
          (("michael_resume.pdf").data) = none →
        download_resume [(("michael_resume.pdf").data, ("PDF").data)]
          (("michael_resume.pdf").data) none none = .err 404 ("Resume not found").data
        ∧ download_cover_letter [(("michael_resume.pdf").data, ("PDF").data)]
          (("michael_resume.pdf").data) none none
            = .err 404 ("Cover letter not found").data)
    ∧ ((([(("michael_resume.pdf").data, ("PDF").data)] : FS).lookup
          (("michael_resume.pdf").data)).isSome = true →
        isFileResponse (download_resume [(("michael_resume.pdf").data, ("PDF").data)]
          (("michael_resume.pdf").data) none none) = true
        ∧ isFileResponse (download_cover_letter
          [(("michael_resume.pdf").data, ("PDF").data)]
          (("michael_resume.pdf").data) none none) = true)
    ∧ get_templates (fun _ => false) [("michael.json").data] none
        = .err 403 ("Not authenticated").data
    ∧ get_templates (fun _ => false) [("michael.json").data] (some ("tok").data)
        = .err 401 ("Could not validate credentials").data
    ∧ get_cover_letter_content (fun _ => false)
        [(("michael_resume.pdf").data, ("PDF").data)] (("michael_resume.pdf").data) none
        = .err 403 ("Not authenticated").data
    ∧ get_cover_letter_content (fun _ => false)
        [(("michael_resume.pdf").data, ("PDF").data)] (("michael_resume.pdf").data)
        (some ("tok").data)
        = .err 401 ("Could not validate credentials").data
    ∧ tailor_resume_endpoint (fun _ => false) (fun p => p) [] (fun _ => none)
        (JobSubmission.mk ("JD").data none none false) (("20250101_000000").data) none
        = .err 403 ("Not authenticated").data
    ∧ tailor_resume_endpoint (fun _ => false) (fun p => p) [] (fun _ => none)
        (JobSubmission.mk ("JD").data none none false) (("20250101_000000").data)
        (some ("tok").data)
        = .err 401 ("Could not validate credentials").data :=
  claim_C9_download_auth (fun _ => false)
    [(("michael_resume.pdf").data, ("PDF").data)] (("michael_resume.pdf").data)
    none (some ("tok").data) none (("tok").data) [("michael.json").data]
    (fun p => p) [] (fun _ => none)
    (JobSubmission.mk ("JD").data none none false) (("20250101_000000").data) rfl

end Resumer
